import Mathlib

/-!
# Real-time meeting core: relay and meeting page

A shallow embedding of

* `backend/src/realtime/socket.js` (`registerSocketHandlers`): the room-scoped relay;
* `src/pages/Meeting.tsx`: the participants registry callbacks, local media acquisition
  (`getLocalStream`) and the mute toggles (`toggleVideo` / `toggleAudio`).

Part 1 holds the definitions, part 2 the theorems.
-/

/-! ## Part 1a: the relay (`socket.js`) -/

namespace Relay

/-- Identifier of a connected socket. -/
abbrev SocketId := Nat

/-- The adapter state of the relay: for each room key the sockets that are members of it,
in the order in which they joined.  A room that does not exist is the empty list. -/
structure RelayState where
  rooms : String → List SocketId

/-- The object emitted with an event: both relay events carry `{ userId }`. -/
structure Packet where
  event : String
  userId : String
  deriving DecidableEq, Repr

/-- One packet handed to one socket. -/
structure Delivery where
  target : SocketId
  packet : Packet
  deriving DecidableEq, Repr

/-- `socket.join(room)`: the socket becomes a member of the room (a set: joining twice
keeps one membership). -/
def socketJoin (st : RelayState) (s : SocketId) (room : String) : RelayState :=
  { rooms := fun r =>
      if r = room then (if s ∈ st.rooms r then st.rooms r else st.rooms r ++ [s])
      else st.rooms r }

/-- `socket.leave(room)`: the socket stops being a member of the room. -/
def socketLeave (st : RelayState) (s : SocketId) (room : String) : RelayState :=
  { rooms := fun r => if r = room then (st.rooms r).filter (fun t => t ≠ s) else st.rooms r }

/-- `socket.to(room).emit(event, { userId })`: the packet goes to every member of the room
except the emitting socket. -/
def socketToEmit (st : RelayState) (s : SocketId) (room : String) (pkt : Packet) :
    List Delivery :=
  ((st.rooms room).filter (fun t => t ≠ s)).map (fun t => { target := t, packet := pkt })

/-- Handler of `meeting:join` (socket.js lines 3-6). -/
def onMeetingJoin (st : RelayState) (s : SocketId) (meetingId userId : String) :
    RelayState × List Delivery :=
  let st1 := socketJoin st s meetingId
  (st1, socketToEmit st1 s meetingId { event := "meeting:user_joined", userId := userId })

/-- Handler of `meeting:leave` (socket.js lines 8-11). -/
def onMeetingLeave (st : RelayState) (s : SocketId) (meetingId userId : String) :
    RelayState × List Delivery :=
  let st1 := socketLeave st s meetingId
  (st1, socketToEmit st1 s meetingId { event := "meeting:user_left", userId := userId })

/-- The sockets that receive at least one of the deliveries. -/
def recipients (ds : List Delivery) : List SocketId := ds.map (fun d => d.target)

/-- The packets handed to socket `t`. -/
def deliveredTo (ds : List Delivery) (t : SocketId) : List Packet :=
  (ds.filter (fun d => d.target = t)).map (fun d => d.packet)

/-- A relay state with one room `"R1"` whose only member is socket 1. -/
def roomR1 : RelayState :=
  { rooms := fun r => if r = "R1" then [1] else [] }

/-- A message a client socket sends to the relay: the event name and the fields of its
payload object.  The handlers destructure `meetingId` and `userId`; `displayName`, `target`
and `data` stand for whatever else the client put in the payload (a display name, the
addressee and body of a signaling envelope). -/
structure ClientMessage where
  event : String
  meetingId : String
  userId : String
  displayName : Option String
  target : Option SocketId
  data : Option String
  deriving DecidableEq, Repr

/-- What `registerSocketHandlers` makes of a message from socket `s` (socket.js lines 3-11):
the two listeners registered with `socket.on` are `meeting:join` and `meeting:leave`; an
event with another name has no listener, so nothing runs. -/
def dispatch (st : RelayState) (s : SocketId) (m : ClientMessage) :
    RelayState × List Delivery :=
  if m.event = "meeting:join" then onMeetingJoin st s m.meetingId m.userId
  else if m.event = "meeting:leave" then onMeetingLeave st s m.meetingId m.userId
  else (st, [])

/-- The fields of the emitted payload object `{ userId }`, as (key, value) pairs. -/
def Packet.fields (p : Packet) : List (String × String) := [("userId", p.userId)]

/-- A relay state with one room `"R1"` whose members are sockets 1 and 2. -/
def roomR1Two : RelayState :=
  { rooms := fun r => if r = "R1" then [1, 2] else [] }

/-- An `offer` envelope from `"a"` addressed to socket 2 in room `"R1"`. -/
def offerToTwo : ClientMessage :=
  { event := "offer", meetingId := "R1", userId := "a", displayName := none,
    target := some 2, data := some "sdp" }

/-- A `meeting:join` for room `"R1"` by user `"b"` that also carries a display name. -/
def joinWithName (name : String) : ClientMessage :=
  { event := "meeting:join", meetingId := "R1", userId := "b", displayName := some name,
    target := none, data := none }

/-- The `meeting:leave` listener applied to what the client emitted (socket.js line 8).
The listener's parameter is the destructuring pattern `{ meetingId, userId }`: with an
object argument the handler body runs and returns; an emit without an argument
(`undefined`) throws a `TypeError` at the destructuring, before the body. -/
def meetingLeaveListener (st : RelayState) (s : SocketId) (arg : Option (String × String)) :
    Except String (RelayState × List Delivery) :=
  match arg with
  | some (meetingId, userId) => Except.ok (onMeetingLeave st s meetingId userId)
  | none => Except.error "TypeError"

/-- The adapter's `delAll(id)`, which the server runs when a socket closes, before the
`disconnect` listeners: the socket leaves every room. -/
def socketLeaveAll (st : RelayState) (s : SocketId) : RelayState :=
  { rooms := fun r => (st.rooms r).filter (fun t => t ≠ s) }

/-- The disconnect of socket `s` (socket.js line 13): the socket has left its rooms and the
registered listener `() => {}` runs; it emits nothing. -/
def onDisconnect (st : RelayState) (s : SocketId) : RelayState × List Delivery :=
  (socketLeaveAll st s, [])

end Relay

/-! ## Part 1b: the meeting page (`Meeting.tsx`): data -/

namespace MeetingPage

/-- A JavaScript `Map` with string keys: the entries in insertion order. -/
abbrev JsMap (V : Type) := List (String × V)

namespace JsMap

variable {V : Type}

/-- `map.has(k)`. -/
def has (m : JsMap V) (k : String) : Bool := m.any (fun e => e.1 == k)

/-- `map.get(k)`, `none` standing for `undefined`. -/
def get (m : JsMap V) (k : String) : Option V :=
  (m.find? (fun e => e.1 == k)).map (fun e => e.2)

/-- `map.set(k, v)`: an existing key keeps its position and gets the new value, a new key
is appended. -/
def set (m : JsMap V) (k : String) (v : V) : JsMap V :=
  if m.has k then m.map (fun e => if e.1 = k then (k, v) else e) else m ++ [(k, v)]

/-- `map.delete(k)`. -/
def delete (m : JsMap V) (k : String) : JsMap V := m.filter (fun e => e.1 ≠ k)

/-- `Array.from(map.keys())`. -/
def keys (m : JsMap V) : List String := m.map (fun e => e.1)

/-- `Array.from(map.values())`. -/
def values (m : JsMap V) : List V := m.map (fun e => e.2)

end JsMap

/-- `MediaStreamTrack.kind`. -/
inductive TrackKind where
  | video
  | audio
  deriving DecidableEq, Repr

/-- `MediaStreamTrack.readyState`; `track.stop()` moves a track to `ended`. -/
inductive ReadyState where
  | live
  | ended
  deriving DecidableEq, Repr

/-- The fields of a `MediaStreamTrack` the page reads or writes. -/
structure MediaStreamTrack where
  id : String
  kind : TrackKind
  enabled : Bool
  readyState : ReadyState
  deriving DecidableEq, Repr

/-- A `MediaStream`: its `id` and its tracks in insertion order. -/
structure MediaStream where
  id : String
  tracks : List MediaStreamTrack
  deriving DecidableEq, Repr

namespace MediaStream

/-- `stream.getTracks()`. -/
def getTracks (ms : MediaStream) : List MediaStreamTrack := ms.tracks

/-- `stream.getVideoTracks()`. -/
def getVideoTracks (ms : MediaStream) : List MediaStreamTrack :=
  ms.tracks.filter (fun t => t.kind = TrackKind.video)

/-- `stream.getAudioTracks()`. -/
def getAudioTracks (ms : MediaStream) : List MediaStreamTrack :=
  ms.tracks.filter (fun t => t.kind = TrackKind.audio)

/-- `stream.addTrack(track)`: a track already in the stream is not added again. -/
def addTrack (ms : MediaStream) (t : MediaStreamTrack) : MediaStream :=
  if ms.tracks.any (fun u => u.id == t.id) then ms else { ms with tracks := ms.tracks ++ [t] }

/-- `stream.getVideoTracks().forEach(track => track.enabled = b)` (`k = video`), and the
same for audio tracks: every track of kind `k` gets the flag `b`. -/
def setEnabledAll (ms : MediaStream) (k : TrackKind) (b : Bool) : MediaStream :=
  { ms with tracks := ms.tracks.map (fun t => if t.kind = k then { t with enabled := b } else t) }

end MediaStream

/-- Writes `enabled = b` on the first track of kind `k` of a track list: the assignment
`getVideoTracks()[0].enabled = b` seen on the stream that holds the track. -/
def setFirstEnabled (k : TrackKind) (b : Bool) : List MediaStreamTrack → List MediaStreamTrack
  | [] => []
  | t :: ts => if t.kind = k then { t with enabled := b } :: ts else t :: setFirstEnabled k b ts

/-- The `Participant` objects handed over by the session manager; the type is declared in
`@/utils/webrtc`, the fields are the ones `Meeting.tsx` reads and writes. -/
structure Participant where
  userId : String
  userName : String
  stream : Option MediaStream
  deriving DecidableEq, Repr

/-- A `<video>` element: `srcObject` holds a reference to a stream, kept as the stream id. -/
structure VideoElement where
  srcObject : Option String
  deriving DecidableEq, Repr

/-- The `meetings` row loaded by `loadMeeting` (interface `Meeting`). -/
structure Meeting where
  id : String
  title : String
  description : Option String
  scheduled_start : String
  scheduled_end : String
  status : String
  is_confidential : Bool
  deriving DecidableEq, Repr

/-- The `profiles` row kept in `currentUser`; `full_name` may be null. -/
structure Profile where
  id : String
  full_name : Option String
  deriving DecidableEq, Repr

/-- A constructed `WebRTCManager`: the class lives in `@/utils/webrtc`; the page only
constructs it and calls `initialize`, `toggleVideo`, `toggleAudio` and `cleanup` on it, so
the manager is kept as its constructor arguments and every call on it is an `Effect`. -/
structure WebRTCManager where
  meetingId : String
  userId : String
  userName : String
  deriving DecidableEq, Repr

/-- A value thrown in JavaScript: an `Error` (with its `name` and `message`) or anything
else (`error instanceof Error` is false). -/
inductive JsThrown where
  | error (name : String) (message : String)
  | other
  deriving DecidableEq, Repr

/-- `MediaDeviceInfo.kind`. -/
inductive DeviceKind where
  | videoinput
  | audioinput
  | audiooutput
  deriving DecidableEq, Repr

/-- The argument of `getUserMedia`: the page asks either for video
(`width 1280, height 720, frameRate 15, timeout 5000`) or for audio (`timeout 5000`). -/
inductive MediaConstraints where
  | video (idealWidth idealHeight idealFrameRate timeout : Nat)
  | audio (timeout : Nat)
  deriving DecidableEq, Repr

/-- What the page does to the outside, in the order in which it does it. -/
inductive Effect where
  | getUserMedia (c : MediaConstraints)
  | consoleError (label : String)
  | consoleLog (label : String)
  | toast (title description : String) (destructive : Bool)
  | navigate (path : String)
  | managerNew (meetingId userId userName : String)
  | managerInit (streamId : String)
  | managerToggleVideo (enabled : Bool)
  | managerToggleAudio (enabled : Bool)
  | managerCleanup
  | trackStop (trackId : String)
  deriving DecidableEq, Repr

/-- The state of the `Meeting` component: its `useState` cells, its refs and the route
parameter. -/
structure PageState where
  meetingId : Option String
  meeting : Option Meeting
  loading : Bool
  isVideoOn : Bool
  isAudioOn : Bool
  participants : JsMap Participant
  hasJoined : Bool
  currentUser : Option Profile
  localStream : Option MediaStream
  localVideoRef : Option VideoElement
  webrtcManagerRef : Option WebRTCManager
  remoteVideoRefs : JsMap VideoElement
  deriving DecidableEq, Repr

/-- The state at mount (lines 32-43): the initial values of the `useState` cells and refs. -/
def initialState (meetingId : Option String) : PageState :=
  { meetingId := meetingId
    meeting := none
    loading := true
    isVideoOn := true
    isAudioOn := true
    participants := []
    hasJoined := false
    currentUser := none
    localStream := none
    localVideoRef := none
    webrtcManagerRef := none
    remoteVideoRefs := [] }

/-- The result of running an event handler: the state it leaves, the effects it performed
and the value it threw, if any. -/
structure Outcome where
  state : PageState
  effects : List Effect
  raised : Option JsThrown
  deriving DecidableEq, Repr

/-! ## Part 1c: the meeting page: participants registry callbacks (lines 192-222) -/

/-- The updater of `onParticipantJoined`: `new Map(prev).set(participant.userId, participant)`. -/
def participantsJoined (prev : JsMap Participant) (participant : Participant) :
    JsMap Participant :=
  prev.set participant.userId participant

/-- The updater of `onParticipantLeft`: a copy of `prev` with `userId` deleted. -/
def participantsLeft (prev : JsMap Participant) (userId : String) : JsMap Participant :=
  prev.delete userId

/-- The updater of `onStreamAdded`: when `prev` has a participant under `userId` its
`stream` is set and it is stored back under `userId`; otherwise the copy is returned as is. -/
def participantsStreamAdded (prev : JsMap Participant) (userId : String)
    (stream : MediaStream) : JsMap Participant :=
  match prev.get userId with
  | some participant => prev.set userId { participant with stream := some stream }
  | none => prev

/-- Callback `onParticipantJoined` (lines 192-195). -/
def onParticipantJoined (s : PageState) (participant : Participant) : Outcome :=
  { state := { s with participants := participantsJoined s.participants participant }
    effects := [Effect.consoleLog "Participant joined:"]
    raised := none }

/-- Callback `onParticipantLeft` (lines 196-204). -/
def onParticipantLeft (s : PageState) (userId : String) : Outcome :=
  { state := { s with
      participants := participantsLeft s.participants userId
      remoteVideoRefs := s.remoteVideoRefs.delete userId }
    effects := [Effect.consoleLog "Participant left:"]
    raised := none }

/-- Callback `onStreamAdded` (lines 205-222): the registry update, then the stream is
attached to the participant's video element when there is one. -/
def onStreamAdded (s : PageState) (userId : String) (stream : MediaStream) : Outcome :=
  { state := { s with
      participants := participantsStreamAdded s.participants userId stream
      remoteVideoRefs :=
        match s.remoteVideoRefs.get userId with
        | some _ => s.remoteVideoRefs.set userId { srcObject := some stream.id }
        | none => s.remoteVideoRefs }
    effects := [Effect.consoleLog "Stream added for participant:"]
    raised := none }

/-- The snapshot `participantArray` (line 341): `Array.from(participants.values())`. -/
def participantArray (s : PageState) : List Participant := s.participants.values

/-- The count `totalParticipants` (line 342): the snapshot length plus the current user. -/
def totalParticipants (s : PageState) : Nat := (participantArray s).length + 1

/-- A callback of the session manager, as data. -/
inductive RegistryEvent where
  | joined (participant : Participant)
  | left (userId : String)
  | streamAdded (userId : String) (stream : MediaStream)
  deriving DecidableEq, Repr

/-- Runs one manager callback on the page. -/
def applyRegistryEvent (s : PageState) : RegistryEvent → PageState
  | RegistryEvent.joined participant => (onParticipantJoined s participant).state
  | RegistryEvent.left userId => (onParticipantLeft s userId).state
  | RegistryEvent.streamAdded userId stream => (onStreamAdded s userId stream).state

/-- Runs a finite sequence of manager callbacks, first to last. -/
def applyRegistryEvents (s : PageState) (es : List RegistryEvent) : PageState :=
  es.foldl applyRegistryEvent s

/-- Well-formedness of the registry: no key occurs twice and every participant is stored
under its own `userId`. -/
def RegistryWF (m : JsMap Participant) : Prop :=
  m.keys.Nodup ∧ ∀ e ∈ m, e.2.userId = e.1

/-! ## Part 1d: the meeting page: local media (`getLocalStream`, lines 98-175) -/

/-- What the browser answers during one run of `getLocalStream`: the device list of
`enumerateDevices()`, the outcome of `getUserMedia` for video and for audio (used only if
the call is made), and the id of the stream made by `new MediaStream()`. -/
structure MediaEnv where
  devices : List DeviceKind
  openVideo : Except JsThrown MediaStream
  openAudio : Except JsThrown MediaStream
  newStreamId : String

/-- The constraints of the video request (lines 108-115). -/
def videoConstraints : MediaConstraints := MediaConstraints.video 1280 720 15 5000

/-- The constraints of the audio request (lines 118-125). -/
def audioConstraints : MediaConstraints := MediaConstraints.audio 5000

/-- `devices.some(device => device.kind === 'videoinput')` (line 100). -/
def hasVideoInput (devices : List DeviceKind) : Bool :=
  devices.any (fun d => d == DeviceKind.videoinput)

/-- `devices.some(device => device.kind === 'audioinput')` (line 101). -/
def hasAudioInput (devices : List DeviceKind) : Bool :=
  devices.any (fun d => d == DeviceKind.audioinput)

/-- Lines 107-116: the video request, made only when `hasVideo`.  Gives the value of
`videoStream` (or what was thrown) and the calls made. -/
def openVideoStep (hasVideo : Bool) (env : MediaEnv) :
    Except JsThrown (Option MediaStream) × List Effect :=
  if hasVideo then
    match env.openVideo with
    | Except.ok vs => (Except.ok (some vs), [Effect.getUserMedia videoConstraints])
    | Except.error e => (Except.error e, [Effect.getUserMedia videoConstraints])
  else (Except.ok none, [])

/-- Lines 117-126: the audio request, made only when `hasAudio`. -/
def openAudioStep (hasAudio : Bool) (env : MediaEnv) :
    Except JsThrown (Option MediaStream) × List Effect :=
  if hasAudio then
    match env.openAudio with
    | Except.ok as => (Except.ok (some as), [Effect.getUserMedia audioConstraints])
    | Except.error e => (Except.error e, [Effect.getUserMedia audioConstraints])
  else (Except.ok none, [])

/-- Lines 107-130, the first half of the `try` block: the video request, then the audio
request, then the check that at least one stream was obtained.  A throw ends the block at
once. -/
def acquireStreams (hasVideo hasAudio : Bool) (env : MediaEnv) :
    Except JsThrown (Option MediaStream × Option MediaStream) × List Effect :=
  match openVideoStep hasVideo env with
  | (Except.error e, eff1) => (Except.error e, eff1)
  | (Except.ok videoStream, eff1) =>
    match openAudioStep hasAudio env with
    | (Except.error e, eff2) => (Except.error e, eff1 ++ eff2)
    | (Except.ok audioStream, eff2) =>
      if videoStream.isNone && audioStream.isNone then
        (Except.error (JsThrown.error "Error" "No media devices found."), eff1 ++ eff2)
      else (Except.ok (videoStream, audioStream), eff1 ++ eff2)

/-- Lines 132-134: `new MediaStream()` filled with the video tracks of `videoStream` and
then the audio tracks of `audioStream`. -/
def combineStreams (newStreamId : String) (videoStream audioStream : Option MediaStream) :
    MediaStream :=
  let empty : MediaStream := { id := newStreamId, tracks := [] }
  let withVideo :=
    match videoStream with
    | some vs => vs.getVideoTracks.foldl MediaStream.addTrack empty
    | none => empty
  match audioStream with
  | some as => as.getAudioTracks.foldl MediaStream.addTrack withVideo
  | none => withVideo

/-- Lines 149-168: the toast description chosen in the `catch` block. -/
def mediaErrorDescription (error : JsThrown) (hasVideo hasAudio : Bool) : String :=
  match error with
  | JsThrown.other => "An unknown error occurred while accessing your media devices."
  | JsThrown.error name _ =>
    if name = "NotFoundError" then
      if !hasVideo && !hasAudio then
        "No camera or microphone found. Please connect a device to join."
      else if !hasVideo then "No camera found. You can join with audio only."
      else if !hasAudio then "No microphone found. You can join with video only."
      else "An unknown error occurred while accessing your media devices."
    else if name = "NotReadableError" then
      "Your camera or microphone might be in use by another application, or there's a hardware issue. Please close other apps or restart your device."
    else if name = "AbortError" then
      "Access to your camera or microphone timed out. Please ensure your devices are connected and try again, or restart your browser."
    else if name = "NotAllowedError" ∨ name = "SecurityError" then
      "Permission to access your camera or microphone was denied. Please grant permissions in your browser settings."
    else if name = "OverconstrainedError" then
      "Your device does not support the requested camera/microphone settings. Try with default settings."
    else "An unknown error occurred while accessing your media devices."

/-- `getLocalStream` (lines 98-175), run on the device list and browser answers of `env`.
On success the combined stream becomes `localStream` (and the `srcObject` of the local
video element, when mounted), the flags become `hasVideo` / `hasAudio` and every track of
the combined stream gets the flag of its kind.  On a throw inside the `try` block the
state is not touched: the error is logged and one toast is shown. -/
def getLocalStream (s : PageState) (env : MediaEnv) : Outcome :=
  let hasVideo := hasVideoInput env.devices
  let hasAudio := hasAudioInput env.devices
  match acquireStreams hasVideo hasAudio env with
  | (Except.ok (videoStream, audioStream), eff) =>
    let combinedStream := combineStreams env.newStreamId videoStream audioStream
    let finalStream :=
      (combinedStream.setEnabledAll TrackKind.video hasVideo).setEnabledAll
        TrackKind.audio hasAudio
    { state := { s with
        localStream := some finalStream
        localVideoRef := s.localVideoRef.map (fun _ => { srcObject := some combinedStream.id })
        isVideoOn := hasVideo
        isAudioOn := hasAudio }
      effects := eff
      raised := none }
  | (Except.error error, eff) =>
    { state := s
      effects := eff ++
        [Effect.consoleError "Error getting user media:",
         Effect.toast "Media Access Error" (mediaErrorDescription error hasVideo hasAudio) true]
      raised := none }

/-- Whether an `Except` value is a throw. -/
def isThrow {ε α : Type} : Except ε α → Bool
  | Except.error _ => true
  | Except.ok _ => false

/-- The failing runs of `getLocalStream`: the video device is found and opening it throws,
or the audio device is found and opening it throws, or no input device is found. -/
def mediaFails (env : MediaEnv) : Bool :=
  (hasVideoInput env.devices && isThrow env.openVideo) ||
  (hasAudioInput env.devices && isThrow env.openAudio) ||
  (!hasVideoInput env.devices && !hasAudioInput env.devices)

/-- The `getUserMedia` requests a run makes, in order: video when a camera is found, then
audio when a microphone is found and the video request, if made, did not throw. -/
def attemptedCalls (env : MediaEnv) : List MediaConstraints :=
  (if hasVideoInput env.devices then [videoConstraints] else []) ++
  (if hasAudioInput env.devices && !(hasVideoInput env.devices && isThrow env.openVideo)
    then [audioConstraints] else [])

/-- The value caught by the `catch` block of a failing run: what the first failing
request threw, or the `Error("No media devices found.")` of line 129. -/
def thrownValue (env : MediaEnv) : JsThrown :=
  match hasVideoInput env.devices, env.openVideo with
  | true, Except.error e => e
  | _, _ =>
    match hasAudioInput env.devices, env.openAudio with
    | true, Except.error e => e
    | _, _ => JsThrown.error "Error" "No media devices found."

/-- Whether the device list has an input of the given kind. -/
def hasInput (devices : List DeviceKind) : TrackKind → Bool
  | TrackKind.video => hasVideoInput devices
  | TrackKind.audio => hasAudioInput devices

/-- The browser's answer to the request for the given kind. -/
def MediaEnv.openKind (env : MediaEnv) : TrackKind → Except JsThrown MediaStream
  | TrackKind.video => env.openVideo
  | TrackKind.audio => env.openAudio

/-- The request made for the given kind. -/
def constraintsFor : TrackKind → MediaConstraints
  | TrackKind.video => videoConstraints
  | TrackKind.audio => audioConstraints

/-- The other kind. -/
def otherKind : TrackKind → TrackKind
  | TrackKind.video => TrackKind.audio
  | TrackKind.audio => TrackKind.video

/-- The tracks of a stream that have the given kind. -/
def tracksOfKind (ms : MediaStream) (k : TrackKind) : List MediaStreamTrack :=
  ms.tracks.filter (fun t => t.kind = k)

/-- Whether an effect is a toast. -/
def Effect.isToast : Effect → Bool
  | Effect.toast _ _ _ => true
  | _ => false

/-- Whether an effect is a `getUserMedia` request. -/
def Effect.isGetUserMedia : Effect → Bool
  | Effect.getUserMedia _ => true
  | _ => false

/-- A live, enabled camera track and the stream `getUserMedia` resolves with for video. -/
def cameraStream : MediaStream :=
  { id := "cam"
    tracks := [{ id := "v1", kind := TrackKind.video, enabled := true,
                 readyState := ReadyState.live }] }

/-- A live, enabled microphone track and the stream `getUserMedia` resolves with for audio. -/
def micStream : MediaStream :=
  { id := "mic"
    tracks := [{ id := "a1", kind := TrackKind.audio, enabled := true,
                 readyState := ReadyState.live }] }

/-- Camera and microphone found, the camera opens, the microphone is busy. -/
def envAudioThrows : MediaEnv :=
  { devices := [DeviceKind.videoinput, DeviceKind.audioinput]
    openVideo := Except.ok cameraStream
    openAudio := Except.error (JsThrown.error "NotReadableError" "Could not start audio source")
    newStreamId := "local" }

/-- Camera and microphone found, the camera is refused, the microphone would open. -/
def envVideoThrows : MediaEnv :=
  { devices := [DeviceKind.videoinput, DeviceKind.audioinput]
    openVideo := Except.error (JsThrown.error "NotAllowedError" "Permission denied")
    openAudio := Except.ok micStream
    newStreamId := "local" }

/-- Only a microphone is found, and it opens. -/
def envAudioOnly : MediaEnv :=
  { devices := [DeviceKind.audioinput, DeviceKind.audiooutput]
    openVideo := Except.error (JsThrown.error "NotFoundError" "Requested device not found")
    openAudio := Except.ok micStream
    newStreamId := "local" }

/-- Camera and microphone found, both open. -/
def envBothOpen : MediaEnv :=
  { devices := [DeviceKind.videoinput, DeviceKind.audioinput]
    openVideo := Except.ok cameraStream
    openAudio := Except.ok micStream
    newStreamId := "local" }

/-! ## Part 1e: the meeting page: toggles, joining, and the reachable states -/

/-- A call `webrtcManagerRef.current?.method(...)`: made only when the ref holds a manager. -/
def managerCall (s : PageState) (call : Effect) : List Effect :=
  match s.webrtcManagerRef with
  | some _ => [call]
  | none => []

/-- `toggleVideo` (lines 243-250).  `isVideoOn` is set first; with a local stream the flag
is then written on `getVideoTracks()[0]`, which throws a `TypeError` when the stream has no
video track, before the manager is reached. -/
def toggleVideo (s : PageState) : Outcome :=
  let newState := !s.isVideoOn
  let s1 := { s with isVideoOn := newState }
  match s.localStream with
  | some localStream =>
    match localStream.getVideoTracks.head? with
    | none =>
      { state := s1, effects := [],
        raised := some (JsThrown.error "TypeError" "Cannot set properties of undefined") }
    | some _ =>
      { state := { s1 with localStream := some { localStream with
            tracks := setFirstEnabled TrackKind.video newState localStream.tracks } }
        effects := managerCall s (Effect.managerToggleVideo newState)
        raised := none }
  | none =>
    { state := s1, effects := managerCall s (Effect.managerToggleVideo newState), raised := none }

/-- `toggleAudio` (lines 252-259), the same on `isAudioOn` and `getAudioTracks()[0]`. -/
def toggleAudio (s : PageState) : Outcome :=
  let newState := !s.isAudioOn
  let s1 := { s with isAudioOn := newState }
  match s.localStream with
  | some localStream =>
    match localStream.getAudioTracks.head? with
    | none =>
      { state := s1, effects := [],
        raised := some (JsThrown.error "TypeError" "Cannot set properties of undefined") }
    | some _ =>
      { state := { s1 with localStream := some { localStream with
            tracks := setFirstEnabled TrackKind.audio newState localStream.tracks } }
        effects := managerCall s (Effect.managerToggleAudio newState)
        raised := none }
  | none =>
    { state := s1, effects := managerCall s (Effect.managerToggleAudio newState), raised := none }

/-- The toggle of the given kind. -/
def toggleKind (k : TrackKind) (s : PageState) : Outcome :=
  match k with
  | TrackKind.video => toggleVideo s
  | TrackKind.audio => toggleAudio s

/-- The page flag of the given kind: `isVideoOn` or `isAudioOn`. -/
def PageState.flag (s : PageState) : TrackKind → Bool
  | TrackKind.video => s.isVideoOn
  | TrackKind.audio => s.isAudioOn

/-- The manager call a toggle of the given kind makes. -/
def managerToggle : TrackKind → Bool → Effect
  | TrackKind.video, b => Effect.managerToggleVideo b
  | TrackKind.audio, b => Effect.managerToggleAudio b

/-- What identifies a track and its capture: everything but the `enabled` flag. -/
def MediaStreamTrack.identity (t : MediaStreamTrack) : String × TrackKind × ReadyState :=
  (t.id, t.kind, t.readyState)

/-- `currentUser.full_name || "User"` (line 190): null and the empty string give "User". -/
def displayName (user : Profile) : String :=
  match user.full_name with
  | some n => if n = "" then "User" else n
  | none => "User"

/-- `initializeWebRTC` (lines 183-241).  `initResult` is the outcome of
`manager.initialize(localStream)`.  Without a current user, a meeting id or a local stream
nothing happens; otherwise the manager is constructed and initialised, and stored in the
ref only when `initialize` did not throw. -/
def initializeWebRTC (s : PageState) (initResult : Except JsThrown Unit) : Outcome :=
  match s.currentUser, s.meetingId, s.localStream with
  | some currentUser, some meetingId, some localStream =>
    if meetingId = "" then { state := s, effects := [], raised := none }
    else
      let manager : WebRTCManager :=
        { meetingId := meetingId, userId := currentUser.id, userName := displayName currentUser }
      let calls :=
        [Effect.managerNew meetingId currentUser.id (displayName currentUser),
         Effect.managerInit localStream.id]
      match initResult with
      | Except.ok _ =>
        { state := { s with webrtcManagerRef := some manager }
          effects := calls ++ [Effect.toast "Connected" "You've joined the meeting" false]
          raised := none }
      | Except.error _ =>
        { state := s
          effects := calls ++
            [Effect.consoleError "Error initializing WebRTC:",
             Effect.toast "Media Access Error" "Could not access camera or microphone" true]
          raised := none }
  | _, _, _ => { state := s, effects := [], raised := none }

/-- `handleJoinMeeting` (lines 268-274): without a local stream it only runs
`getLocalStream`; with one it runs `initializeWebRTC` and then sets `hasJoined`. -/
def handleJoinMeeting (s : PageState) (env : MediaEnv) (initResult : Except JsThrown Unit) :
    Outcome :=
  match s.localStream with
  | none => getLocalStream s env
  | some _ =>
    let o := initializeWebRTC s initResult
    { state := { o.state with hasJoined := true }, effects := o.effects, raised := none }

/-- `loadMeeting` (lines 75-96), on the outcome of the `meetings` query. -/
def loadMeeting (s : PageState) (result : Except JsThrown Meeting) : Outcome :=
  match result with
  | Except.ok data =>
    { state := { s with meeting := some data, loading := false }, effects := [], raised := none }
  | Except.error _ =>
    { state := { s with loading := false }
      effects :=
        [Effect.consoleError "Error loading meeting:",
         Effect.toast "Error" "Failed to load meeting details" true,
         Effect.navigate "/dashboard"]
      raised := none }

/-- `loadCurrentUser` (lines 63-73): with a signed-in user the loaded profile (possibly
null) becomes `currentUser`. -/
def loadCurrentUser (s : PageState) (user : Option String) (profile : Option Profile) :
    Outcome :=
  match user with
  | some _ => { state := { s with currentUser := profile }, effects := [], raised := none }
  | none => { state := s, effects := [], raised := none }

/-- `handleEndCall` (lines 261-266); `cleanup` is the outcome of `manager.cleanup()`, whose
rejection ends the handler before `navigate`. -/
def handleEndCall (s : PageState) (cleanup : Except JsThrown Unit) : Outcome :=
  match s.webrtcManagerRef with
  | some _ =>
    match cleanup with
    | Except.ok _ =>
      { state := s, effects := [Effect.managerCleanup, Effect.navigate "/dashboard"],
        raised := none }
    | Except.error e => { state := s, effects := [Effect.managerCleanup], raised := some e }
  | none => { state := s, effects := [Effect.navigate "/dashboard"], raised := none }

/-- The ref callback of a remote `<video>` (lines 396-403), run when the tile of `userId`
is rendered: the element is stored under the participant's id and shows the participant's
stream when there is one. -/
def attachRemoteVideo (s : PageState) (userId : String) : PageState :=
  match s.participants.get userId with
  | some participant =>
    let el : VideoElement := { srcObject := participant.stream.map (fun st => st.id) }
    { s with remoteVideoRefs := s.remoteVideoRefs.set participant.userId el }
  | none => s

/-- Everything that can happen to the mounted page, with the answers of the outside. -/
inductive PageAction where
  | loadMeeting (result : Except JsThrown Meeting)
  | loadCurrentUser (user : Option String) (profile : Option Profile)
  | getLocalStream (env : MediaEnv)
  | toggleVideo
  | toggleAudio
  | handleJoinMeeting (env : MediaEnv) (initResult : Except JsThrown Unit)
  | handleEndCall (cleanup : Except JsThrown Unit)
  | registry (event : RegistryEvent)
  | renderLocalVideo (mounted : Bool)
  | renderRemoteVideo (userId : String)

/-- Runs one action. -/
def runAction (s : PageState) : PageAction → Outcome
  | PageAction.loadMeeting result => loadMeeting s result
  | PageAction.loadCurrentUser user profile => loadCurrentUser s user profile
  | PageAction.getLocalStream env => getLocalStream s env
  | PageAction.toggleVideo => toggleVideo s
  | PageAction.toggleAudio => toggleAudio s
  | PageAction.handleJoinMeeting env initResult => handleJoinMeeting s env initResult
  | PageAction.handleEndCall cleanup => handleEndCall s cleanup
  | PageAction.registry event =>
    { state := applyRegistryEvent s event, effects := [], raised := none }
  | PageAction.renderLocalVideo mounted =>
    { state := { s with
        localVideoRef := if mounted then some { srcObject := none } else none }
      effects := [], raised := none }
  | PageAction.renderRemoteVideo userId =>
    { state := attachRemoteVideo s userId, effects := [], raised := none }

/-- Runs a sequence of actions, first to last, keeping the state each one leaves (also
when it threw: the state updates made before the throw stay). -/
def runActions (s : PageState) (acts : List PageAction) : PageState :=
  acts.foldl (fun st a => (runAction st a).state) s

/-- The states the page can be in: those some sequence of actions leads to from the state
at mount. -/
def Reachable (s : PageState) : Prop :=
  ∃ (meetingId : Option String) (acts : List PageAction),
    s = runActions (initialState meetingId) acts

/-- Flag/track consistency: the `enabled` flag of the first video track of the local stream
is `isVideoOn`, that of its first audio track is `isAudioOn`. -/
def FlagsConsistent (s : PageState) : Prop :=
  ∀ ls, s.localStream = some ls → ∀ k t,
    (tracksOfKind ls k).head? = some t → t.enabled = s.flag k

/-! ## Part 1f: sample runs -/

/-- A signed-in user's profile. -/
def profileA : Profile := { id := "a", full_name := some "Ann" }

/-- A `meetings` row. -/
def standup : Meeting :=
  { id := "R1", title := "Standup", description := none,
    scheduled_start := "2025-01-01T10:00:00Z", scheduled_end := "2025-01-01T10:30:00Z",
    status := "scheduled", is_confidential := false }

/-- The actions that bring a signed-in user to the lobby: meeting and profile are loaded
and the preview element is mounted. -/
def lobbyActions : List PageAction :=
  [PageAction.loadMeeting (Except.ok standup),
   PageAction.loadCurrentUser (some "a") (some profileA),
   PageAction.renderLocalVideo true]

/-- The lobby before media is acquired. -/
def lobbyState : PageState := runActions (initialState (some "R1")) lobbyActions

/-- The lobby with camera and microphone acquired, before joining: no session manager. -/
def previewState : PageState :=
  runActions (initialState (some "R1")) (lobbyActions ++ [PageAction.getLocalStream envBothOpen])

/-- The actions of a user who opens the page, gets both devices and joins. -/
def joinActions : List PageAction :=
  lobbyActions ++
    [PageAction.getLocalStream envBothOpen,
     PageAction.handleJoinMeeting envBothOpen (Except.ok ())]

/-- The page of a user who has joined with camera and microphone: a session manager is
present. -/
def joinedState : PageState := runActions (initialState (some "R1")) joinActions

/-! ## Part 1g: the meeting page: unmount, header badge, participant count -/

/-- The effect of `track.stop()` on every track of a stream: all tracks end. -/
def MediaStream.stopAll (ms : MediaStream) : MediaStream :=
  { ms with tracks := ms.tracks.map (fun t => { t with readyState := ReadyState.ended }) }

/-- The cleanup function returned by the mount effect (lines 55-60).  `captured` is the
value the name `localStream` has inside the closure, that is, the state value of the render
whose effect created the cleanup; the manager is read from the ref, so it is the current
one.  The tracks of the captured stream are stopped; the page's current stream is touched
only when it is that same stream. -/
def mountEffectCleanup (captured : Option MediaStream) (s : PageState) : Outcome :=
  let calls := managerCall s Effect.managerCleanup
  match captured with
  | some ms =>
    { state := { s with
        localStream := s.localStream.map (fun ls => if ls.id = ms.id then ls.stopAll else ls) }
      effects := calls ++ ms.getTracks.map (fun t => Effect.trackStop t.id)
      raised := none }
  | none => { state := s, effects := calls, raised := none }

/-- Tearing the page down when the route parameter has not changed since mount.  The
mount effect (lines 45-61) has the dependency list `[meetingId]`, so as long as the
parameter stays the same the effect ran once, in the first render, and the cleanup React
runs at unmount is the closure of that render: in it `localStream` is the initial value of
the state cell.  After a change of the parameter the cleanup is `mountEffectCleanup` with
the stream captured at that time, see `routeChange`. -/
def unmount (s : PageState) : Outcome :=
  mountEffectCleanup (initialState s.meetingId).localStream s

/-- A change of the route parameter while the page stays mounted.  React runs the cleanup
of the running mount effect, whose closure holds `captured`, and then runs the effect
again; the cleanup returned by the new run closes over the `localStream` of the state at
that time.  Gives the outcome, with the new parameter in the state, and the stream the new
cleanup holds.  (The new run also starts `loadMeeting` and `loadCurrentUser`, which are
actions of their own.) -/
def routeChange (captured : Option MediaStream) (s : PageState) (meetingId : Option String) :
    Outcome × Option MediaStream :=
  let o := mountEffectCleanup captured s
  ({ state := { o.state with meetingId := meetingId }, effects := o.effects, raised := none },
   o.state.localStream)

/-- The header line under the title (lines 351-353):
`meeting?.is_confidential && "🔒 Confidential Meeting"`, `none` when nothing is rendered. -/
def confidentialBadge (s : PageState) : Option String :=
  match s.meeting with
  | some m => if m.is_confidential then some "🔒 Confidential Meeting" else none
  | none => none

/-- The page state with the loaded meeting record `m`, its confidentiality flag being `b`. -/
def withConfidential (s : PageState) (m : Meeting) (b : Bool) : PageState :=
  { s with meeting := some { m with is_confidential := b } }

/-- The user id a join or left callback is about; `onStreamAdded` is neither. -/
def RegistryEvent.joinLeftId : RegistryEvent → Option String
  | RegistryEvent.joined participant => some participant.userId
  | RegistryEvent.left userId => some userId
  | RegistryEvent.streamAdded _ _ => none

/-- Whether the most recent join or left callback about `id` in the sequence is a join. -/
def lastIsJoin (es : List RegistryEvent) (id : String) : Bool :=
  match es.reverse.find? (fun e => e.joinLeftId == some id) with
  | some (RegistryEvent.joined _) => true
  | _ => false

/-- The distinct remote user ids whose most recent join or left callback is a join. -/
def presentIds (es : List RegistryEvent) : List String :=
  ((es.filterMap RegistryEvent.joinLeftId).dedup).filter (fun id => lastIsJoin es id)

/-- A participant as the manager reports it at join time. -/
def remote (userId userName : String) : Participant :=
  { userId := userId, userName := userName, stream := none }

/-! ## Part 1j: the meeting page: invariants of joining, more sample runs -/

/-- Joining invariant: a session manager in the ref, and `hasJoined`, each come with a
local stream. -/
def JoinInvariant (s : PageState) : Prop :=
  (s.webrtcManagerRef.isSome = true → s.localStream.isSome = true) ∧
  (s.hasJoined = true → s.localStream.isSome = true)

/-- The description of the toast with the generic text. -/
def unknownErrorDescription : String :=
  "An unknown error occurred while accessing your media devices."

/-- The description of the first `NotFoundError` branch (line 153). -/
def noDeviceDescription : String :=
  "No camera or microphone found. Please connect a device to join."

/-- The toast descriptions among a list of effects. -/
def toastDescriptions (effects : List Effect) : List String :=
  effects.filterMap (fun e => match e with
    | Effect.toast _ description _ => some description
    | _ => none)

/-- No input device is found (only a loudspeaker). -/
def envNoDevices : MediaEnv :=
  { devices := [DeviceKind.audiooutput]
    openVideo := Except.error (JsThrown.error "NotFoundError" "Requested device not found")
    openAudio := Except.error (JsThrown.error "NotFoundError" "Requested device not found")
    newStreamId := "local" }

/-- Camera and microphone are both listed, and opening the camera throws `NotFoundError`
(the camera was unplugged after the enumeration). -/
def envCameraGone : MediaEnv :=
  { devices := [DeviceKind.videoinput, DeviceKind.audioinput]
    openVideo := Except.error (JsThrown.error "NotFoundError" "Requested device not found")
    openAudio := Except.ok micStream
    newStreamId := "local" }

/-- The lobby of a machine with a microphone and no camera, after media is acquired: the
local stream has an audio track and no video track. -/
def audioOnlyState : PageState :=
  runActions (initialState (some "R1")) (lobbyActions ++ [PageAction.getLocalStream envAudioOnly])

/-- The page of a user who clicked Join with both devices acquired while
`manager.initialize` threw: `hasJoined` is set and the manager ref is empty. -/
def joinedWithoutManagerState : PageState :=
  runActions (initialState (some "R1"))
    (lobbyActions ++
      [PageAction.getLocalStream envBothOpen,
       PageAction.handleJoinMeeting envBothOpen
        (Except.error (JsThrown.error "Error" "signaling unavailable"))])

end MeetingPage

/-! ## Part 1h: negotiation roles and ICE candidates (session manager, from the spec) -/

namespace SessionCore

/-- Modelled from the spec: the `negotiationRole: initiator|responder` of a PeerLink
(section 3).  The session manager class `WebRTCManager` of `@/utils/webrtc`, which
`Meeting.tsx` constructs and which holds the negotiation, is not among the sources. -/
inductive NegotiationRole where
  | initiator
  | responder
  deriving DecidableEq, Repr

/-- Modelled from the spec: "lexicographically smaller" (section 4.3; the comparison is
made in the missing `@/utils/webrtc`), on the characters of two ids: the first position
where they differ decides, by character code, and a proper prefix is smaller. -/
def lexLt : List Char → List Char → Bool
  | [], [] => false
  | [], _ :: _ => true
  | _ :: _, [] => false
  | a :: as, b :: bs =>
    if a.toNat < b.toNat then true else if b.toNat < a.toNat then false else lexLt as bs

/-- Modelled from the spec: "lexicographically smaller" on participant ids (section 4.3,
missing with `@/utils/webrtc`). -/
def idLt (x y : String) : Bool := lexLt x.data y.data

/-- Modelled from the spec: the tie-break rule of section 4.3, missing with
`@/utils/webrtc`: "the lexicographically smaller participantId is the initiator", as a pure
function of the local and the remote participant id (section 9). -/
def negotiationRole (localId remoteId : String) : NegotiationRole :=
  if idLt localId remoteId then NegotiationRole.initiator else NegotiationRole.responder

/-- Modelled from the spec: the PeerLink record of section 3, missing with
`@/utils/webrtc`, with the fields the tie-break and the candidate queue use: the remote
participant, the role, whether the remote description has been applied, the queue
`pendingCandidates`, and the candidates handed to the connection so far, in order. -/
structure PeerLink where
  remoteId : String
  role : NegotiationRole
  remoteDescriptionSet : Bool
  pendingCandidates : List String
  appliedCandidates : List String
  deriving DecidableEq, Repr

/-- Modelled from the spec: creation of a PeerLink by the coordinator (section 4.4, missing
with `@/utils/webrtc`): the role is assigned per the tie-break rule, nothing is queued or
applied yet. -/
def PeerLink.create (localId remoteId : String) : PeerLink :=
  { remoteId := remoteId
    role := negotiationRole localId remoteId
    remoteDescriptionSet := false
    pendingCandidates := []
    appliedCandidates := [] }

/-- Modelled from the spec: section 4.4 (missing with `@/utils/webrtc`), "on receiving a
`join` broadcast for a new remote identity: create a PeerLink, assign negotiation role per
the tie-break rule"; an identity that already has a PeerLink gets no second one (section 3:
the remote ids of the active set are unique). -/
def onJoinBroadcast (localId : String) (links : List PeerLink) (remoteId : String) :
    List PeerLink :=
  if links.any (fun l => l.remoteId == remoteId) then links
  else links ++ [PeerLink.create localId remoteId]

/-- Modelled from the spec: section 4.4 (missing with `@/utils/webrtc`), "on receiving the
reconciliation list at local join time: create one PeerLink per already-present member",
the local participant being the comparison side of the tie-break. -/
def onReconcile (localId : String) (links : List PeerLink) (members : List String) :
    List PeerLink :=
  members.foldl (onJoinBroadcast localId) links

/-- Modelled from the spec: the glare scenario of section 8 (missing with
`@/utils/webrtc`).  `x` and `y` join at the same time; the relay processes one join first.
The one processed first gets an empty reconciliation list and later the `join` broadcast of
the other; the other gets a reconciliation list naming the first.  The result is the
PeerLink set of `x` and that of `y`. -/
def simultaneousJoin (x y : String) (xFirst : Bool) : List PeerLink × List PeerLink :=
  if xFirst then
    (onJoinBroadcast x (onReconcile x [] []) y, onReconcile y [] [x])
  else
    (onReconcile x [] [y], onJoinBroadcast y (onReconcile y [] []) x)

/-- Modelled from the spec: what a PeerLink receives about ICE (section 4.3, missing with
`@/utils/webrtc`): a remote candidate, or the remote description being applied. -/
inductive IceEvent where
  | candidate (c : String)
  | remoteDescription
  deriving DecidableEq, Repr

/-- Modelled from the spec: section 4.3 (missing with `@/utils/webrtc`), "ICE candidates
arriving before the remote description is set are queued (`pendingCandidates`)"; one that
arrives afterwards is applied to the connection at once. -/
def PeerLink.receiveCandidate (l : PeerLink) (c : String) : PeerLink :=
  if l.remoteDescriptionSet then { l with appliedCandidates := l.appliedCandidates ++ [c] }
  else { l with pendingCandidates := l.pendingCandidates ++ [c] }

/-- Modelled from the spec: section 4.3 (missing with `@/utils/webrtc`), the queue is
"flushed immediately after the remote description is applied, in arrival order". -/
def PeerLink.applyRemoteDescription (l : PeerLink) : PeerLink :=
  { l with
    remoteDescriptionSet := true
    appliedCandidates := l.appliedCandidates ++ l.pendingCandidates
    pendingCandidates := [] }

/-- One ICE event on a PeerLink. -/
def PeerLink.step (l : PeerLink) : IceEvent → PeerLink
  | IceEvent.candidate c => l.receiveCandidate c
  | IceEvent.remoteDescription => l.applyRemoteDescription

/-- A sequence of ICE events on a PeerLink, first to last. -/
def PeerLink.run (l : PeerLink) (evs : List IceEvent) : PeerLink :=
  evs.foldl PeerLink.step l

/-- The candidates of an event sequence, in arrival order. -/
def arrivals (evs : List IceEvent) : List String :=
  evs.filterMap (fun e => match e with
    | IceEvent.candidate c => some c
    | IceEvent.remoteDescription => none)

end SessionCore

/-! ## Part 1i: the HTTP error handler (`backend/src/index.js`) -/

namespace Backend

/-- An error object reaching the error handler: the two properties the handler reads,
`status` (a number, or absent) and `publicMessage` (a string, or absent), and the internal
`message` and `stack`. -/
structure HttpError where
  status : Option Nat
  publicMessage : Option String
  message : String
  stack : String
  deriving DecidableEq, Repr

/-- The response sent: the status code and the `message` field of the JSON body. -/
structure HttpResponse where
  status : Nat
  message : String
  deriving DecidableEq, Repr

/-- How a run of the handler ends: the JSON response is sent, or an error is thrown inside
the handler (its name is kept) and nothing is sent by it. -/
inductive HandlerResult where
  | sent (response : HttpResponse)
  | threw (errorName : String)
  deriving DecidableEq, Repr

/-- What the handler does: the error it writes to the server console and how it ends. -/
structure Handled where
  logged : HttpError
  result : HandlerResult
  deriving DecidableEq, Repr

/-- The status codes a response can be sent with: the integers from 100 to 999.  With any
other value `res.status(code).json(...)` throws a `RangeError` instead of sending. -/
def validStatusCode (code : Nat) : Bool := 100 ≤ code && code ≤ 999

/-- `err.status || 500`: an absent status and 0 are falsy. -/
def statusOr500 (status : Option Nat) : Nat :=
  match status with
  | some n => if n = 0 then 500 else n
  | none => 500

/-- `err.publicMessage || 'Internal Server Error'`: an absent message and the empty string
are falsy. -/
def publicMessageOrDefault (publicMessage : Option String) : String :=
  match publicMessage with
  | some m => if m = "" then "Internal Server Error" else m
  | none => "Internal Server Error"

/-- The error handler (index.js lines 57-61): `console.error(err)`, then
`res.status(err.status || 500).json({ message: err.publicMessage || 'Internal Server Error' })`.
The handler passes `err.status || 500` on unchecked: when that is a usable status code the
JSON body is sent with it, otherwise the call throws inside the handler. -/
def errorHandler (err : HttpError) : Handled :=
  { logged := err
    result :=
      if validStatusCode (statusOr500 err.status) then
        HandlerResult.sent
          { status := statusOr500 err.status
            message := publicMessageOrDefault err.publicMessage }
      else HandlerResult.threw "RangeError" }

/-- A database failure as it reaches the handler. -/
def dbError : HttpError :=
  { status := none, publicMessage := none,
    message := "connect ECONNREFUSED 127.0.0.1:5432", stack := "at TCPConnectWrap" }

/-- An internal failure whose `status` property is not a usable status code. -/
def leakyError : HttpError :=
  { status := some 42, publicMessage := none,
    message := "internal detail: table app_user", stack := "at auth.js:49" }

/-! ### Meeting creation (`backend/src/routes/meetings.js`, `POST /`) -/

/-- The validated body of a create-meeting request (`meetingSchema`, lines 10-17). -/
structure MeetingPayload where
  title : String
  description : Option String
  scheduledStart : String
  scheduledEnd : String
  visibility : String
  participants : List String
  deriving DecidableEq, Repr

/-- The statements the handler sends to the pool. -/
inductive Query where
  | beginTx
  | insertMeeting (meetingId meetingCode title : String) (description : Option String)
      (scheduledStart scheduledEnd visibility organizerId : String)
  | insertParticipant (meetingId userId role : String)
  | commitTx
  | rollbackTx
  deriving DecidableEq, Repr

/-- The body of a response of the meeting and login routes; `errorPage` is the page of the
framework's built-in error handler. -/
inductive Body where
  | meeting (meetingId : String)
  | message (text : String)
  | tokens (accessToken refreshToken : String)
  | errorPage
  deriving DecidableEq, Repr

/-- A response: status code and body. -/
structure Response where
  status : Nat
  body : Body
  deriving DecidableEq, Repr

/-- `next(err)` in a route: the error handler of index.js answers; when the handler itself
throws, the framework's built-in handler answers instead, with status 500 and its own
error page (`Body.errorPage`) in place of the JSON body. -/
def nextError (err : HttpError) : Response :=
  match (errorHandler err).result with
  | HandlerResult.sent r => { status := r.status, body := Body.message r.message }
  | HandlerResult.threw _ => { status := 500, body := Body.errorPage }

/-- The values of `new Set(xs)` in iteration order: each distinct value once, at the place
of its first occurrence. -/
def jsSet (xs : List String) : List String :=
  xs.foldl (fun acc x => if x ∈ acc then acc else acc ++ [x]) []

/-- The loop of lines 32-37: one `INSERT INTO meeting_participant` per value of
`new Set([req.user.sub, ...payload.participants])`, with role `'host'` for the organizer
and `'attendee'` for everyone else. -/
def participantInserts (meetingId sub : String) (participants : List String) : List Query :=
  (jsSet (sub :: participants)).map (fun userId =>
    Query.insertParticipant meetingId userId (if userId = sub then "host" else "attendee"))

/-- The statements of the `try` block (lines 25-38) in order, for a validated payload. -/
def plannedQueries (payload : MeetingPayload) (sub meetingId meetingCode : String) :
    List Query :=
  [Query.beginTx,
   Query.insertMeeting meetingId meetingCode payload.title payload.description
     payload.scheduledStart payload.scheduledEnd payload.visibility sub] ++
  participantInserts meetingId sub payload.participants ++ [Query.commitTx]

/-- The create-meeting handler (lines 19-46).  `validated` is the outcome of
`meetingSchema.validateAsync(req.body)` (the Joi message on failure), `sub` is
`req.user.sub`, `meetingId` and `meetingCode` are the two generated uuids, and `dbFailure`
says which statement of the block, if any, throws, and with what error.  A throw ends the
block: `ROLLBACK` is sent, a Joi error is answered with 400 and any other error goes to the
error handler. -/
def createMeeting (validated : Except String MeetingPayload) (sub meetingId meetingCode : String)
    (dbFailure : Option (Nat × HttpError)) : List Query × Response :=
  match validated with
  | Except.error joiMessage =>
    ([Query.rollbackTx], { status := 400, body := Body.message joiMessage })
  | Except.ok payload =>
    let planned := plannedQueries payload sub meetingId meetingCode
    match dbFailure with
    | none => (planned, { status := 201, body := Body.meeting meetingId })
    | some (k, err) =>
      if k < planned.length then
        (planned.take (k + 1) ++ [Query.rollbackTx], nextError err)
      else (planned, { status := 201, body := Body.meeting meetingId })

/-- The user ids of the participant inserts among a list of statements, with their roles. -/
def participantRows (qs : List Query) : List (String × String) :=
  qs.filterMap (fun q => match q with
    | Query.insertParticipant _ userId role => some (userId, role)
    | _ => none)

/-- A create-meeting body whose participant list repeats an id and names the organizer. -/
def samplePayload : MeetingPayload :=
  { title := "Review", description := none,
    scheduledStart := "2025-01-01T10:00:00Z", scheduledEnd := "2025-01-01T11:00:00Z",
    visibility := "private", participants := ["u2", "u1", "u2", "u3"] }

/-! ### Login (`backend/src/routes/auth.js`, `POST /login`) -/

/-- A row of `SELECT user_id, email, password_hash, full_name, role FROM app_user`. -/
structure UserRow where
  user_id : String
  email : String
  password_hash : String
  full_name : String
  role : String
  deriving DecidableEq, Repr

/-- The validated body of a login request (`loginSchema`, lines 41-44). -/
structure Credentials where
  email : String
  password : String
  deriving DecidableEq, Repr

/-- The login handler (lines 46-73).  `validated` is the outcome of
`loginSchema.validateAsync(req.body)`, `usersByEmail` the outcome of the `SELECT ... WHERE
email=$1` query, `compare` stands for `bcrypt.compare`, and `signAccess` / `signRefresh`
for the two `jwt.sign` calls.  No such user and a wrong password both answer 401
`Invalid credentials`; a Joi error answers 400; a query error goes to the error handler. -/
def login (validated : Except String Credentials)
    (usersByEmail : String → Except HttpError (List UserRow))
    (compare : String → String → Bool) (signAccess signRefresh : UserRow → String) : Response :=
  match validated with
  | Except.error joiMessage => { status := 400, body := Body.message joiMessage }
  | Except.ok creds =>
    match usersByEmail creds.email with
    | Except.error err => nextError err
    | Except.ok rows =>
      match rows.head? with
      | none => { status := 401, body := Body.message "Invalid credentials" }
      | some user =>
        if compare creds.password user.password_hash then
          { status := 200, body := Body.tokens (signAccess user) (signRefresh user) }
        else { status := 401, body := Body.message "Invalid credentials" }

/-- Whether a response carries tokens. -/
def Response.hasToken (r : Response) : Bool :=
  match r.body with
  | Body.tokens _ _ => true
  | _ => false

/-- A user table with one account. -/
def oneUser : String → Except HttpError (List UserRow) := fun email =>
  if email = "ann@example.org" then
    Except.ok [{ user_id := "u1", email := "ann@example.org", password_hash := "hash:secret",
                 full_name := "Ann", role := "faculty" }]
  else Except.ok []

/-- A user table with no account. -/
def noUsers : String → Except HttpError (List UserRow) := fun _ => Except.ok []

/-- A stand-in for `bcrypt.compare`: the hash of `p` is `"hash:" ++ p`. -/
def sampleCompare (password hash : String) : Bool := ("hash:" ++ password) == hash

end Backend

/-! ## Part 2: theorems -/

namespace Relay

theorem mem_recipients_socketToEmit (st : RelayState) (s t : SocketId) (room : String)
    (pkt : Packet) :
    t ∈ recipients (socketToEmit st s room pkt) ↔ t ∈ st.rooms room ∧ t ≠ s := by
  simp [recipients, socketToEmit, List.mem_filter]

theorem packet_of_mem_socketToEmit (st : RelayState) (s : SocketId) (room : String)
    (pkt : Packet) (d : Delivery) (hd : d ∈ socketToEmit st s room pkt) :
    d.packet = pkt ∧ d.target ≠ s ∧ d.target ∈ st.rooms room := by
  simp only [socketToEmit, List.mem_map, List.mem_filter] at hd
  obtain ⟨t, ⟨ht, hts⟩, rfl⟩ := hd
  exact ⟨rfl, by simpa using hts, ht⟩

theorem mem_socketJoin (st : RelayState) (s t : SocketId) (room : String) :
    t ∈ (socketJoin st s room).rooms room ↔ t = s ∨ t ∈ st.rooms room := by
  by_cases h : s ∈ st.rooms room
  · simp only [socketJoin, if_true, if_pos h]
    constructor
    · intro ht; exact Or.inr ht
    · rintro (rfl | ht)
      · exact h
      · exact ht
  · simp only [socketJoin, if_true, if_neg h, List.mem_append, List.mem_singleton]
    tauto

theorem mem_socketLeave (st : RelayState) (s t : SocketId) (room : String) :
    t ∈ (socketLeave st s room).rooms room ↔ t ∈ st.rooms room ∧ t ≠ s := by
  simp [socketLeave, List.mem_filter]

theorem socketJoin_rooms_of_ne (st : RelayState) (s : SocketId) (room r : String)
    (h : r ≠ room) : (socketJoin st s room).rooms r = st.rooms r := by
  simp [socketJoin, h]

theorem filter_ne_socketJoin (st : RelayState) (s : SocketId) (room : String) :
    ((socketJoin st s room).rooms room).filter (fun t => t ≠ s) =
      (st.rooms room).filter (fun t => t ≠ s) := by
  by_cases h : s ∈ st.rooms room
  · simp only [socketJoin, if_true, if_pos h]
  · simp only [socketJoin, if_true, if_neg h, List.filter_append]
    simp

/-- C1. Relay join: after `meeting:join{meetingId, userId}` from socket `s`, in every relay
state, `s` is a member of room `meetingId`, the room holds `s` and exactly its earlier
members, every other room is as it was, and the packets handed out are exactly one
`meeting:user_joined` carrying that `userId` for each earlier member of the room other than
`s`, in membership order: the sockets reached are exactly the members of the room other
than `s`, never `s`, never a socket outside the room. -/
theorem relay_join_broadcast (st : RelayState) (s : SocketId) (meetingId userId : String) :
    s ∈ (onMeetingJoin st s meetingId userId).1.rooms meetingId ∧
    (∀ t, t ∈ (onMeetingJoin st s meetingId userId).1.rooms meetingId ↔
        (t = s ∨ t ∈ st.rooms meetingId)) ∧
    (∀ r, r ≠ meetingId → (onMeetingJoin st s meetingId userId).1.rooms r = st.rooms r) ∧
    (onMeetingJoin st s meetingId userId).2 =
      ((st.rooms meetingId).filter (fun t => t ≠ s)).map
        (fun t => { target := t,
                    packet := { event := "meeting:user_joined", userId := userId } }) ∧
    (∀ d ∈ (onMeetingJoin st s meetingId userId).2,
        d.packet = { event := "meeting:user_joined", userId := userId }) ∧
    (∀ t, t ∈ recipients (onMeetingJoin st s meetingId userId).2 ↔
        (t ∈ st.rooms meetingId ∧ t ≠ s)) ∧
    (∀ t, t ∈ recipients (onMeetingJoin st s meetingId userId).2 ↔
        (t ∈ (onMeetingJoin st s meetingId userId).1.rooms meetingId ∧ t ≠ s)) ∧
    s ∉ recipients (onMeetingJoin st s meetingId userId).2 ∧
    (∀ t, t ∉ (onMeetingJoin st s meetingId userId).1.rooms meetingId →
        t ∉ recipients (onMeetingJoin st s meetingId userId).2) := by
  have key : ∀ t, t ∈ recipients (onMeetingJoin st s meetingId userId).2 ↔
      (t ∈ (onMeetingJoin st s meetingId userId).1.rooms meetingId ∧ t ≠ s) := by
    intro t
    exact mem_recipients_socketToEmit _ s t meetingId _
  have hroom : ∀ t, t ∈ (onMeetingJoin st s meetingId userId).1.rooms meetingId ↔
      (t = s ∨ t ∈ st.rooms meetingId) := fun t => mem_socketJoin st s t meetingId
  refine ⟨?_, hroom, ?_, ?_, ?_, ?_, key, ?_, ?_⟩
  · exact (mem_socketJoin st s s meetingId).2 (Or.inl rfl)
  · intro r hr
    exact socketJoin_rooms_of_ne st s meetingId r hr
  · show socketToEmit (socketJoin st s meetingId) s meetingId _ = _
    rw [socketToEmit, filter_ne_socketJoin]
  · intro d hd
    exact (packet_of_mem_socketToEmit _ s meetingId _ d hd).1
  · intro t
    rw [key t, hroom t]
    constructor
    · rintro ⟨h1 | h1, h2⟩
      · exact absurd h1 h2
      · exact ⟨h1, h2⟩
    · rintro ⟨h1, h2⟩
      exact ⟨Or.inr h1, h2⟩
  · intro h
    exact ((key s).1 h).2 rfl
  · intro t ht h
    exact ht ((key t).1 h).1

/-- C2. Relay leave: after `meeting:leave{meetingId, userId}` from socket `s`, `s` is not a
member of room `meetingId`, every other room and the membership of every other socket are
unchanged, every emitted packet is `meeting:user_left` carrying that `userId`, and the
sockets it is delivered to are exactly the remaining members of the room (never `s`). -/
theorem relay_leave_broadcast (st : RelayState) (s : SocketId) (meetingId userId : String) :
    s ∉ (onMeetingLeave st s meetingId userId).1.rooms meetingId ∧
    (∀ r, r ≠ meetingId → (onMeetingLeave st s meetingId userId).1.rooms r = st.rooms r) ∧
    (∀ t r, t ≠ s →
        (t ∈ (onMeetingLeave st s meetingId userId).1.rooms r ↔ t ∈ st.rooms r)) ∧
    (∀ d ∈ (onMeetingLeave st s meetingId userId).2,
        d.packet = { event := "meeting:user_left", userId := userId }) ∧
    (∀ t, t ∈ recipients (onMeetingLeave st s meetingId userId).2 ↔
        t ∈ (onMeetingLeave st s meetingId userId).1.rooms meetingId) ∧
    s ∉ recipients (onMeetingLeave st s meetingId userId).2 := by
  have hs : s ∉ (onMeetingLeave st s meetingId userId).1.rooms meetingId := by
    intro h
    exact ((mem_socketLeave st s s meetingId).1 h).2 rfl
  have key : ∀ t, t ∈ recipients (onMeetingLeave st s meetingId userId).2 ↔
      t ∈ (onMeetingLeave st s meetingId userId).1.rooms meetingId := by
    intro t
    constructor
    · intro h
      exact ((mem_recipients_socketToEmit _ s t meetingId _).1 h).1
    · intro h
      refine (mem_recipients_socketToEmit _ s t meetingId _).2 ⟨h, ?_⟩
      rintro rfl
      exact hs h
  refine ⟨hs, ?_, ?_, ?_, key, ?_⟩
  · intro r hr
    simp [onMeetingLeave, socketLeave, hr]
  · intro t r hts
    by_cases hr : r = meetingId
    · subst hr
      rw [show (onMeetingLeave st s r userId).1 = socketLeave st s r from rfl,
        mem_socketLeave]
      exact ⟨fun h => h.1, fun h => ⟨h, hts⟩⟩
    · simp [onMeetingLeave, socketLeave, hr]
  · intro d hd
    exact (packet_of_mem_socketToEmit _ s meetingId _ d hd).1
  · intro h
    exact hs ((key s).1 h)

/-- C3 (as stated, refuted). Socket 2 joins room `"R1"`, of which socket 1 is a member:
the relay hands no packet at all to the joining socket, so no reconcile message listing
socket 1 reaches it. -/
theorem relay_join_no_reconcile_counterexample :
    1 ∈ roomR1.rooms "R1" ∧
    deliveredTo (onMeetingJoin roomR1 2 "R1" "b").2 2 = [] ∧
    (onMeetingJoin roomR1 2 "R1" "b").2 =
      [{ target := 1, packet := { event := "meeting:user_joined", userId := "b" } }] := by
  decide

/-- C3 (amended). `meeting:join` from socket `s` for room `r` makes the relay emit only
`meeting:user_joined` packets, each to a socket that was a member of `r` before the join
and is not `s`; nothing is handed to `s`, and for a room that was empty (or held only `s`)
nothing is emitted at all. -/
theorem relay_join_sends_nothing_to_joiner (st : RelayState) (s : SocketId)
    (r userId : String) :
    deliveredTo (onMeetingJoin st s r userId).2 s = [] ∧
    (∀ d ∈ (onMeetingJoin st s r userId).2,
        d.packet.event = "meeting:user_joined" ∧ d.packet.userId = userId ∧
        d.target ∈ st.rooms r ∧ d.target ≠ s) ∧
    ((∀ t ∈ st.rooms r, t = s) → (onMeetingJoin st s r userId).2 = []) := by
  have hmem : ∀ d ∈ (onMeetingJoin st s r userId).2,
      d.packet = { event := "meeting:user_joined", userId := userId } ∧ d.target ≠ s ∧
        d.target ∈ st.rooms r := by
    intro d hd
    have h := packet_of_mem_socketToEmit _ s r _ d hd
    refine ⟨h.1, h.2.1, ?_⟩
    rcases (mem_socketJoin st s d.target r).1 h.2.2 with h1 | h1
    · exact absurd h1 h.2.1
    · exact h1
  refine ⟨?_, ?_, ?_⟩
  · simp only [deliveredTo, List.map_eq_nil_iff, List.filter_eq_nil_iff]
    intro d hd
    simpa using (hmem d hd).2.1
  · intro d hd
    obtain ⟨h1, h2, h3⟩ := hmem d hd
    exact ⟨by rw [h1], by rw [h1], h3, h2⟩
  · intro hall
    apply List.eq_nil_iff_forall_not_mem.2
    intro d hd
    obtain ⟨_, h2, h3⟩ := hmem d hd
    exact h2 (hall _ h3)

end Relay

/-! ### The meeting page: `Map` lemmas -/

namespace MeetingPage

namespace JsMap

variable {V : Type}

theorem has_cons (e : String × V) (m : JsMap V) (k : String) :
    has (e :: m) k = (decide (e.1 = k) || has m k) := by
  by_cases h : e.1 = k <;> simp [has, List.any_cons, h]

theorem get_cons (e : String × V) (m : JsMap V) (k : String) :
    get (e :: m) k = if e.1 = k then some e.2 else get m k := by
  by_cases h : e.1 = k
  · simp [get, List.find?_cons, h]
  · simp [get, List.find?_cons, h]

theorem set_cons (e : String × V) (m : JsMap V) (k : String) (v : V) :
    set (e :: m) k v =
      if e.1 = k then (k, v) :: m.map (fun e => if e.1 = k then (k, v) else e)
      else e :: set m k v := by
  by_cases h : e.1 = k
  · simp [set, has_cons, h]
  · by_cases h2 : has m k = true
    · simp [set, has_cons, h, h2]
    · simp [set, has_cons, h, h2]

theorem delete_cons (e : String × V) (m : JsMap V) (k : String) :
    delete (e :: m) k = if e.1 = k then delete m k else e :: delete m k := by
  by_cases h : e.1 = k
  · simp [delete, List.filter_cons, h]
  · simp [delete, List.filter_cons, h]

theorem keys_cons (e : String × V) (m : JsMap V) : keys (e :: m) = e.1 :: keys m := rfl

theorem has_iff_mem_keys (m : JsMap V) (k : String) : m.has k = true ↔ k ∈ m.keys := by
  induction m with
  | nil => simp [has, keys]
  | cons e m ih =>
    rw [has_cons, keys_cons, Bool.or_eq_true, ih, List.mem_cons, decide_eq_true_iff]
    constructor
    · rintro (h | h)
      · exact Or.inl h.symm
      · exact Or.inr h
    · rintro (h | h)
      · exact Or.inl h.symm
      · exact Or.inr h

theorem get_eq_none_iff (m : JsMap V) (k : String) : m.get k = none ↔ k ∉ m.keys := by
  induction m with
  | nil => simp [get, keys]
  | cons e m ih =>
    rw [get_cons, keys_cons, List.mem_cons, not_or]
    by_cases h : e.1 = k
    · rw [if_pos h]
      constructor
      · intro h2; cases h2
      · intro h2; exact absurd h.symm h2.1
    · rw [if_neg h, ih]
      constructor
      · intro h2; exact ⟨fun hk => h hk.symm, h2⟩
      · intro h2; exact h2.2

theorem keys_map_set (m : JsMap V) (k : String) (v : V) :
    keys (m.map (fun e => if e.1 = k then (k, v) else e)) = keys m := by
  induction m with
  | nil => rfl
  | cons e m ih =>
    rw [List.map_cons, keys_cons, keys_cons, ih]
    by_cases h : e.1 = k
    · rw [if_pos h, h]
    · rw [if_neg h]

theorem keys_set (m : JsMap V) (k : String) (v : V) :
    (m.set k v).keys = if k ∈ m.keys then m.keys else m.keys ++ [k] := by
  by_cases h : m.has k = true
  · rw [set, if_pos h, keys_map_set, if_pos ((has_iff_mem_keys m k).1 h)]
  · rw [set, if_neg h, if_neg (fun hk => h ((has_iff_mem_keys m k).2 hk))]
    simp [keys]

theorem keys_delete (m : JsMap V) (k : String) :
    (m.delete k).keys = m.keys.filter (fun x => x ≠ k) := by
  induction m with
  | nil => rfl
  | cons e m ih =>
    rw [delete_cons, keys_cons, List.filter_cons]
    by_cases h : e.1 = k
    · rw [if_pos h, ih]
      simp [h]
    · rw [if_neg h, keys_cons, ih]
      simp [h]

theorem get_map_set_self (m : JsMap V) (k : String) (v : V) (h : k ∈ m.keys) :
    get (m.map (fun e => if e.1 = k then (k, v) else e)) k = some v := by
  induction m with
  | nil => simp [keys] at h
  | cons e m ih =>
    rw [List.map_cons, get_cons]
    by_cases he : e.1 = k
    · simp [he]
    · rw [if_neg he, if_neg he]
      rw [keys_cons, List.mem_cons] at h
      rcases h with h | h
      · exact absurd h.symm he
      · exact ih h

theorem get_set_self (m : JsMap V) (k : String) (v : V) : (m.set k v).get k = some v := by
  induction m with
  | nil => simp [set, has, get]
  | cons e m ih =>
    rw [set_cons]
    by_cases he : e.1 = k
    · rw [if_pos he, get_cons]
      simp
    · rw [if_neg he, get_cons, if_neg he, ih]

theorem get_map_set_of_ne (m : JsMap V) (k k2 : String) (v : V) (hne : k2 ≠ k) :
    get (m.map (fun e => if e.1 = k then (k, v) else e)) k2 = get m k2 := by
  induction m with
  | nil => rfl
  | cons e m ih =>
    rw [List.map_cons, get_cons, get_cons, ih]
    by_cases he : e.1 = k
    · have h2 : ¬ e.1 = k2 := by rw [he]; exact fun h => hne h.symm
      rw [if_pos he, if_neg h2, if_neg (fun h : (k, v).1 = k2 => hne h.symm)]
    · rw [if_neg he]

theorem get_set_of_ne (m : JsMap V) (k k2 : String) (v : V) (hne : k2 ≠ k) :
    (m.set k v).get k2 = m.get k2 := by
  induction m with
  | nil =>
    have : ¬ k = k2 := fun h => hne h.symm
    simp [set, has, get, this]
  | cons e m ih =>
    rw [set_cons]
    by_cases he : e.1 = k
    · have h2 : ¬ e.1 = k2 := by rw [he]; exact fun h => hne h.symm
      rw [if_pos he, get_cons, get_cons, if_neg h2,
        if_neg (fun h : (k, v).1 = k2 => hne h.symm), get_map_set_of_ne m k k2 v hne]
    · rw [if_neg he, get_cons, get_cons, ih]

theorem get_delete_self (m : JsMap V) (k : String) : (m.delete k).get k = none := by
  rw [get_eq_none_iff, keys_delete]
  simp

theorem get_delete_of_ne (m : JsMap V) (k k2 : String) (hne : k2 ≠ k) :
    (m.delete k).get k2 = m.get k2 := by
  induction m with
  | nil => rfl
  | cons e m ih =>
    rw [delete_cons, get_cons]
    by_cases he : e.1 = k
    · have h2 : ¬ e.1 = k2 := by rw [he]; exact fun h => hne h.symm
      rw [if_pos he, if_neg h2, ih]
    · rw [if_neg he, get_cons, ih]

theorem delete_of_not_mem (m : JsMap V) (k : String) (h : k ∉ m.keys) : m.delete k = m := by
  induction m with
  | nil => rfl
  | cons e m ih =>
    rw [keys_cons, List.mem_cons, not_or] at h
    rw [delete_cons, if_neg (fun he => h.1 he.symm), ih h.2]

theorem delete_delete (m : JsMap V) (k : String) : (m.delete k).delete k = m.delete k := by
  apply delete_of_not_mem
  rw [keys_delete]
  simp

theorem mem_set (m : JsMap V) (k : String) (v : V) (e : String × V) (he : e ∈ m.set k v) :
    e = (k, v) ∨ e ∈ m := by
  by_cases h : m.has k = true
  · rw [set, if_pos h, List.mem_map] at he
    obtain ⟨a, ha, hae⟩ := he
    by_cases hk : a.1 = k
    · rw [if_pos hk] at hae
      exact Or.inl hae.symm
    · rw [if_neg hk] at hae
      exact Or.inr (hae ▸ ha)
  · rw [set, if_neg h, List.mem_append, List.mem_singleton] at he
    exact he.symm

theorem mem_of_get_eq_some (m : JsMap V) (k : String) (v : V) (h : m.get k = some v) :
    (k, v) ∈ m := by
  induction m with
  | nil => simp [get] at h
  | cons e m ih =>
    rw [get_cons] at h
    by_cases he : e.1 = k
    · rw [if_pos he] at h
      have hv : e.2 = v := Option.some.inj h
      have : e = (k, v) := Prod.ext he hv
      rw [this]
      exact List.mem_cons_self _ _
    · rw [if_neg he] at h
      exact List.mem_cons_of_mem _ (ih h)

end JsMap

end MeetingPage

/-! ### The meeting page: participants registry (C4, C5, C6) -/

namespace MeetingPage

theorem registryWF_nil : RegistryWF [] := by
  constructor
  · exact List.nodup_nil
  · intro e he
    cases he

theorem registryWF_joined (m : JsMap Participant) (p : Participant) (h : RegistryWF m) :
    RegistryWF (participantsJoined m p) := by
  constructor
  · rw [participantsJoined, JsMap.keys_set]
    by_cases hk : p.userId ∈ JsMap.keys m
    · rw [if_pos hk]
      exact h.1
    · rw [if_neg hk]
      exact List.Nodup.append h.1 (List.nodup_singleton _)
        (by
          intro a ha hb
          rw [List.mem_singleton] at hb
          exact hk (hb ▸ ha))
  · intro e he
    rcases JsMap.mem_set m p.userId p e he with h1 | h1
    · rw [h1]
    · exact h.2 e h1

theorem registryWF_left (m : JsMap Participant) (userId : String) (h : RegistryWF m) :
    RegistryWF (participantsLeft m userId) := by
  constructor
  · rw [participantsLeft, JsMap.keys_delete]
    exact h.1.filter _
  · intro e he
    exact h.2 e (List.mem_of_mem_filter he)

theorem registryWF_streamAdded (m : JsMap Participant) (userId : String)
    (stream : MediaStream) (h : RegistryWF m) :
    RegistryWF (participantsStreamAdded m userId stream) := by
  unfold participantsStreamAdded
  cases hg : JsMap.get m userId with
  | none => exact h
  | some participant =>
    have hmem := JsMap.mem_of_get_eq_some m userId participant hg
    have hid : participant.userId = userId := h.2 _ hmem
    constructor
    · show (JsMap.set m userId { participant with stream := some stream }).keys.Nodup
      rw [JsMap.keys_set]
      have hk : userId ∈ JsMap.keys m := List.mem_map.2 ⟨_, hmem, rfl⟩
      rw [if_pos hk]
      exact h.1
    · intro e he
      rcases JsMap.mem_set m userId _ e he with h1 | h1
      · rw [h1]
        exact hid
      · exact h.2 e h1

theorem registryWF_applyRegistryEvent (s : PageState) (e : RegistryEvent)
    (h : RegistryWF s.participants) : RegistryWF (applyRegistryEvent s e).participants := by
  cases e with
  | joined participant => exact registryWF_joined _ _ h
  | left userId => exact registryWF_left _ _ h
  | streamAdded userId stream => exact registryWF_streamAdded _ _ _ h

theorem registryWF_applyRegistryEvents (es : List RegistryEvent) (s : PageState)
    (h : RegistryWF s.participants) : RegistryWF (applyRegistryEvents s es).participants := by
  induction es generalizing s with
  | nil => exact h
  | cons e es ih => exact ih _ (registryWF_applyRegistryEvent s e h)

theorem userIds_values_eq_keys (m : JsMap Participant) (h : RegistryWF m) :
    (JsMap.values m).map (fun p => p.userId) = JsMap.keys m := by
  rw [JsMap.values, JsMap.keys, List.map_map]
  apply List.map_congr_left
  intro e he
  exact h.2 e he

/-- C4. Registry uniqueness: starting from an empty participants map, after every finite
sequence of `onParticipantJoined`, `onParticipantLeft` and `onStreamAdded` callbacks the
registry has no key twice and the snapshot `participantArray` has no `userId` twice. -/
theorem registry_unique_per_userId (s : PageState) (h : s.participants = [])
    (es : List RegistryEvent) :
    (applyRegistryEvents s es).participants.keys.Nodup ∧
    ((participantArray (applyRegistryEvents s es)).map (fun p => p.userId)).Nodup ∧
    (∀ id, (participantArray (applyRegistryEvents s es)).countP (fun p => p.userId = id) ≤ 1) := by
  have hwf : RegistryWF (applyRegistryEvents s es).participants :=
    registryWF_applyRegistryEvents es s (by rw [h]; exact registryWF_nil)
  have hnd : ((participantArray (applyRegistryEvents s es)).map (fun p => p.userId)).Nodup := by
    rw [participantArray, userIds_values_eq_keys _ hwf]
    exact hwf.1
  refine ⟨hwf.1, hnd, ?_⟩
  intro id
  have hc := List.nodup_iff_count_le_one.1 hnd id
  rw [List.count, List.countP_map] at hc
  refine le_trans (le_of_eq ?_) hc
  apply List.countP_congr
  intro p _
  simp

/-- C4, at a concrete run: `b` joins twice, gets a stream, `c` joins, `b` leaves, `b` joins
again. -/
theorem registry_unique_per_userId_witness :
    (initialState (some "R1")).participants = [] ∧
    ((participantArray (applyRegistryEvents (initialState (some "R1"))
        [RegistryEvent.joined { userId := "b", userName := "Bea", stream := none },
         RegistryEvent.joined { userId := "b", userName := "Bea2", stream := none },
         RegistryEvent.streamAdded "b" { id := "sb", tracks := [] },
         RegistryEvent.joined { userId := "c", userName := "Cy", stream := none },
         RegistryEvent.left "b",
         RegistryEvent.joined { userId := "b", userName := "Bea3", stream := none }])).map
      (fun p => p.userId)).Nodup :=
  ⟨rfl, (registry_unique_per_userId (initialState (some "R1")) rfl _).2.1⟩

/-- C5. Registry removal: `onParticipantLeft(id)` is one update that leaves no entry for
`id`, keeps every other entry (value and order) as it was and raises nothing; running it
again, or on a registry without an entry for `id`, changes nothing and raises nothing. -/
theorem registry_remove_frame_idempotent (s : PageState) (id : String) :
    (onParticipantLeft s id).state.participants.get id = none ∧
    id ∉ (onParticipantLeft s id).state.participants.keys ∧
    (onParticipantLeft s id).state.participants =
      s.participants.filter (fun e => e.1 ≠ id) ∧
    (∀ id2, id2 ≠ id →
      (onParticipantLeft s id).state.participants.get id2 = s.participants.get id2) ∧
    (onParticipantLeft s id).raised = none ∧
    (onParticipantLeft (onParticipantLeft s id).state id).state =
      (onParticipantLeft s id).state ∧
    (onParticipantLeft (onParticipantLeft s id).state id).raised = none ∧
    (s.participants.get id = none →
      (onParticipantLeft s id).state.participants = s.participants) := by
  have h1 : (onParticipantLeft s id).state.participants.get id = none :=
    JsMap.get_delete_self s.participants id
  refine ⟨h1, (JsMap.get_eq_none_iff _ _).1 h1, rfl, ?_, rfl, ?_, rfl, ?_⟩
  · intro id2 hne
    exact JsMap.get_delete_of_ne s.participants id id2 hne
  · show ({ (onParticipantLeft s id).state with
        participants := JsMap.delete (JsMap.delete s.participants id) id
        remoteVideoRefs := JsMap.delete (JsMap.delete s.remoteVideoRefs id) id } : PageState)
      = (onParticipantLeft s id).state
    rw [JsMap.delete_delete, JsMap.delete_delete]
    rfl
  · intro hnone
    exact JsMap.delete_of_not_mem _ _ ((JsMap.get_eq_none_iff _ _).1 hnone)

/-- C6 (as stated, refuted). On the initial page, whose registry has no entry for `"b"`,
`onStreamAdded("b", stream)` leaves the registry empty: no entry for `"b"` is created. -/
theorem onStreamAdded_creates_no_entry_counterexample :
    (initialState (some "R1")).participants.get "b" = none ∧
    (onStreamAdded (initialState (some "R1")) "b"
        { id := "sb", tracks := [] }).state.participants = [] ∧
    (onStreamAdded (initialState (some "R1")) "b"
        { id := "sb", tracks := [] }).state.participants.get "b" = none := by
  decide

/-- C6 (amended). A registry entry is created by `onParticipantJoined` and removed by
`onParticipantLeft`; `onStreamAdded` never creates one.  For a registry with no entry for
`id`: `onStreamAdded(id, stream)` leaves the registry as it was, still without an entry for
`id`; `onParticipantJoined(p)` yields an entry for `p.userId` holding `p`; a following
`onStreamAdded(p.userId, stream)` makes that entry hold the stream, and a following
`onParticipantLeft(p.userId)` removes it. -/
theorem registry_entry_created_by_join (s : PageState) (id : String) (stream : MediaStream)
    (p : Participant) (h : s.participants.get id = none) :
    (onStreamAdded s id stream).state.participants = s.participants ∧
    (onStreamAdded s id stream).state.participants.get id = none ∧
    (onParticipantJoined s p).state.participants.get p.userId = some p ∧
    (onStreamAdded (onParticipantJoined s p).state p.userId stream).state.participants.get
        p.userId = some { p with stream := some stream } ∧
    (onParticipantLeft (onParticipantJoined s p).state p.userId).state.participants.get
        p.userId = none := by
  have h0 : (onStreamAdded s id stream).state.participants = s.participants := by
    show participantsStreamAdded s.participants id stream = s.participants
    rw [participantsStreamAdded, h]
  have hj : (onParticipantJoined s p).state.participants.get p.userId = some p :=
    JsMap.get_set_self s.participants p.userId p
  refine ⟨h0, by rw [h0]; exact h, hj, ?_, ?_⟩
  · show (participantsStreamAdded (onParticipantJoined s p).state.participants p.userId
        stream).get p.userId = _
    rw [participantsStreamAdded, hj]
    exact JsMap.get_set_self _ _ _
  · exact JsMap.get_delete_self _ _

/-- C6 (amended), on the initial page with `id = "b"`. -/
theorem registry_entry_created_by_join_witness :
    (initialState (some "R1")).participants.get "b" = none ∧
    (onStreamAdded (initialState (some "R1")) "b"
        { id := "sb", tracks := [] }).state.participants = [] ∧
    (onParticipantJoined (initialState (some "R1"))
        { userId := "b", userName := "Bea", stream := none }).state.participants.get "b" =
      some { userId := "b", userName := "Bea", stream := none } :=
  ⟨rfl,
   (registry_entry_created_by_join (initialState (some "R1")) "b" { id := "sb", tracks := [] }
      { userId := "b", userName := "Bea", stream := none } rfl).1,
   (registry_entry_created_by_join (initialState (some "R1")) "b" { id := "sb", tracks := [] }
      { userId := "b", userName := "Bea", stream := none } rfl).2.2.1⟩

end MeetingPage

/-! ### The meeting page: local media acquisition (C7, C8) -/

namespace MeetingPage

theorem addTrack_id (ms : MediaStream) (t : MediaStreamTrack) : (ms.addTrack t).id = ms.id := by
  unfold MediaStream.addTrack
  split <;> rfl

theorem mem_addTrack (ms : MediaStream) (t u : MediaStreamTrack)
    (h : u ∈ (ms.addTrack t).tracks) : u ∈ ms.tracks ∨ u = t := by
  unfold MediaStream.addTrack at h
  split at h
  · exact Or.inl h
  · simpa using h

theorem mem_addTrack_of_mem (ms : MediaStream) (t u : MediaStreamTrack) (h : u ∈ ms.tracks) :
    u ∈ (ms.addTrack t).tracks := by
  unfold MediaStream.addTrack
  split
  · exact h
  · exact List.mem_append_left _ h

theorem addTrack_covers (ms : MediaStream) (t : MediaStreamTrack) :
    ∃ u ∈ (ms.addTrack t).tracks, u.id = t.id := by
  unfold MediaStream.addTrack
  split
  · rename_i h
    rw [List.any_eq_true] at h
    obtain ⟨u, hu, hid⟩ := h
    exact ⟨u, hu, by simpa using hid⟩
  · exact ⟨t, by simp, rfl⟩

theorem foldl_addTrack_id (ts : List MediaStreamTrack) (b : MediaStream) :
    (ts.foldl MediaStream.addTrack b).id = b.id := by
  induction ts generalizing b with
  | nil => rfl
  | cons t ts ih => rw [List.foldl_cons, ih, addTrack_id]

theorem mem_foldl_addTrack (ts : List MediaStreamTrack) (b : MediaStream)
    (u : MediaStreamTrack) (h : u ∈ (ts.foldl MediaStream.addTrack b).tracks) :
    u ∈ b.tracks ∨ u ∈ ts := by
  induction ts generalizing b with
  | nil => exact Or.inl h
  | cons t ts ih =>
    rw [List.foldl_cons] at h
    rcases ih _ h with h1 | h1
    · rcases mem_addTrack b t u h1 with h2 | h2
      · exact Or.inl h2
      · exact Or.inr (h2 ▸ List.mem_cons_self _ _)
    · exact Or.inr (List.mem_cons_of_mem _ h1)

theorem mem_foldl_addTrack_of_mem (ts : List MediaStreamTrack) (b : MediaStream)
    (u : MediaStreamTrack) (h : u ∈ b.tracks) :
    u ∈ (ts.foldl MediaStream.addTrack b).tracks := by
  induction ts generalizing b with
  | nil => exact h
  | cons t ts ih =>
    rw [List.foldl_cons]
    exact ih _ (mem_addTrack_of_mem b t u h)

theorem foldl_addTrack_covers (ts : List MediaStreamTrack) (b : MediaStream)
    (t : MediaStreamTrack) (h : t ∈ ts) :
    ∃ u ∈ (ts.foldl MediaStream.addTrack b).tracks, u.id = t.id := by
  induction ts generalizing b with
  | nil => cases h
  | cons a ts ih =>
    rw [List.foldl_cons]
    rcases List.mem_cons.1 h with h1 | h1
    · obtain ⟨u, hu, hid⟩ := addTrack_covers b a
      exact ⟨u, mem_foldl_addTrack_of_mem ts _ u hu, by rw [hid, h1]⟩
    · exact ih _ h1

/-- The stream `getLocalStream` stores when only kind `k` was opened: the tracks of kind
`k` of the opened stream, added to a new stream and given their flags. -/
theorem single_kind_stream (newStreamId : String) (ms : MediaStream) (k : TrackKind)
    (bv ba : Bool) (hk : (match k with | TrackKind.video => bv | TrackKind.audio => ba) = true) :
    let ls := (((tracksOfKind ms k).foldl MediaStream.addTrack
        { id := newStreamId, tracks := [] }).setEnabledAll TrackKind.video bv).setEnabledAll
          TrackKind.audio ba
    ls.id = newStreamId ∧
    (∀ t ∈ tracksOfKind ms k, ∃ u ∈ ls.tracks, u.id = t.id ∧ u.kind = k) ∧
    (∀ u ∈ ls.tracks, u.kind = k ∧ u.enabled = true ∧
      ∃ t ∈ tracksOfKind ms k, u = { t with enabled := true }) := by
  intro ls
  have hmem : ∀ u ∈ ls.tracks, ∃ t ∈ tracksOfKind ms k, u = { t with enabled := true } := by
    intro u hu
    simp only [ls, MediaStream.setEnabledAll, List.mem_map] at hu
    obtain ⟨w, ⟨t, ht, rfl⟩, rfl⟩ := hu
    rcases mem_foldl_addTrack _ _ t ht with h1 | h1
    · cases h1
    · refine ⟨t, h1, ?_⟩
      have htk : t.kind = k := by
        simpa [tracksOfKind] using (List.mem_filter.1 h1).2
      cases k <;> simp_all
  refine ⟨?_, ?_, ?_⟩
  · show (List.foldl MediaStream.addTrack _ _).id = newStreamId
    rw [foldl_addTrack_id]
  · intro t ht
    obtain ⟨u, hu, hid⟩ := foldl_addTrack_covers (tracksOfKind ms k)
      { id := newStreamId, tracks := [] } t ht
    have huk : u.kind = k := by
      rcases mem_foldl_addTrack _ _ u hu with h1 | h1
      · cases h1
      · simpa [tracksOfKind] using (List.mem_filter.1 h1).2
    refine ⟨{ u with enabled := true }, ?_, hid, huk⟩
    simp only [ls, MediaStream.setEnabledAll, List.mem_map]
    refine ⟨if u.kind = TrackKind.video then { u with enabled := bv } else u, ⟨u, hu, rfl⟩, ?_⟩
    cases k <;> simp_all
  · intro u hu
    obtain ⟨t, ht, rfl⟩ := hmem u hu
    refine ⟨?_, rfl, t, ht, rfl⟩
    simpa [tracksOfKind] using (List.mem_filter.1 ht).2

/-- A failing run of `getLocalStream`, in full. -/
theorem getLocalStream_of_mediaFails (s : PageState) (env : MediaEnv)
    (h : mediaFails env = true) :
    getLocalStream s env =
      { state := s
        effects := (attemptedCalls env).map Effect.getUserMedia ++
          [Effect.consoleError "Error getting user media:",
           Effect.toast "Media Access Error"
             (mediaErrorDescription (thrownValue env) (hasVideoInput env.devices)
               (hasAudioInput env.devices)) true]
        raised := none } := by
  obtain ⟨devices, ov, oa, nid⟩ := env
  simp only [mediaFails] at h
  cases hv : hasVideoInput devices <;> cases ha : hasAudioInput devices <;>
    cases ov <;> cases oa <;>
    simp_all [getLocalStream, acquireStreams, openVideoStep, openAudioStep, attemptedCalls,
      thrownValue, isThrow]

/-- C7 (as stated, refuted). With camera and microphone both found: when the camera opens
and the microphone throws, no local stream is set although the camera was opened; when the
camera is refused, the microphone, which would open, is never requested and no local
stream is set. -/
theorem partial_acquisition_fatal_counterexample :
    isThrow envAudioThrows.openVideo = false ∧ isThrow envAudioThrows.openAudio = true ∧
    (getLocalStream lobbyState envAudioThrows).state.localStream = none ∧
    (getLocalStream lobbyState envAudioThrows).effects.filter Effect.isGetUserMedia =
      [Effect.getUserMedia videoConstraints, Effect.getUserMedia audioConstraints] ∧
    isThrow envVideoThrows.openVideo = true ∧ isThrow envVideoThrows.openAudio = false ∧
    (getLocalStream lobbyState envVideoThrows).state.localStream = none ∧
    (getLocalStream lobbyState envVideoThrows).effects.filter Effect.isGetUserMedia =
      [Effect.getUserMedia videoConstraints] := by
  decide

/-- C7 (amended). Partial acquisition is non-fatal when the missing kind is absent from the
device list: if enumeration finds kind `k` and not the other kind, and opening `k` succeeds
with stream `ms`, the run makes that one request, shows no toast, and sets a local stream
(the new `MediaStream`) whose tracks are exactly the tracks of kind `k` of `ms`, all
enabled, with `isVideoOn` / `isAudioOn` telling which kinds were found.  A run in which a
request throws sets no local stream: it leaves the state as it was. -/
theorem partial_acquisition_by_enumeration (s : PageState) (env : MediaEnv) (k : TrackKind)
    (ms : MediaStream) (hk : hasInput env.devices k = true)
    (ho : hasInput env.devices (otherKind k) = false)
    (hopen : env.openKind k = Except.ok ms) :
    (∃ ls, (getLocalStream s env).state.localStream = some ls ∧ ls.id = env.newStreamId ∧
      (∀ t ∈ tracksOfKind ms k, ∃ u ∈ ls.tracks, u.id = t.id ∧ u.kind = k) ∧
      (∀ u ∈ ls.tracks, u.kind = k ∧ u.enabled = true ∧
        ∃ t ∈ tracksOfKind ms k, u = { t with enabled := true })) ∧
    (getLocalStream s env).state.isVideoOn = hasInput env.devices TrackKind.video ∧
    (getLocalStream s env).state.isAudioOn = hasInput env.devices TrackKind.audio ∧
    (getLocalStream s env).effects = [Effect.getUserMedia (constraintsFor k)] ∧
    (getLocalStream s env).raised = none ∧
    (∀ (s2 : PageState) (env2 : MediaEnv), mediaFails env2 = true →
      (getLocalStream s2 env2).state = s2) := by
  have hfail : ∀ (s2 : PageState) (env2 : MediaEnv), mediaFails env2 = true →
      (getLocalStream s2 env2).state = s2 := by
    intro s2 env2 h2
    rw [getLocalStream_of_mediaFails s2 env2 h2]
  obtain ⟨devices, ov, oa, nid⟩ := env
  cases k with
  | video =>
    simp only [hasInput, otherKind, MediaEnv.openKind] at hk ho hopen
    subst hopen
    have key := single_kind_stream nid ms TrackKind.video true false rfl
    refine ⟨⟨_, ?_, key⟩, ?_, ?_, ?_, ?_, hfail⟩ <;>
      simp [getLocalStream, acquireStreams, openVideoStep, openAudioStep, hk, ho,
        combineStreams, tracksOfKind, MediaStream.getVideoTracks, hasInput, constraintsFor]
  | audio =>
    simp only [hasInput, otherKind, MediaEnv.openKind] at hk ho hopen
    subst hopen
    have key := single_kind_stream nid ms TrackKind.audio false true rfl
    refine ⟨⟨_, ?_, key⟩, ?_, ?_, ?_, ?_, hfail⟩ <;>
      simp [getLocalStream, acquireStreams, openVideoStep, openAudioStep, hk, ho,
        combineStreams, tracksOfKind, MediaStream.getAudioTracks, hasInput, constraintsFor]

/-- C7 (amended), for a machine with a microphone and no camera. -/
theorem partial_acquisition_by_enumeration_witness :
    (getLocalStream lobbyState envAudioOnly).state.isVideoOn = false ∧
    (getLocalStream lobbyState envAudioOnly).state.isAudioOn = true ∧
    (getLocalStream lobbyState envAudioOnly).effects =
      [Effect.getUserMedia audioConstraints] :=
  ⟨(partial_acquisition_by_enumeration lobbyState envAudioOnly TrackKind.audio micStream
      rfl rfl rfl).2.1,
   (partial_acquisition_by_enumeration lobbyState envAudioOnly TrackKind.audio micStream
      rfl rfl rfl).2.2.1,
   (partial_acquisition_by_enumeration lobbyState envAudioOnly TrackKind.audio micStream
      rfl rfl rfl).2.2.2.1⟩

/-- C8. Local media errors are reported once and not retried: in every run of
`getLocalStream` in which a request throws or no input device is found, the effects are the
requests made, then the console line, then one destructive toast titled
"Media Access Error"; each kind is requested at most once and the last request made is the
one that threw, so none follows it; the state, in particular `localStream`, `isVideoOn` and
`isAudioOn`, is left as it was and nothing is thrown to the caller. -/
theorem media_error_reported_not_retried (s : PageState) (env : MediaEnv)
    (h : mediaFails env = true) :
    (getLocalStream s env).effects.filter Effect.isToast =
      [Effect.toast "Media Access Error"
        (mediaErrorDescription (thrownValue env) (hasVideoInput env.devices)
          (hasAudioInput env.devices)) true] ∧
    (getLocalStream s env).effects =
      (attemptedCalls env).map Effect.getUserMedia ++
        [Effect.consoleError "Error getting user media:",
         Effect.toast "Media Access Error"
          (mediaErrorDescription (thrownValue env) (hasVideoInput env.devices)
            (hasAudioInput env.devices)) true] ∧
    (attemptedCalls env).Nodup ∧
    (∀ c, (attemptedCalls env).getLast? = some c →
      (c = videoConstraints ∧ isThrow env.openVideo = true) ∨
      (c = audioConstraints ∧ isThrow env.openAudio = true)) ∧
    (getLocalStream s env).state.localStream = s.localStream ∧
    (getLocalStream s env).state.isVideoOn = s.isVideoOn ∧
    (getLocalStream s env).state.isAudioOn = s.isAudioOn ∧
    (getLocalStream s env).state = s ∧
    (getLocalStream s env).raised = none := by
  rw [getLocalStream_of_mediaFails s env h]
  refine ⟨?_, rfl, ?_, ?_, rfl, rfl, rfl, rfl, rfl⟩
  · rw [List.filter_append]
    have h1 : ((attemptedCalls env).map Effect.getUserMedia).filter Effect.isToast = [] := by
      rw [List.filter_eq_nil_iff]
      intro e he
      obtain ⟨c, _, rfl⟩ := List.mem_map.1 he
      simp [Effect.isToast]
    rw [h1]
    rfl
  · unfold attemptedCalls
    cases hasVideoInput env.devices <;> cases hasAudioInput env.devices <;>
      cases isThrow env.openVideo <;> simp [videoConstraints, audioConstraints]
  · intro c hc
    simp only [mediaFails] at h
    unfold attemptedCalls at hc
    cases hv : hasVideoInput env.devices <;> cases ha : hasAudioInput env.devices <;>
      cases htv : isThrow env.openVideo <;> cases hta : isThrow env.openAudio <;>
      simp_all [List.getLast?]

/-- C8, for the run in which the camera opens and the microphone is busy. -/
theorem media_error_reported_not_retried_witness :
    mediaFails envAudioThrows = true ∧
    (getLocalStream lobbyState envAudioThrows).effects =
      [Effect.getUserMedia videoConstraints, Effect.getUserMedia audioConstraints,
       Effect.consoleError "Error getting user media:",
       Effect.toast "Media Access Error"
        "Your camera or microphone might be in use by another application, or there's a hardware issue. Please close other apps or restart your device."
        true] ∧
    (getLocalStream lobbyState envAudioThrows).state = lobbyState :=
  ⟨rfl, (media_error_reported_not_retried lobbyState envAudioThrows rfl).2.1,
   (media_error_reported_not_retried lobbyState envAudioThrows rfl).2.2.2.2.2.2.2.1⟩

end MeetingPage

/-! ### The meeting page: mute toggles (C9, C10) -/

namespace MeetingPage

theorem setFirstEnabled_identity (k : TrackKind) (b : Bool) (ts : List MediaStreamTrack) :
    (setFirstEnabled k b ts).map MediaStreamTrack.identity =
      ts.map MediaStreamTrack.identity := by
  induction ts with
  | nil => rfl
  | cons t ts ih =>
    by_cases h : t.kind = k
    · simp [setFirstEnabled, h, MediaStreamTrack.identity]
    · simp [setFirstEnabled, h, ih]

theorem setFirstEnabled_filter_other (k k2 : TrackKind) (b : Bool) (hne : k2 ≠ k)
    (ts : List MediaStreamTrack) :
    (setFirstEnabled k b ts).filter (fun t => t.kind = k2) =
      ts.filter (fun t => t.kind = k2) := by
  induction ts with
  | nil => rfl
  | cons t ts ih =>
    by_cases h : t.kind = k
    · have h2 : ¬ t.kind = k2 := by rw [h]; exact fun h3 => hne h3.symm
      simp [setFirstEnabled, h, List.filter_cons, Ne.symm hne]
    · simp only [setFirstEnabled, if_neg h, List.filter_cons, ih]

theorem setFirstEnabled_filter_same (k : TrackKind) (b : Bool) (ts : List MediaStreamTrack)
    (t : MediaStreamTrack) (rest : List MediaStreamTrack)
    (h : ts.filter (fun u => u.kind = k) = t :: rest) :
    (setFirstEnabled k b ts).filter (fun u => u.kind = k) = { t with enabled := b } :: rest := by
  induction ts with
  | nil => simp at h
  | cons a ts ih =>
    by_cases ha : a.kind = k
    · simp only [List.filter_cons, ha, decide_True, if_true, List.cons.injEq] at h
      obtain ⟨rfl, rfl⟩ := h
      simp [setFirstEnabled, ha, List.filter_cons]
    · simp only [List.filter_cons, ha, decide_False] at h
      rw [setFirstEnabled, if_neg ha, List.filter_cons]
      simp only [ha, decide_False]
      exact ih h

theorem otherKind_ne (k : TrackKind) : otherKind k ≠ k := by
  cases k <;> simp [otherKind]

/-- C9. Toggle mutes in place: in a state whose local stream has a track of kind `k`
(video for `toggleVideo`, audio for `toggleAudio`), the toggle writes the negation of the
page flag on the first track of that kind and stores it in the flag; the stream keeps its
id and the same tracks with the same ids, kinds and ready states (none stopped, none
replaced), every track of the other kind keeps its `enabled` flag and the other page flag
is unchanged; nothing is thrown. -/
theorem toggle_mutes_in_place (s : PageState) (k : TrackKind) (ls : MediaStream)
    (t : MediaStreamTrack) (rest : List MediaStreamTrack)
    (hls : s.localStream = some ls) (ht : tracksOfKind ls k = t :: rest) :
    (toggleKind k s).state.flag k = (!s.flag k) ∧
    (toggleKind k s).state.flag (otherKind k) = s.flag (otherKind k) ∧
    (toggleKind k s).raised = none ∧
    (toggleKind k s).effects = managerCall s (managerToggle k (!s.flag k)) ∧
    ∃ ls2, (toggleKind k s).state.localStream = some ls2 ∧
      ls2.id = ls.id ∧
      tracksOfKind ls2 k = { t with enabled := !s.flag k } :: rest ∧
      ls2.tracks.map MediaStreamTrack.identity = ls.tracks.map MediaStreamTrack.identity ∧
      tracksOfKind ls2 (otherKind k) = tracksOfKind ls (otherKind k) := by
  cases k with
  | video =>
    have hh : ls.getVideoTracks.head? = some t := by
      show (tracksOfKind ls TrackKind.video).head? = some t
      rw [ht]; rfl
    have e : toggleKind TrackKind.video s =
        { state := { s with
            isVideoOn := !s.isVideoOn
            localStream := some { ls with
              tracks := setFirstEnabled TrackKind.video (!s.isVideoOn) ls.tracks } }
          effects := managerCall s (Effect.managerToggleVideo (!s.isVideoOn))
          raised := none } := by
      simp only [toggleKind, toggleVideo, hls, hh]
    rw [e]
    refine ⟨rfl, rfl, rfl, rfl, _, rfl, rfl, ?_, ?_, ?_⟩
    · exact setFirstEnabled_filter_same _ _ _ _ _ ht
    · exact setFirstEnabled_identity _ _ _
    · exact setFirstEnabled_filter_other _ _ _ (by decide) _
  | audio =>
    have hh : ls.getAudioTracks.head? = some t := by
      show (tracksOfKind ls TrackKind.audio).head? = some t
      rw [ht]; rfl
    have e : toggleKind TrackKind.audio s =
        { state := { s with
            isAudioOn := !s.isAudioOn
            localStream := some { ls with
              tracks := setFirstEnabled TrackKind.audio (!s.isAudioOn) ls.tracks } }
          effects := managerCall s (Effect.managerToggleAudio (!s.isAudioOn))
          raised := none } := by
      simp only [toggleKind, toggleAudio, hls, hh]
    rw [e]
    refine ⟨rfl, rfl, rfl, rfl, _, rfl, rfl, ?_, ?_, ?_⟩
    · exact setFirstEnabled_filter_same _ _ _ _ _ ht
    · exact setFirstEnabled_identity _ _ _
    · exact setFirstEnabled_filter_other _ _ _ (by decide) _

/-- C9, on the joined page: `toggleVideo` turns the camera track off in place. -/
theorem toggle_mutes_in_place_witness :
    (toggleVideo joinedState).state.isVideoOn = false ∧
    (toggleVideo joinedState).state.isAudioOn = true ∧
    (toggleVideo joinedState).raised = none ∧
    (toggleVideo joinedState).effects = [Effect.managerToggleVideo false] :=
  ⟨(toggle_mutes_in_place joinedState TrackKind.video
      { id := "local", tracks :=
          [{ id := "v1", kind := TrackKind.video, enabled := true, readyState := ReadyState.live },
           { id := "a1", kind := TrackKind.audio, enabled := true, readyState := ReadyState.live }] }
      { id := "v1", kind := TrackKind.video, enabled := true, readyState := ReadyState.live } []
      rfl rfl).1,
   (toggle_mutes_in_place joinedState TrackKind.video
      { id := "local", tracks :=
          [{ id := "v1", kind := TrackKind.video, enabled := true, readyState := ReadyState.live },
           { id := "a1", kind := TrackKind.audio, enabled := true, readyState := ReadyState.live }] }
      { id := "v1", kind := TrackKind.video, enabled := true, readyState := ReadyState.live } []
      rfl rfl).2.1,
   (toggle_mutes_in_place joinedState TrackKind.video
      { id := "local", tracks :=
          [{ id := "v1", kind := TrackKind.video, enabled := true, readyState := ReadyState.live },
           { id := "a1", kind := TrackKind.audio, enabled := true, readyState := ReadyState.live }] }
      { id := "v1", kind := TrackKind.video, enabled := true, readyState := ReadyState.live } []
      rfl rfl).2.2.1,
   (toggle_mutes_in_place joinedState TrackKind.video
      { id := "local", tracks :=
          [{ id := "v1", kind := TrackKind.video, enabled := true, readyState := ReadyState.live },
           { id := "a1", kind := TrackKind.audio, enabled := true, readyState := ReadyState.live }] }
      { id := "v1", kind := TrackKind.video, enabled := true, readyState := ReadyState.live } []
      rfl rfl).2.2.2.1⟩

theorem flagsConsistent_of_same (s s2 : PageState) (h : FlagsConsistent s)
    (h1 : s2.localStream = s.localStream) (h2 : s2.isVideoOn = s.isVideoOn)
    (h3 : s2.isAudioOn = s.isAudioOn) : FlagsConsistent s2 := by
  intro ls hls k t ht
  rw [h1] at hls
  have := h ls hls k t ht
  cases k
  · simpa [PageState.flag, h2] using this
  · simpa [PageState.flag, h3] using this

theorem enabled_of_mem_setEnabledAll (ms : MediaStream) (bv ba : Bool) (t : MediaStreamTrack)
    (h : t ∈ ((ms.setEnabledAll TrackKind.video bv).setEnabledAll TrackKind.audio ba).tracks) :
    t.enabled = (match t.kind with | TrackKind.video => bv | TrackKind.audio => ba) := by
  simp only [MediaStream.setEnabledAll, List.mem_map] at h
  obtain ⟨w, ⟨u, _, rfl⟩, rfl⟩ := h
  cases hk : u.kind <;> simp [hk]

theorem getLocalStream_state (s : PageState) (env : MediaEnv) :
    (getLocalStream s env).state = s ∨
    ∃ ms : MediaStream, (getLocalStream s env).state =
      { s with
        localStream := some ((ms.setEnabledAll TrackKind.video
          (hasVideoInput env.devices)).setEnabledAll TrackKind.audio (hasAudioInput env.devices))
        localVideoRef := s.localVideoRef.map (fun _ => { srcObject := some ms.id })
        isVideoOn := hasVideoInput env.devices
        isAudioOn := hasAudioInput env.devices } := by
  cases h : acquireStreams (hasVideoInput env.devices) (hasAudioInput env.devices) env with
  | mk r eff =>
    cases r with
    | error e =>
      left
      simp only [getLocalStream, h]
    | ok p =>
      right
      exact ⟨combineStreams env.newStreamId p.1 p.2, by simp only [getLocalStream, h]⟩

theorem flagsConsistent_getLocalStream (s : PageState) (env : MediaEnv)
    (h : FlagsConsistent s) : FlagsConsistent (getLocalStream s env).state := by
  rcases getLocalStream_state s env with h1 | ⟨ms, h1⟩
  · rw [h1]
    exact h
  · rw [h1]
    intro ls hls k t ht
    simp only [Option.some.injEq] at hls
    subst hls
    have hmem : t ∈ (tracksOfKind _ k) := List.mem_of_mem_head? ht
    have htk : t.kind = k := by
      simpa [tracksOfKind] using (List.mem_filter.1 hmem).2
    have hen := enabled_of_mem_setEnabledAll _ _ _ t (List.mem_filter.1 hmem).1
    rw [hen, htk]
    cases k <;> rfl

theorem toggleVideo_of_no_stream (s : PageState) (h : s.localStream = none) :
    toggleVideo s =
      { state := { s with isVideoOn := !s.isVideoOn }
        effects := managerCall s (Effect.managerToggleVideo (!s.isVideoOn))
        raised := none } := by
  simp only [toggleVideo, h]

theorem toggleVideo_of_no_track (s : PageState) (ls : MediaStream)
    (h : s.localStream = some ls) (hh : ls.getVideoTracks.head? = none) :
    toggleVideo s =
      { state := { s with isVideoOn := !s.isVideoOn }
        effects := []
        raised := some (JsThrown.error "TypeError" "Cannot set properties of undefined") } := by
  simp only [toggleVideo, h, hh]

theorem toggleVideo_of_track (s : PageState) (ls : MediaStream) (t : MediaStreamTrack)
    (h : s.localStream = some ls) (hh : ls.getVideoTracks.head? = some t) :
    toggleVideo s =
      { state := { s with
          isVideoOn := !s.isVideoOn
          localStream := some { ls with
            tracks := setFirstEnabled TrackKind.video (!s.isVideoOn) ls.tracks } }
        effects := managerCall s (Effect.managerToggleVideo (!s.isVideoOn))
        raised := none } := by
  simp only [toggleVideo, h, hh]

theorem toggleAudio_of_no_stream (s : PageState) (h : s.localStream = none) :
    toggleAudio s =
      { state := { s with isAudioOn := !s.isAudioOn }
        effects := managerCall s (Effect.managerToggleAudio (!s.isAudioOn))
        raised := none } := by
  simp only [toggleAudio, h]

theorem toggleAudio_of_no_track (s : PageState) (ls : MediaStream)
    (h : s.localStream = some ls) (hh : ls.getAudioTracks.head? = none) :
    toggleAudio s =
      { state := { s with isAudioOn := !s.isAudioOn }
        effects := []
        raised := some (JsThrown.error "TypeError" "Cannot set properties of undefined") } := by
  simp only [toggleAudio, h, hh]

theorem toggleAudio_of_track (s : PageState) (ls : MediaStream) (t : MediaStreamTrack)
    (h : s.localStream = some ls) (hh : ls.getAudioTracks.head? = some t) :
    toggleAudio s =
      { state := { s with
          isAudioOn := !s.isAudioOn
          localStream := some { ls with
            tracks := setFirstEnabled TrackKind.audio (!s.isAudioOn) ls.tracks } }
        effects := managerCall s (Effect.managerToggleAudio (!s.isAudioOn))
        raised := none } := by
  simp only [toggleAudio, h, hh]

theorem cons_of_head? {α : Type} (l : List α) (a : α) (h : l.head? = some a) :
    ∃ rest, l = a :: rest := by
  cases l with
  | nil => cases h
  | cons b r =>
    simp only [List.head?_cons, Option.some.injEq] at h
    exact ⟨r, by rw [h]⟩

theorem flagsConsistent_toggleVideo (s : PageState) (h : FlagsConsistent s) :
    FlagsConsistent (toggleVideo s).state := by
  cases hls : s.localStream with
  | none =>
    rw [toggleVideo_of_no_stream s hls]
    intro ls hls2
    rw [show ({ s with isVideoOn := !s.isVideoOn } : PageState).localStream = s.localStream
      from rfl, hls] at hls2
    cases hls2
  | some ls0 =>
    cases hh : ls0.getVideoTracks.head? with
    | none =>
      rw [toggleVideo_of_no_track s ls0 hls hh]
      intro ls hls2 k t ht
      rw [show ({ s with isVideoOn := !s.isVideoOn } : PageState).localStream = s.localStream
        from rfl, hls, Option.some.injEq] at hls2
      subst hls2
      cases k with
      | video =>
        have : (tracksOfKind ls0 TrackKind.video).head? = none := hh
        rw [this] at ht
        cases ht
      | audio => exact h ls0 hls TrackKind.audio t ht
    | some t0 =>
      rw [toggleVideo_of_track s ls0 t0 hls hh]
      intro ls hls2 k t ht
      simp only [Option.some.injEq] at hls2
      subst hls2
      cases k with
      | video =>
        obtain ⟨rest, hrest⟩ := cons_of_head? (tracksOfKind ls0 TrackKind.video) t0 hh
        have hf := setFirstEnabled_filter_same TrackKind.video (!s.isVideoOn) ls0.tracks t0 rest
          hrest
        simp only [tracksOfKind] at ht
        rw [hf] at ht
        simp only [List.head?_cons, Option.some.injEq] at ht
        subst ht
        rfl
      | audio =>
        have hf := setFirstEnabled_filter_other TrackKind.video TrackKind.audio (!s.isVideoOn)
          (by decide) ls0.tracks
        simp only [tracksOfKind] at ht
        rw [hf] at ht
        exact h ls0 hls TrackKind.audio t ht

theorem flagsConsistent_toggleAudio (s : PageState) (h : FlagsConsistent s) :
    FlagsConsistent (toggleAudio s).state := by
  cases hls : s.localStream with
  | none =>
    rw [toggleAudio_of_no_stream s hls]
    intro ls hls2
    rw [show ({ s with isAudioOn := !s.isAudioOn } : PageState).localStream = s.localStream
      from rfl, hls] at hls2
    cases hls2
  | some ls0 =>
    cases hh : ls0.getAudioTracks.head? with
    | none =>
      rw [toggleAudio_of_no_track s ls0 hls hh]
      intro ls hls2 k t ht
      rw [show ({ s with isAudioOn := !s.isAudioOn } : PageState).localStream = s.localStream
        from rfl, hls, Option.some.injEq] at hls2
      subst hls2
      cases k with
      | audio =>
        have : (tracksOfKind ls0 TrackKind.audio).head? = none := hh
        rw [this] at ht
        cases ht
      | video => exact h ls0 hls TrackKind.video t ht
    | some t0 =>
      rw [toggleAudio_of_track s ls0 t0 hls hh]
      intro ls hls2 k t ht
      simp only [Option.some.injEq] at hls2
      subst hls2
      cases k with
      | audio =>
        obtain ⟨rest, hrest⟩ := cons_of_head? (tracksOfKind ls0 TrackKind.audio) t0 hh
        have hf := setFirstEnabled_filter_same TrackKind.audio (!s.isAudioOn) ls0.tracks t0 rest
          hrest
        simp only [tracksOfKind] at ht
        rw [hf] at ht
        simp only [List.head?_cons, Option.some.injEq] at ht
        subst ht
        rfl
      | video =>
        have hf := setFirstEnabled_filter_other TrackKind.audio TrackKind.video (!s.isAudioOn)
          (by decide) ls0.tracks
        simp only [tracksOfKind] at ht
        rw [hf] at ht
        exact h ls0 hls TrackKind.video t ht

theorem initializeWebRTC_frame (s : PageState) (r : Except JsThrown Unit) :
    (initializeWebRTC s r).state.localStream = s.localStream ∧
    (initializeWebRTC s r).state.isVideoOn = s.isVideoOn ∧
    (initializeWebRTC s r).state.isAudioOn = s.isAudioOn := by
  unfold initializeWebRTC
  split
  · split
    · exact ⟨rfl, rfl, rfl⟩
    · split <;> exact ⟨rfl, rfl, rfl⟩
  · exact ⟨rfl, rfl, rfl⟩

theorem flagsConsistent_runAction (s : PageState) (a : PageAction) (h : FlagsConsistent s) :
    FlagsConsistent (runAction s a).state := by
  cases a with
  | loadMeeting result =>
    cases result <;> exact flagsConsistent_of_same s _ h rfl rfl rfl
  | loadCurrentUser user profile =>
    cases user <;> exact flagsConsistent_of_same s _ h rfl rfl rfl
  | getLocalStream env => exact flagsConsistent_getLocalStream s env h
  | toggleVideo => exact flagsConsistent_toggleVideo s h
  | toggleAudio => exact flagsConsistent_toggleAudio s h
  | handleJoinMeeting env initResult =>
    show FlagsConsistent (handleJoinMeeting s env initResult).state
    unfold handleJoinMeeting
    split
    · exact flagsConsistent_getLocalStream s env h
    · obtain ⟨h1, h2, h3⟩ := initializeWebRTC_frame s initResult
      exact flagsConsistent_of_same s _ h h1 h2 h3
  | handleEndCall cleanup =>
    show FlagsConsistent (handleEndCall s cleanup).state
    unfold handleEndCall
    split
    · split <;> exact h
    · exact h
  | registry event =>
    cases event <;> exact flagsConsistent_of_same s _ h rfl rfl rfl
  | renderLocalVideo mounted => exact flagsConsistent_of_same s _ h rfl rfl rfl
  | renderRemoteVideo userId =>
    show FlagsConsistent (attachRemoteVideo s userId)
    unfold attachRemoteVideo
    split
    · exact flagsConsistent_of_same s _ h rfl rfl rfl
    · exact h

theorem flagsConsistent_runActions (acts : List PageAction) (s : PageState)
    (h : FlagsConsistent s) : FlagsConsistent (runActions s acts) := by
  induction acts generalizing s with
  | nil => exact h
  | cons a acts ih => exact ih _ (flagsConsistent_runAction s a h)

/-- Every reachable state of the page is flag/track consistent. -/
theorem flagsConsistent_of_reachable (s : PageState) (h : Reachable s) : FlagsConsistent s := by
  obtain ⟨meetingId, acts, rfl⟩ := h
  apply flagsConsistent_runActions
  intro ls hls
  cases hls

theorem setFirstEnabled_idem (k : TrackKind) (b b2 : Bool) (ts : List MediaStreamTrack) :
    setFirstEnabled k b (setFirstEnabled k b2 ts) = setFirstEnabled k b ts := by
  induction ts with
  | nil => rfl
  | cons t ts ih =>
    by_cases h : t.kind = k
    · simp [setFirstEnabled, h]
    · simp [setFirstEnabled, h, ih]

theorem setFirstEnabled_of_enabled (k : TrackKind) (b : Bool) (ts : List MediaStreamTrack)
    (t : MediaStreamTrack) (rest : List MediaStreamTrack)
    (h : ts.filter (fun u => u.kind = k) = t :: rest) (hb : t.enabled = b) :
    setFirstEnabled k b ts = ts := by
  induction ts with
  | nil => rfl
  | cons a ts ih =>
    by_cases ha : a.kind = k
    · simp only [List.filter_cons, ha, decide_True, if_true, List.cons.injEq] at h
      obtain ⟨rfl, _⟩ := h
      rw [setFirstEnabled, if_pos ha, ← hb]
    · simp only [List.filter_cons, ha, decide_False] at h
      rw [setFirstEnabled, if_neg ha, ih h]

/-- C10 (as stated, refuted). In the lobby with camera and microphone acquired and not yet
joined, `isVideoOn` is true and the local stream has a video track, yet toggling video off
and on makes no call at all on a session manager: there is none. -/
theorem toggle_round_trip_no_manager_counterexample :
    previewState.isVideoOn = true ∧
    previewState.localStream.map (fun ls => ls.getVideoTracks.length) = some 1 ∧
    previewState.webrtcManagerRef = none ∧
    (toggleVideo previewState).effects ++
      (toggleVideo (toggleVideo previewState).state).effects = [] := by
  decide

/-- C10 (amended). In every reachable state with `isVideoOn = true` and a local stream
with a video track, applying `toggleVideo` twice gives back the very same state (so
`isVideoOn`, every track's `enabled` flag and the local stream are restored), the first
toggle turns `isVideoOn` off, neither throws, and the effects of the two toggles together
are: when a session manager is present, exactly `toggleVideo(false)` then
`toggleVideo(true)` on it; when none is present, nothing. -/
theorem toggle_video_round_trip (s : PageState) (ls : MediaStream) (hr : Reachable s)
    (hon : s.isVideoOn = true) (hls : s.localStream = some ls) (hv : ls.getVideoTracks ≠ []) :
    (toggleVideo (toggleVideo s).state).state = s ∧
    (toggleVideo s).state.isVideoOn = false ∧
    (toggleVideo s).raised = none ∧
    (toggleVideo (toggleVideo s).state).raised = none ∧
    (toggleVideo s).effects ++ (toggleVideo (toggleVideo s).state).effects =
      (match s.webrtcManagerRef with
        | some _ => [Effect.managerToggleVideo false, Effect.managerToggleVideo true]
        | none => []) := by
  obtain ⟨t0, rest, hrest⟩ : ∃ t0 rest, tracksOfKind ls TrackKind.video = t0 :: rest := by
    cases hl : tracksOfKind ls TrackKind.video with
    | nil => exact absurd hl hv
    | cons a r => exact ⟨a, r, rfl⟩
  have hh : ls.getVideoTracks.head? = some t0 := by
    show (tracksOfKind ls TrackKind.video).head? = some t0
    rw [hrest]; rfl
  have hen : t0.enabled = true := by
    have := flagsConsistent_of_reachable s hr ls hls TrackKind.video t0
      (by rw [hrest]; rfl)
    rw [this]
    exact hon
  have e1 := toggleVideo_of_track s ls t0 hls hh
  have hh2 : ({ ls with tracks := setFirstEnabled TrackKind.video (!s.isVideoOn) ls.tracks } :
      MediaStream).getVideoTracks.head? = some { t0 with enabled := !s.isVideoOn } := by
    show (List.filter _ (setFirstEnabled TrackKind.video (!s.isVideoOn) ls.tracks)).head? = _
    rw [setFirstEnabled_filter_same TrackKind.video (!s.isVideoOn) ls.tracks t0 rest hrest]
    rfl
  have e2 := toggleVideo_of_track (toggleVideo s).state _ _ (by rw [e1]) (by rw [hh2])
  have hback : setFirstEnabled TrackKind.video true ls.tracks = ls.tracks :=
    setFirstEnabled_of_enabled TrackKind.video true ls.tracks t0 rest hrest hen
  refine ⟨?_, ?_, ?_, ?_, ?_⟩
  · rw [e2, e1]
    simp only [hon, Bool.not_true, Bool.not_false, setFirstEnabled_idem, hback]
    cases s
    simp_all
  · rw [e1]
    simp [hon]
  · rw [e1]
  · rw [e2]
  · rw [e2, e1]
    simp only [managerCall, hon, Bool.not_true, Bool.not_false]
    cases s.webrtcManagerRef <;> rfl

/-- C10 (amended), on the joined page, where a session manager is present. -/
theorem toggle_video_round_trip_witness :
    Reachable joinedState ∧
    (toggleVideo (toggleVideo joinedState).state).state = joinedState ∧
    (toggleVideo joinedState).effects ++
        (toggleVideo (toggleVideo joinedState).state).effects =
      [Effect.managerToggleVideo false, Effect.managerToggleVideo true] :=
  ⟨⟨some "R1", joinActions, rfl⟩,
   (toggle_video_round_trip joinedState
      { id := "local", tracks :=
          [{ id := "v1", kind := TrackKind.video, enabled := true, readyState := ReadyState.live },
           { id := "a1", kind := TrackKind.audio, enabled := true, readyState := ReadyState.live }] }
      ⟨some "R1", joinActions, rfl⟩ rfl rfl (by decide)).1,
   (toggle_video_round_trip joinedState
      { id := "local", tracks :=
          [{ id := "v1", kind := TrackKind.video, enabled := true, readyState := ReadyState.live },
           { id := "a1", kind := TrackKind.audio, enabled := true, readyState := ReadyState.live }] }
      ⟨some "R1", joinActions, rfl⟩ rfl rfl (by decide)).2.2.2.2⟩

end MeetingPage

/-! ### The relay: repeated leave, other events, payload, identities (C11, C13, C14, C16) -/

namespace Relay

theorem socketLeave_socketLeave (st : RelayState) (s : SocketId) (room : String) :
    (socketLeave (socketLeave st s room) s room).rooms = (socketLeave st s room).rooms := by
  funext r
  by_cases h : r = room
  · simp [socketLeave, h, List.filter_filter]
  · simp [socketLeave, h]

theorem deliveredTo_append (ds es : List Delivery) (t : SocketId) :
    deliveredTo (ds ++ es) t = deliveredTo ds t ++ deliveredTo es t := by
  simp [deliveredTo, List.filter_append]

/-- C11 (as stated, refuted). Sockets 1 and 2 are members of room `"R1"`; socket 2 sends
`meeting:leave` twice: socket 1 is handed `meeting:user_left` for `"b"` twice. -/
theorem relay_leave_twice_counterexample :
    deliveredTo
      ((onMeetingLeave roomR1Two 2 "R1" "b").2 ++
        (onMeetingLeave (onMeetingLeave roomR1Two 2 "R1" "b").1 2 "R1" "b").2) 1 =
      [{ event := "meeting:user_left", userId := "b" },
       { event := "meeting:user_left", userId := "b" }] := by
  decide

theorem deliveredTo_map_filter (l : List SocketId) (s t : SocketId) (pkt : Packet)
    (hnd : l.Nodup) :
    deliveredTo ((l.filter (fun x => x ≠ s)).map (fun x => { target := x, packet := pkt })) t =
      if t ∈ l ∧ t ≠ s then [pkt] else [] := by
  induction l with
  | nil => simp [deliveredTo]
  | cons a l ih =>
    rw [List.nodup_cons] at hnd
    have ih2 := ih hnd.2
    by_cases has : a = s
    · subst has
      rw [List.filter_cons_of_neg (by simp), ih2]
      by_cases h : t ∈ l ∧ t ≠ a
      · rw [if_pos h, if_pos ⟨List.mem_cons_of_mem _ h.1, h.2⟩]
      · rw [if_neg h, if_neg]
        rintro ⟨h1, h2⟩
        rcases List.mem_cons.1 h1 with h3 | h3
        · exact h2 h3
        · exact h ⟨h3, h2⟩
    · rw [List.filter_cons_of_pos (by simpa using has), List.map_cons]
      by_cases hat : a = t
      · subst hat
        have hnot : ¬ (a ∈ l ∧ a ≠ s) := fun h => hnd.1 h.1
        rw [if_neg hnot] at ih2
        rw [if_pos ⟨List.mem_cons_self _ _, has⟩]
        simp only [deliveredTo, List.filter_cons, decide_True, if_true, List.map_cons] at ih2 ⊢
        rw [ih2]
      · have hstep : deliveredTo
            (({ target := a, packet := pkt } : Delivery) ::
              (l.filter (fun x => x ≠ s)).map (fun x => { target := x, packet := pkt })) t =
            deliveredTo
              ((l.filter (fun x => x ≠ s)).map (fun x => { target := x, packet := pkt })) t := by
          simp [deliveredTo, List.filter_cons, hat]
        rw [hstep, ih2]
        by_cases h : t ∈ l ∧ t ≠ s
        · rw [if_pos h, if_pos ⟨List.mem_cons_of_mem _ h.1, h.2⟩]
        · rw [if_neg h, if_neg]
          rintro ⟨h1, h2⟩
          rcases List.mem_cons.1 h1 with h3 | h3
          · exact hat h3.symm
          · exact h ⟨h3, h2⟩

theorem deliveredTo_onMeetingLeave (st : RelayState) (s t : SocketId)
    (meetingId userId : String) (hnd : (st.rooms meetingId).Nodup) :
    deliveredTo (onMeetingLeave st s meetingId userId).2 t =
      if t ∈ st.rooms meetingId ∧ t ≠ s
      then [{ event := "meeting:user_left", userId := userId }] else [] := by
  have hroom : (socketLeave st s meetingId).rooms meetingId =
      (st.rooms meetingId).filter (fun x => x ≠ s) := by
    simp [socketLeave]
  show deliveredTo (socketToEmit (socketLeave st s meetingId) s meetingId _) t = _
  rw [socketToEmit, hroom, deliveredTo_map_filter _ s t _ (hnd.filter _)]
  by_cases h : t ∈ st.rooms meetingId ∧ t ≠ s
  · rw [if_pos h, if_pos]
    exact ⟨List.mem_filter.2 ⟨h.1, by simpa using h.2⟩, h.2⟩
  · rw [if_neg h, if_neg]
    rintro ⟨h1, h2⟩
    exact h ⟨(List.mem_filter.1 h1).1, h2⟩

/-- C11 (amended). In a relay state whose room `meetingId` is a set of sockets, processing
`meeting:leave{meetingId, userId}` from `s` twice in a row throws neither time, leaves the
room membership after the second leave equal to that after the first, and broadcasts the
leave each time: every member of the room other than `s` is handed exactly one
`meeting:user_left` carrying that `userId` by the first leave and exactly one more by the
second, two in all, and no other socket is handed anything. -/
theorem relay_leave_twice_rebroadcasts (st : RelayState) (s : SocketId)
    (meetingId userId : String) (hnd : (st.rooms meetingId).Nodup) :
    meetingLeaveListener st s (some (meetingId, userId)) =
      Except.ok (onMeetingLeave st s meetingId userId) ∧
    meetingLeaveListener (onMeetingLeave st s meetingId userId).1 s (some (meetingId, userId)) =
      Except.ok (onMeetingLeave (onMeetingLeave st s meetingId userId).1 s meetingId userId) ∧
    (onMeetingLeave (onMeetingLeave st s meetingId userId).1 s meetingId userId).1.rooms =
      (onMeetingLeave st s meetingId userId).1.rooms ∧
    (onMeetingLeave (onMeetingLeave st s meetingId userId).1 s meetingId userId).2 =
      (onMeetingLeave st s meetingId userId).2 ∧
    (∀ t, t ∈ st.rooms meetingId → t ≠ s →
      deliveredTo (onMeetingLeave st s meetingId userId).2 t =
        [{ event := "meeting:user_left", userId := userId }] ∧
      deliveredTo
        (onMeetingLeave (onMeetingLeave st s meetingId userId).1 s meetingId userId).2 t =
        [{ event := "meeting:user_left", userId := userId }] ∧
      deliveredTo
        ((onMeetingLeave st s meetingId userId).2 ++
          (onMeetingLeave (onMeetingLeave st s meetingId userId).1 s meetingId userId).2) t =
        [{ event := "meeting:user_left", userId := userId },
         { event := "meeting:user_left", userId := userId }]) ∧
    (∀ t, (t ∉ st.rooms meetingId ∨ t = s) →
      deliveredTo
        ((onMeetingLeave st s meetingId userId).2 ++
          (onMeetingLeave (onMeetingLeave st s meetingId userId).1 s meetingId userId).2) t =
        []) := by
  have hrooms := socketLeave_socketLeave st s meetingId
  have hemit :
      (onMeetingLeave (onMeetingLeave st s meetingId userId).1 s meetingId userId).2 =
        (onMeetingLeave st s meetingId userId).2 := by
    show socketToEmit (socketLeave (socketLeave st s meetingId) s meetingId) s meetingId _ =
      socketToEmit (socketLeave st s meetingId) s meetingId _
    simp only [socketToEmit, hrooms]
  have hone := fun t => deliveredTo_onMeetingLeave st s t meetingId userId hnd
  refine ⟨rfl, rfl, hrooms, hemit, ?_, ?_⟩
  · intro t ht hts
    have h1 : deliveredTo (onMeetingLeave st s meetingId userId).2 t =
        [{ event := "meeting:user_left", userId := userId }] := by
      rw [hone t, if_pos ⟨ht, hts⟩]
    refine ⟨h1, by rw [hemit]; exact h1, ?_⟩
    rw [deliveredTo_append, hemit, h1]
    rfl
  · intro t ht
    have h1 : deliveredTo (onMeetingLeave st s meetingId userId).2 t = [] := by
      rw [hone t, if_neg]
      rintro ⟨h2, h3⟩
      rcases ht with ht | ht
      · exact ht h2
      · exact h3 ht
    rw [deliveredTo_append, hemit, h1]
    rfl

/-- C11 (amended), for socket 2 leaving room `"R1"`, whose members are sockets 1 and 2,
twice: socket 1 is handed `meeting:user_left` for `"b"` twice, socket 2 nothing. -/
theorem relay_leave_twice_rebroadcasts_witness :
    (roomR1Two.rooms "R1").Nodup ∧
    deliveredTo
      ((onMeetingLeave roomR1Two 2 "R1" "b").2 ++
        (onMeetingLeave (onMeetingLeave roomR1Two 2 "R1" "b").1 2 "R1" "b").2) 1 =
      [{ event := "meeting:user_left", userId := "b" },
       { event := "meeting:user_left", userId := "b" }] ∧
    deliveredTo
      ((onMeetingLeave roomR1Two 2 "R1" "b").2 ++
        (onMeetingLeave (onMeetingLeave roomR1Two 2 "R1" "b").1 2 "R1" "b").2) 2 = [] :=
  ⟨by decide,
   ((relay_leave_twice_rebroadcasts roomR1Two 2 "R1" "b" (by decide)).2.2.2.2.1 1
      (by decide) (by decide)).2.2,
   (relay_leave_twice_rebroadcasts roomR1Two 2 "R1" "b" (by decide)).2.2.2.2.2 2
      (Or.inr rfl)⟩

/-- C13 (as stated, refuted). Socket 1, a member of room `"R1"`, sends an `offer` addressed
to socket 2, also a member: the relay hands nothing to socket 2 (nor to anyone). -/
theorem relay_offer_not_delivered_counterexample :
    1 ∈ roomR1Two.rooms "R1" ∧ 2 ∈ roomR1Two.rooms "R1" ∧
    offerToTwo.event = "offer" ∧ offerToTwo.target = some 2 ∧
    deliveredTo (dispatch roomR1Two 1 offerToTwo).2 2 = [] ∧
    (dispatch roomR1Two 1 offerToTwo).2 = [] := by
  decide

/-- C13 (amended). The relay has listeners for `meeting:join` and `meeting:leave` only: an
`offer`, `answer` or `ice-candidate` envelope sent to it, whatever its sender, addressee
and room, is delivered to no socket and leaves the rooms as they were. -/
theorem relay_drops_signaling (st : RelayState) (s : SocketId) (m : ClientMessage)
    (h : m.event = "offer" ∨ m.event = "answer" ∨ m.event = "ice-candidate") :
    dispatch st s m = (st, []) ∧
    (∀ t, deliveredTo (dispatch st s m).2 t = []) := by
  have h1 : m.event ≠ "meeting:join" := by
    rcases h with h | h | h <;> rw [h] <;> decide
  have h2 : m.event ≠ "meeting:leave" := by
    rcases h with h | h | h <;> rw [h] <;> decide
  have hd : dispatch st s m = (st, []) := by
    simp [dispatch, h1, h2]
  refine ⟨hd, ?_⟩
  intro t
  rw [hd]
  rfl

/-- C13 (amended), for an `offer` from socket 1 to socket 2 in room `"R1"`. -/
theorem relay_drops_signaling_witness :
    (offerToTwo.event = "offer" ∨ offerToTwo.event = "answer" ∨
      offerToTwo.event = "ice-candidate") ∧
    deliveredTo (dispatch roomR1Two 1 offerToTwo).2 2 = [] :=
  ⟨Or.inl rfl, (relay_drops_signaling roomR1Two 1 offerToTwo (Or.inl rfl)).2 2⟩

/-- C14 (as stated, refuted). User `"b"` joins room `"R1"` with display name `"Bea"` in the
message: the packet handed to socket 1 has the single field `userId`, no `displayName`,
and is the same packet as when the message says `"Bob"`. -/
theorem relay_join_payload_counterexample :
    (joinWithName "Bea").displayName = some "Bea" ∧
    (dispatch roomR1 2 (joinWithName "Bea")).2 =
      [{ target := 1, packet := { event := "meeting:user_joined", userId := "b" } }] ∧
    (dispatch roomR1 2 (joinWithName "Bea")).2.map
      (fun d => d.packet.fields.lookup "displayName") = [none] ∧
    (dispatch roomR1 2 (joinWithName "Bea")).2 = (dispatch roomR1 2 (joinWithName "Bob")).2 := by
  decide

/-- C14 (amended). For every `meeting:join` processed by the relay, the broadcast handed to
the other room members is `meeting:user_joined` with the payload `{ userId }`: it
identifies the joiner by the `userId` of the message and carries no display name, whatever
display name the message contained. -/
theorem relay_join_payload_userId_only (st : RelayState) (s : SocketId) (m : ClientMessage)
    (h : m.event = "meeting:join") :
    (∀ d ∈ (dispatch st s m).2,
      d.packet.event = "meeting:user_joined" ∧
      d.packet.fields = [("userId", m.userId)] ∧
      d.packet.fields.lookup "displayName" = none ∧
      d.target ≠ s) ∧
    (∀ name, (dispatch st s { m with displayName := name }).2 = (dispatch st s m).2) := by
  have hd : ∀ name, dispatch st s { m with displayName := name } =
      onMeetingJoin st s m.meetingId m.userId := by
    intro name
    simp [dispatch, h]
  have hd0 : dispatch st s m = onMeetingJoin st s m.meetingId m.userId := by
    simp [dispatch, h]
  refine ⟨?_, ?_⟩
  · intro d hd1
    rw [hd0] at hd1
    obtain ⟨hp, hs, _⟩ := packet_of_mem_socketToEmit _ s m.meetingId _ d hd1
    rw [hp]
    refine ⟨rfl, rfl, ?_, hs⟩
    simp [Packet.fields, List.lookup]
  · intro name
    rw [hd name, hd0]

/-- C14 (amended), for `"b"` joining room `"R1"` with the display name `"Bea"`. -/
theorem relay_join_payload_userId_only_witness :
    (joinWithName "Bea").event = "meeting:join" ∧
    (dispatch roomR1 2 { joinWithName "Bea" with displayName := some "Bob" }).2 =
      (dispatch roomR1 2 (joinWithName "Bea")).2 :=
  ⟨rfl, (relay_join_payload_userId_only roomR1 2 (joinWithName "Bea") rfl).2 (some "Bob")⟩

/-- C16. No access control, no identity binding: for every relay state, socket `s` (member
of `r` or not), room key `r` and user id `u`, `meeting:join{r,u}` from `s` makes `s` a
member of `r`; `meeting:leave{r,u}` from `s` hands `meeting:user_left{u}` to every member
of `r` other than `s`; and after `s` joined as `u0`, the packets of a later leave (or join)
sent with `u` carry `u`, not `u0`. -/
theorem relay_no_access_control (st : RelayState) (s : SocketId) (r u u0 : String) :
    s ∈ (onMeetingJoin st s r u).1.rooms r ∧
    (∀ t, t ∈ st.rooms r → t ≠ s →
      ({ target := t, packet := { event := "meeting:user_left", userId := u } } : Delivery) ∈
        (onMeetingLeave st s r u).2) ∧
    (∀ d ∈ (onMeetingLeave (onMeetingJoin st s r u0).1 s r u).2,
      d.packet = { event := "meeting:user_left", userId := u }) ∧
    (∀ d ∈ (onMeetingJoin (onMeetingJoin st s r u0).1 s r u).2,
      d.packet = { event := "meeting:user_joined", userId := u }) ∧
    (∀ t, t ∈ st.rooms r → t ≠ s →
      t ∈ recipients (onMeetingLeave (onMeetingJoin st s r u0).1 s r u).2) := by
  refine ⟨?_, ?_, ?_, ?_, ?_⟩
  · exact (mem_socketJoin st s s r).2 (Or.inl rfl)
  · intro t ht hts
    show _ ∈ socketToEmit (socketLeave st s r) s r _
    simp only [socketToEmit, List.mem_map, List.mem_filter]
    exact ⟨t, ⟨(mem_socketLeave st s t r).2 ⟨ht, hts⟩, by simpa using hts⟩, rfl⟩
  · intro d hd
    exact (packet_of_mem_socketToEmit _ s r _ d hd).1
  · intro d hd
    exact (packet_of_mem_socketToEmit _ s r _ d hd).1
  · intro t ht hts
    show t ∈ recipients (socketToEmit (socketLeave (socketJoin st s r) s r) s r _)
    rw [mem_recipients_socketToEmit, mem_socketLeave, mem_socketJoin]
    exact ⟨⟨Or.inr ht, hts⟩, hts⟩

end Relay

/-! ### The meeting page: unmount, confidentiality flag, participant count (C12, C15, C18) -/

namespace MeetingPage

/-- The cleanup run at unmount stops no track and leaves the local stream as it is, in
every state: the only thing it can do is call `cleanup` on the manager, when there is one. -/
theorem unmount_eq (s : PageState) :
    unmount s =
      { state := s, effects := managerCall s Effect.managerCleanup, raised := none } := by
  rfl

/-- After a change of the route parameter the cleanup holds the acquired stream: when the
lobby page with camera and microphone moves from `"R1"` to `"R2"` and is torn down
afterwards, that cleanup stops both tracks. -/
theorem cleanup_after_routeChange_stops_tracks :
    (routeChange none previewState (some "R2")).1.effects = [] ∧
    (mountEffectCleanup (routeChange none previewState (some "R2")).2
      (routeChange none previewState (some "R2")).1.state).effects =
      [Effect.trackStop "v1", Effect.trackStop "a1"] ∧
    (mountEffectCleanup (routeChange none previewState (some "R2")).2
      (routeChange none previewState (some "R2")).1.state).state.localStream.map
        (fun ls => ls.getTracks.map (fun t => t.readyState)) =
      some [ReadyState.ended, ReadyState.ended] := by
  decide

/-- C12 (the code at the failing input). The lobby page with camera and microphone
acquired and never joined is torn down: the cleanup performs no effect at all, no
`track.stop()` among them, and both tracks of the local stream are still live. -/
theorem unmount_leaves_tracks_live :
    previewState.localStream.map (fun ls => ls.getTracks.map (fun t => t.readyState)) =
      some [ReadyState.live, ReadyState.live] ∧
    previewState.webrtcManagerRef = none ∧
    (unmount previewState).effects = [] ∧
    (unmount previewState).state.localStream.map
        (fun ls => ls.getTracks.map (fun t => t.readyState)) =
      some [ReadyState.live, ReadyState.live] := by
  decide

theorem initializeWebRTC_withMeeting (s : PageState) (m : Option Meeting)
    (r : Except JsThrown Unit) :
    initializeWebRTC { s with meeting := m } r =
      { state := { (initializeWebRTC s r).state with meeting := m }
        effects := (initializeWebRTC s r).effects
        raised := (initializeWebRTC s r).raised } := by
  obtain ⟨mid, mt, ld, vo, ao, ps, hj, cu, ls, lv, wm, rv⟩ := s
  cases cu with
  | none => rfl
  | some u =>
    cases mid with
    | none => rfl
    | some mid =>
      cases ls with
      | none => rfl
      | some ls =>
        by_cases h : mid = ""
        · simp [initializeWebRTC, h]
        · cases r <;> simp [initializeWebRTC, h]

theorem getLocalStream_withMeeting (s : PageState) (m : Option Meeting) (env : MediaEnv) :
    getLocalStream { s with meeting := m } env =
      { state := { (getLocalStream s env).state with meeting := m }
        effects := (getLocalStream s env).effects
        raised := (getLocalStream s env).raised } := by
  cases h : acquireStreams (hasVideoInput env.devices) (hasAudioInput env.devices) env with
  | mk r eff =>
    cases r with
    | error e => simp only [getLocalStream, h]
    | ok p => simp only [getLocalStream, h]

/-- C15. The confidentiality flag is inert for the session: for two pages that differ only
in `is_confidential` of the loaded meeting, `initializeWebRTC` performs the same calls
(same manager constructor arguments, same stream handed to `initialize`, same toast) and
stores the same manager, and `getLocalStream` makes the same requests and yields the same
local stream and flags; after either function the two states still differ only in the
stored record.  What the flag changes is the header badge. -/
theorem confidential_flag_inert (s : PageState) (m : Meeting) (b1 b2 : Bool)
    (r : Except JsThrown Unit) (env : MediaEnv) :
    (initializeWebRTC (withConfidential s m b1) r).effects =
      (initializeWebRTC (withConfidential s m b2) r).effects ∧
    (initializeWebRTC (withConfidential s m b1) r).state.webrtcManagerRef =
      (initializeWebRTC (withConfidential s m b2) r).state.webrtcManagerRef ∧
    (initializeWebRTC (withConfidential s m b1) r).state =
      withConfidential (initializeWebRTC (withConfidential s m b2) r).state m b1 ∧
    (getLocalStream (withConfidential s m b1) env).effects =
      (getLocalStream (withConfidential s m b2) env).effects ∧
    (getLocalStream (withConfidential s m b1) env).state.localStream =
      (getLocalStream (withConfidential s m b2) env).state.localStream ∧
    (getLocalStream (withConfidential s m b1) env).state =
      withConfidential (getLocalStream (withConfidential s m b2) env).state m b1 ∧
    confidentialBadge (withConfidential s m b1) =
      (if b1 then some "🔒 Confidential Meeting" else none) := by
  have hi := fun b => initializeWebRTC_withMeeting s (some { m with is_confidential := b }) r
  have hg := fun b => getLocalStream_withMeeting s (some { m with is_confidential := b }) env
  simp only [withConfidential]
  refine ⟨?_, ?_, ?_, ?_, ?_, ?_, ?_⟩
  · rw [hi b1, hi b2]
  · rw [hi b1, hi b2]
  · rw [hi b1, hi b2]
  · rw [hg b1, hg b2]
  · rw [hg b1, hg b2]
  · rw [hg b1, hg b2]
  · simp [confidentialBadge]

theorem applyRegistryEvents_append (s : PageState) (es : List RegistryEvent)
    (e : RegistryEvent) :
    applyRegistryEvents s (es ++ [e]) = applyRegistryEvent (applyRegistryEvents s es) e := by
  simp [applyRegistryEvents, List.foldl_append]

theorem keys_participantsStreamAdded (m : JsMap Participant) (userId : String)
    (stream : MediaStream) : (participantsStreamAdded m userId stream).keys = m.keys := by
  unfold participantsStreamAdded
  cases hg : JsMap.get m userId with
  | none => rfl
  | some participant =>
    show (JsMap.set m userId _).keys = m.keys
    rw [JsMap.keys_set]
    have hk : userId ∈ JsMap.keys m := by
      by_contra hk
      rw [(JsMap.get_eq_none_iff m userId).2 hk] at hg
      cases hg
    rw [if_pos hk]

theorem lastIsJoin_nil (id : String) : lastIsJoin [] id = false := rfl

theorem lastIsJoin_append_joined (es : List RegistryEvent) (p : Participant) (id : String) :
    lastIsJoin (es ++ [RegistryEvent.joined p]) id =
      if p.userId = id then true else lastIsJoin es id := by
  unfold lastIsJoin
  rw [List.reverse_append, List.reverse_singleton, List.singleton_append, List.find?_cons]
  by_cases h : p.userId = id
  · simp [RegistryEvent.joinLeftId, h]
  · have hb : (p.userId == id) = false := beq_eq_false_iff_ne.2 h
    simp [RegistryEvent.joinLeftId, h, hb]

theorem lastIsJoin_append_left (es : List RegistryEvent) (u : String) (id : String) :
    lastIsJoin (es ++ [RegistryEvent.left u]) id =
      if u = id then false else lastIsJoin es id := by
  unfold lastIsJoin
  rw [List.reverse_append, List.reverse_singleton, List.singleton_append, List.find?_cons]
  by_cases h : u = id
  · simp [RegistryEvent.joinLeftId, h]
  · have hb : (u == id) = false := beq_eq_false_iff_ne.2 h
    simp [RegistryEvent.joinLeftId, h, hb]

theorem lastIsJoin_append_streamAdded (es : List RegistryEvent) (u : String)
    (st : MediaStream) (id : String) :
    lastIsJoin (es ++ [RegistryEvent.streamAdded u st]) id = lastIsJoin es id := by
  unfold lastIsJoin
  rw [List.reverse_append, List.reverse_singleton, List.singleton_append, List.find?_cons]
  simp [RegistryEvent.joinLeftId]

theorem mem_keys_iff_lastIsJoin (s : PageState) (h : s.participants = [])
    (es : List RegistryEvent) (id : String) :
    id ∈ (applyRegistryEvents s es).participants.keys ↔ lastIsJoin es id = true := by
  induction es using List.reverseRecOn with
  | nil =>
    show id ∈ JsMap.keys s.participants ↔ _
    rw [h, lastIsJoin_nil]
    simp [JsMap.keys]
  | append_singleton es e ih =>
    rw [applyRegistryEvents_append]
    cases e with
    | joined p =>
      show id ∈ (JsMap.set _ p.userId p).keys ↔ _
      rw [JsMap.keys_set, lastIsJoin_append_joined]
      by_cases hp : p.userId = id
      · subst hp
        simp only [if_true]
        split <;> simp_all
      · rw [if_neg hp, ← ih]
        split
        · rfl
        · rw [List.mem_append, List.mem_singleton]
          constructor
          · rintro (h1 | h1)
            · exact h1
            · exact absurd h1.symm hp
          · intro h1; exact Or.inl h1
    | left u =>
      show id ∈ (JsMap.delete _ u).keys ↔ _
      rw [JsMap.keys_delete, lastIsJoin_append_left, List.mem_filter]
      by_cases hu : u = id
      · subst hu
        simp
      · rw [if_neg hu, ← ih]
        constructor
        · intro h1; exact h1.1
        · intro h1; exact ⟨h1, by simpa using fun h2 : id = u => hu h2.symm⟩
    | streamAdded u st =>
      show id ∈ (participantsStreamAdded _ u st).keys ↔ _
      rw [keys_participantsStreamAdded, lastIsJoin_append_streamAdded]
      exact ih

theorem mem_joinLeftIds_of_lastIsJoin (es : List RegistryEvent) (id : String)
    (h : lastIsJoin es id = true) : id ∈ es.filterMap RegistryEvent.joinLeftId := by
  unfold lastIsJoin at h
  cases hf : es.reverse.find? (fun e => e.joinLeftId == some id) with
  | none => rw [hf] at h; cases h
  | some e =>
    have hmem : e ∈ es := List.mem_reverse.1 (List.mem_of_find?_eq_some hf)
    have hid : e.joinLeftId = some id := by
      simpa using List.find?_some hf
    exact List.mem_filterMap.2 ⟨e, hmem, hid⟩

theorem keys_joins (ps : List Participant) (s : PageState)
    (h : (s.participants.keys ++ ps.map (fun p => p.userId)).Nodup) :
    (applyRegistryEvents s (ps.map RegistryEvent.joined)).participants.keys =
      s.participants.keys ++ ps.map (fun p => p.userId) := by
  induction ps generalizing s with
  | nil => simp [applyRegistryEvents]
  | cons p ps ih =>
    have hp : p.userId ∉ JsMap.keys s.participants := by
      intro hmem
      have := (List.nodup_append.1 h).2.2
      exact this hmem (List.mem_cons_self _ _)
    have hkeys : (applyRegistryEvent s (RegistryEvent.joined p)).participants.keys =
        s.participants.keys ++ [p.userId] := by
      show (JsMap.set _ p.userId p).keys = _
      rw [JsMap.keys_set, if_neg hp]
    have := ih (applyRegistryEvent s (RegistryEvent.joined p))
      (by rw [hkeys]; simpa [List.append_assoc] using h)
    rw [List.map_cons, List.map_cons]
    show (applyRegistryEvents (applyRegistryEvent s (RegistryEvent.joined p))
      (ps.map RegistryEvent.joined)).participants.keys = _
    rw [this, hkeys]
    simp

/-- C18. Participant count: starting from an empty registry, after every sequence of
`onParticipantJoined` / `onParticipantLeft` / `onStreamAdded` callbacks `totalParticipants`
is 1 (the current user) plus the number of distinct remote user ids whose most recent
join/left callback is a join; it is 1 before any callback, and it is `N` when `N - 1`
participants with distinct ids have joined and none has left. -/
theorem total_participants_count (s : PageState) (h : s.participants = [])
    (es : List RegistryEvent) :
    totalParticipants (applyRegistryEvents s es) = 1 + (presentIds es).length ∧
    totalParticipants (applyRegistryEvents s []) = 1 ∧
    (∀ ps : List Participant, (ps.map (fun p => p.userId)).Nodup →
      totalParticipants (applyRegistryEvents s (ps.map RegistryEvent.joined)) =
        ps.length + 1) := by
  refine ⟨?_, ?_, ?_⟩
  · have hwf : RegistryWF (applyRegistryEvents s es).participants :=
      registryWF_applyRegistryEvents es s (by rw [h]; exact registryWF_nil)
    have hperm : List.Perm (applyRegistryEvents s es).participants.keys (presentIds es) := by
      apply (List.perm_ext_iff_of_nodup hwf.1 ((List.nodup_dedup _).filter _)).2
      intro id
      rw [mem_keys_iff_lastIsJoin s h es id]
      rw [List.mem_filter, List.mem_dedup]
      constructor
      · intro h1; exact ⟨mem_joinLeftIds_of_lastIsJoin es id h1, h1⟩
      · intro h1; exact h1.2
    have hlen : (participantArray (applyRegistryEvents s es)).length =
        (applyRegistryEvents s es).participants.keys.length := by
      simp [participantArray, JsMap.values, JsMap.keys]
    rw [totalParticipants, hlen, hperm.length_eq, Nat.add_comm]
  · show (JsMap.values s.participants).length + 1 = 1
    rw [h]
    rfl
  · intro ps hps
    have hk := keys_joins ps s (by rw [h]; simpa [JsMap.keys] using hps)
    have hlen : (participantArray (applyRegistryEvents s (ps.map RegistryEvent.joined))).length =
        (applyRegistryEvents s (ps.map RegistryEvent.joined)).participants.keys.length := by
      simp [participantArray, JsMap.values, JsMap.keys]
    rw [totalParticipants, hlen, hk, h]
    simp [JsMap.keys]

/-- C18, for the run: `b` joins, `c` joins, `b` leaves, `c` gets a stream, `d` (never
joined) leaves, `b` joins again. -/
theorem total_participants_count_witness :
    (initialState (some "R1")).participants = [] ∧
    totalParticipants (applyRegistryEvents (initialState (some "R1"))
      [RegistryEvent.joined (remote "b" "Bea"), RegistryEvent.joined (remote "c" "Cy"),
       RegistryEvent.left "b", RegistryEvent.streamAdded "c" { id := "sc", tracks := [] },
       RegistryEvent.left "d", RegistryEvent.joined (remote "b" "Bea")]) =
      1 + (presentIds
        [RegistryEvent.joined (remote "b" "Bea"), RegistryEvent.joined (remote "c" "Cy"),
         RegistryEvent.left "b", RegistryEvent.streamAdded "c" { id := "sc", tracks := [] },
         RegistryEvent.left "d", RegistryEvent.joined (remote "b" "Bea")]).length :=
  ⟨rfl, (total_participants_count (initialState (some "R1")) rfl _).1⟩

end MeetingPage

/-! ### Negotiation roles and ICE candidates (C19, C20) -/

namespace SessionCore

theorem lexLt_asymm (a b : List Char) (h : lexLt a b = true) : lexLt b a = false := by
  induction a generalizing b with
  | nil =>
    cases b with
    | nil => rfl
    | cons y ys => rfl
  | cons x xs ih =>
    cases b with
    | nil => simp [lexLt] at h
    | cons y ys =>
      simp only [lexLt] at h ⊢
      by_cases h1 : x.toNat < y.toNat
      · have h2 : ¬ y.toNat < x.toNat := by omega
        simp [h1, h2]
      · by_cases h2 : y.toNat < x.toNat
        · simp [h1, h2] at h
        · simp only [h1, h2, if_false] at h ⊢
          exact ih ys h

theorem lexLt_total (a b : List Char) (hne : a ≠ b) : lexLt a b = true ∨ lexLt b a = true := by
  induction a generalizing b with
  | nil =>
    cases b with
    | nil => exact absurd rfl hne
    | cons y ys => exact Or.inl rfl
  | cons x xs ih =>
    cases b with
    | nil => exact Or.inr rfl
    | cons y ys =>
      simp only [lexLt]
      by_cases h1 : x.toNat < y.toNat
      · simp [h1]
      · by_cases h2 : y.toNat < x.toNat
        · simp [h2]
        · have hxy : x = y := by
            apply Char.ext
            exact UInt32.ext (by show x.toNat = y.toNat; omega)
          subst hxy
          simp only [h1, if_false]
          exact ih ys (fun h => hne (by rw [h]))

theorem idLt_asymm (x y : String) (h : idLt x y = true) : idLt y x = false :=
  lexLt_asymm _ _ h

theorem idLt_total (x y : String) (hne : x ≠ y) : idLt x y = true ∨ idLt y x = true :=
  lexLt_total _ _ (fun h => hne (String.ext h))

theorem negotiationRole_eq_initiator_iff (x y : String) :
    negotiationRole x y = NegotiationRole.initiator ↔ idLt x y = true := by
  unfold negotiationRole
  cases idLt x y <;> simp

theorem negotiationRole_eq_responder_iff (x y : String) :
    negotiationRole x y = NegotiationRole.responder ↔ idLt x y = false := by
  unfold negotiationRole
  cases idLt x y <;> simp

/-- C19. Glare resolution is a pure, deterministic function of the two ids: for distinct
participant ids `x` and `y`, exactly one of them is lexicographically smaller; `x` is the
initiator exactly when `x` is the smaller and the responder exactly when `y` is; the two
sides compute complementary roles; and whichever join the relay processes first, `x` ends
with one PeerLink, to `y`, and `y` with one, to `x`, carrying those same roles. -/
theorem glare_resolution_deterministic (x y : String) (hxy : x ≠ y) :
    (idLt x y = true ∨ idLt y x = true) ∧ ¬ (idLt x y = true ∧ idLt y x = true) ∧
    (negotiationRole x y = NegotiationRole.initiator ↔ idLt x y = true) ∧
    (negotiationRole x y = NegotiationRole.responder ↔ idLt y x = true) ∧
    (negotiationRole x y = NegotiationRole.initiator ↔
      negotiationRole y x = NegotiationRole.responder) ∧
    negotiationRole x y ≠ negotiationRole y x ∧
    simultaneousJoin x y true = simultaneousJoin x y false ∧
    (∀ xFirst, simultaneousJoin x y xFirst =
      ([PeerLink.create x y], [PeerLink.create y x])) ∧
    (PeerLink.create x y).role = negotiationRole x y ∧
    (PeerLink.create y x).role = negotiationRole y x := by
  have hnot : idLt x y = false ↔ idLt y x = true := by
    constructor
    · intro h
      rcases idLt_total x y hxy with h1 | h1
      · rw [h] at h1; cases h1
      · exact h1
    · intro h
      exact idLt_asymm y x h
  have hall : ∀ xFirst, simultaneousJoin x y xFirst =
      ([PeerLink.create x y], [PeerLink.create y x]) := by
    intro xFirst
    cases xFirst <;> simp [simultaneousJoin, onReconcile, onJoinBroadcast]
  refine ⟨idLt_total x y hxy, ?_, negotiationRole_eq_initiator_iff x y, ?_, ?_, ?_, ?_, hall,
    rfl, rfl⟩
  · rintro ⟨h1, h2⟩
    rw [idLt_asymm x y h1] at h2
    cases h2
  · rw [negotiationRole_eq_responder_iff, hnot]
  · rw [negotiationRole_eq_initiator_iff, negotiationRole_eq_responder_iff]
    constructor
    · intro h; exact idLt_asymm x y h
    · intro h
      rcases idLt_total x y hxy with h1 | h1
      · exact h1
      · rw [h] at h1; cases h1
  · intro h
    cases hlt : idLt x y with
    | true =>
      have h1 := (negotiationRole_eq_initiator_iff x y).2 hlt
      have h2 := (negotiationRole_eq_responder_iff y x).2 (idLt_asymm x y hlt)
      rw [h1] at h
      rw [← h] at h2
      cases h2
    | false =>
      have h1 := (negotiationRole_eq_responder_iff x y).2 hlt
      have h2 := (negotiationRole_eq_initiator_iff y x).2 (hnot.1 hlt)
      rw [h1] at h
      rw [← h] at h2
      cases h2
  · rw [hall true, hall false]

/-- C19, for the ids `"a"` and `"b"` of the spec: `"a"` is the initiator in both arrival
orders. -/
theorem glare_resolution_deterministic_witness :
    "a" ≠ "b" ∧
    (simultaneousJoin "a" "b" true).1.map (fun l => (l.remoteId, l.role)) =
      [("b", NegotiationRole.initiator)] ∧
    (simultaneousJoin "a" "b" false).1.map (fun l => (l.remoteId, l.role)) =
      [("b", NegotiationRole.initiator)] ∧
    simultaneousJoin "a" "b" true = simultaneousJoin "a" "b" false :=
  ⟨by decide, by decide, by decide,
   (glare_resolution_deterministic "a" "b" (by decide)).2.2.2.2.2.2.1⟩

theorem run_append (l : PeerLink) (evs : List IceEvent) (e : IceEvent) :
    l.run (evs ++ [e]) = (l.run evs).step e := by
  simp [PeerLink.run, List.foldl_append]

theorem arrivals_append_candidate (evs : List IceEvent) (c : String) :
    arrivals (evs ++ [IceEvent.candidate c]) = arrivals evs ++ [c] := by
  simp [arrivals, List.filterMap_append]

theorem arrivals_append_remoteDescription (evs : List IceEvent) :
    arrivals (evs ++ [IceEvent.remoteDescription]) = arrivals evs := by
  simp [arrivals, List.filterMap_append]

/-- The state of a new PeerLink after a sequence of ICE events, in full. -/
theorem run_create (localId remoteId : String) (evs : List IceEvent) :
    ((PeerLink.create localId remoteId).run evs).remoteDescriptionSet =
      decide (IceEvent.remoteDescription ∈ evs) ∧
    ((PeerLink.create localId remoteId).run evs).appliedCandidates =
      (if IceEvent.remoteDescription ∈ evs then arrivals evs else []) ∧
    ((PeerLink.create localId remoteId).run evs).pendingCandidates =
      (if IceEvent.remoteDescription ∈ evs then [] else arrivals evs) := by
  induction evs using List.reverseRecOn with
  | nil => exact ⟨rfl, rfl, rfl⟩
  | append_singleton evs e ih =>
    obtain ⟨h1, h2, h3⟩ := ih
    rw [run_append]
    cases e with
    | candidate c =>
      have hmem : IceEvent.remoteDescription ∈ evs ++ [IceEvent.candidate c] ↔
          IceEvent.remoteDescription ∈ evs := by simp
      simp only [PeerLink.step, PeerLink.receiveCandidate, hmem, arrivals_append_candidate]
      by_cases hin : IceEvent.remoteDescription ∈ evs
      · simp only [hin, decide_True, if_true] at h1 h2 h3 ⊢
        simp [h1, h2, h3]
      · simp only [hin, decide_False, if_false] at h1 h2 h3 ⊢
        simp [h1, h2, h3]
    | remoteDescription =>
      have hmem : IceEvent.remoteDescription ∈ evs ++ [IceEvent.remoteDescription] := by simp
      simp only [PeerLink.step, PeerLink.applyRemoteDescription, hmem,
        arrivals_append_remoteDescription, decide_True, if_true]
      by_cases hin : IceEvent.remoteDescription ∈ evs
      · simp only [hin, if_true] at h2 h3
        simp [h2, h3]
      · simp only [hin, if_false] at h2 h3
        simp [h2, h3]

/-- C20. ICE candidate queueing: on a new PeerLink, after every sequence of candidates and
remote-description applications, the candidates applied so far followed by the queued ones
are exactly the candidates received, in arrival order (none dropped, none reordered); as
long as no remote description has been applied all of them are queued and none is applied;
applying the remote description moves the whole queue, in order, behind the candidates
already applied and empties it; and once it has been applied the candidates applied are
all the candidates received, in arrival order. -/
theorem ice_candidates_queue_then_flush (localId remoteId : String) (evs : List IceEvent) :
    ((PeerLink.create localId remoteId).run evs).appliedCandidates ++
        ((PeerLink.create localId remoteId).run evs).pendingCandidates = arrivals evs ∧
    (IceEvent.remoteDescription ∉ evs →
      ((PeerLink.create localId remoteId).run evs).appliedCandidates = [] ∧
      ((PeerLink.create localId remoteId).run evs).pendingCandidates = arrivals evs) ∧
    (∀ l : PeerLink,
      l.applyRemoteDescription.appliedCandidates = l.appliedCandidates ++ l.pendingCandidates ∧
      l.applyRemoteDescription.pendingCandidates = [] ∧
      l.applyRemoteDescription.remoteDescriptionSet = true) ∧
    (IceEvent.remoteDescription ∈ evs →
      ((PeerLink.create localId remoteId).run evs).appliedCandidates = arrivals evs ∧
      ((PeerLink.create localId remoteId).run evs).pendingCandidates = []) := by
  obtain ⟨_, h2, h3⟩ := run_create localId remoteId evs
  refine ⟨?_, ?_, ?_, ?_⟩
  · rw [h2, h3]
    by_cases hin : IceEvent.remoteDescription ∈ evs
    · simp [hin]
    · simp [hin]
  · intro hin
    rw [h2, h3]
    simp [hin]
  · intro l
    exact ⟨rfl, rfl, rfl⟩
  · intro hin
    rw [h2, h3]
    simp [hin]

end SessionCore

/-! ### The HTTP error handler (C17) -/

namespace Backend

/-- With a usable status code the handler sends the JSON body: `publicMessage` when truthy
and "Internal Server Error" otherwise, with the status `err.status || 500`; `message` and
`stack` are not part of it. -/
theorem errorHandler_of_validStatusCode (err : HttpError)
    (h : validStatusCode (statusOr500 err.status) = true) :
    (errorHandler err).result =
      HandlerResult.sent
        { status := statusOr500 err.status
          message := publicMessageOrDefault err.publicMessage } := by
  simp [errorHandler, h]

/-- The handler's result depends on `status` and `publicMessage` only. -/
theorem errorHandler_result_congr (e1 e2 : HttpError) (hs : e1.status = e2.status)
    (hp : e1.publicMessage = e2.publicMessage) :
    (errorHandler e1).result = (errorHandler e2).result := by
  simp [errorHandler, hs, hp]

/-- C17 (the code at the failing input). An internal error with `status = 42` reaches the
handler: 42 is truthy, so it is handed to `res.status` as it is; it is no usable status
code, the call throws a `RangeError` inside the handler and the JSON body
`{ message: 'Internal Server Error' }` is never sent; the framework's built-in handler
answers with status 500 and its own error page. -/
theorem error_handler_throws_on_invalid_status :
    leakyError.status = some 42 ∧
    statusOr500 leakyError.status = 42 ∧
    validStatusCode 42 = false ∧
    (errorHandler leakyError).result = HandlerResult.threw "RangeError" ∧
    (errorHandler leakyError).result ≠
      HandlerResult.sent { status := 42, message := "Internal Server Error" } ∧
    (errorHandler leakyError).result ≠
      HandlerResult.sent { status := 500, message := "Internal Server Error" } ∧
    nextError leakyError = { status := 500, body := Body.errorPage } := by
  decide

end Backend

/-! ### The meeting page: failure descriptions (C21, C24) -/

namespace MeetingPage

theorem toastDescriptions_of_calls (calls : List MediaConstraints) (label title d : String)
    (b : Bool) :
    toastDescriptions (calls.map Effect.getUserMedia ++
      [Effect.consoleError label, Effect.toast title d b]) = [d] := by
  induction calls with
  | nil => rfl
  | cons c cs ih =>
    simp only [toastDescriptions, List.map_cons, List.cons_append, List.filterMap_cons] at ih ⊢
    exact ih

theorem toastDescriptions_of_mediaFails (s : PageState) (env : MediaEnv)
    (h : mediaFails env = true) :
    toastDescriptions (getLocalStream s env).effects =
      [mediaErrorDescription (thrownValue env) (hasVideoInput env.devices)
        (hasAudioInput env.devices)] := by
  rw [getLocalStream_of_mediaFails s env h]
  exact toastDescriptions_of_calls _ _ _ _ _

theorem getLocalStream_effects_of_success (s : PageState) (env : MediaEnv)
    (h : mediaFails env = false) :
    (getLocalStream s env).effects = (attemptedCalls env).map Effect.getUserMedia := by
  obtain ⟨devices, ov, oa, nid⟩ := env
  simp only [mediaFails] at h
  cases hv : hasVideoInput devices <;> cases ha : hasAudioInput devices <;>
    cases ov <;> cases oa <;>
    simp_all [getLocalStream, acquireStreams, openVideoStep, openAudioStep, attemptedCalls,
      isThrow]

theorem thrownValue_of_no_device (env : MediaEnv) (hv : hasVideoInput env.devices = false)
    (ha : hasAudioInput env.devices = false) :
    thrownValue env = JsThrown.error "Error" "No media devices found." := by
  simp [thrownValue, hv, ha]

theorem mediaErrorDescription_eq_noDevice (e : JsThrown) (hv ha : Bool)
    (h : mediaErrorDescription e hv ha = noDeviceDescription) :
    (∃ msg, e = JsThrown.error "NotFoundError" msg) ∧ hv = false ∧ ha = false := by
  cases e with
  | other =>
    have h2 : unknownErrorDescription = noDeviceDescription := h
    exact absurd h2 (by decide)
  | error name msg =>
    unfold mediaErrorDescription at h
    simp only at h
    split at h
    · rename_i hname
      cases hv <;> cases ha
      · exact ⟨⟨msg, by rw [hname]⟩, rfl, rfl⟩
      · exact absurd h (by decide)
      · exact absurd h (by decide)
      · exact absurd h (by decide)
    · split at h
      · exact absurd h (by decide)
      · split at h
        · exact absurd h (by decide)
        · split at h
          · exact absurd h (by decide)
          · split at h
            · exact absurd h (by decide)
            · exact absurd h (by decide)

/-- C21 (as stated, refuted). Camera and microphone are both listed and opening the camera
throws `NotFoundError`: the toast shows the generic unknown-error text, which names no
missing kind. -/
theorem notFound_both_listed_counterexample :
    mediaFails envCameraGone = true ∧
    thrownValue envCameraGone = JsThrown.error "NotFoundError" "Requested device not found" ∧
    toastDescriptions (getLocalStream lobbyState envCameraGone).effects =
      ["An unknown error occurred while accessing your media devices."] := by
  decide

/-- C21 (amended). In every failing run of `getLocalStream` the one toast description is
`mediaErrorDescription` of the thrown value, `hasVideo` and `hasAudio`, and it does not
depend on the error's message.  `NotAllowedError` and `SecurityError` give the
permission-denied text, `NotReadableError` the device-in-use text.  A `NotFoundError` gives
the no-camera text when no camera was listed, the no-microphone text when a camera but no
microphone was listed, and the generic unknown-error text when both were listed. -/
theorem media_failure_classification (s : PageState) (env : MediaEnv)
    (h : mediaFails env = true) :
    toastDescriptions (getLocalStream s env).effects =
      [mediaErrorDescription (thrownValue env) (hasVideoInput env.devices)
        (hasAudioInput env.devices)] ∧
    (∀ name m1 m2 hv ha, mediaErrorDescription (JsThrown.error name m1) hv ha =
      mediaErrorDescription (JsThrown.error name m2) hv ha) ∧
    (∀ name msg, thrownValue env = JsThrown.error name msg →
      name = "NotAllowedError" ∨ name = "SecurityError" →
      toastDescriptions (getLocalStream s env).effects =
        ["Permission to access your camera or microphone was denied. Please grant permissions in your browser settings."]) ∧
    (∀ msg, thrownValue env = JsThrown.error "NotReadableError" msg →
      toastDescriptions (getLocalStream s env).effects =
        ["Your camera or microphone might be in use by another application, or there's a hardware issue. Please close other apps or restart your device."]) ∧
    (∀ msg, thrownValue env = JsThrown.error "NotFoundError" msg →
      (hasVideoInput env.devices = false →
        toastDescriptions (getLocalStream s env).effects =
          ["No camera found. You can join with audio only."]) ∧
      (hasVideoInput env.devices = true → hasAudioInput env.devices = false →
        toastDescriptions (getLocalStream s env).effects =
          ["No microphone found. You can join with video only."]) ∧
      (hasVideoInput env.devices = true → hasAudioInput env.devices = true →
        toastDescriptions (getLocalStream s env).effects =
          ["An unknown error occurred while accessing your media devices."])) := by
  have hd := toastDescriptions_of_mediaFails s env h
  refine ⟨hd, ?_, ?_, ?_, ?_⟩
  · intro name m1 m2 hv ha
    rfl
  · intro name msg hthrown hname
    rw [hd, hthrown]
    rcases hname with hname | hname <;> subst hname <;> rfl
  · intro msg hthrown
    rw [hd, hthrown]
    rfl
  · intro msg hthrown
    rw [hd, hthrown]
    refine ⟨?_, ?_, ?_⟩
    · intro hv
      cases ha : hasAudioInput env.devices with
      | false =>
        rw [thrownValue_of_no_device env hv ha] at hthrown
        injection hthrown with h1 _
        exact absurd h1 (by decide)
      | true => rw [hv]; rfl
    · intro hv ha
      rw [hv, ha]; rfl
    · intro hv ha
      rw [hv, ha]; rfl

/-- C21 (amended), for the run in which the camera is refused. -/
theorem media_failure_classification_witness :
    mediaFails envVideoThrows = true ∧
    toastDescriptions (getLocalStream lobbyState envVideoThrows).effects =
      ["Permission to access your camera or microphone was denied. Please grant permissions in your browser settings."] :=
  ⟨rfl, (media_failure_classification lobbyState envVideoThrows rfl).2.2.1
    "NotAllowedError" "Permission denied" rfl (Or.inl rfl)⟩

/-- C24. No-device case: in every run of `getLocalStream` in which enumeration finds neither
a video nor an audio input, no `getUserMedia` request is made and the toast shows the
generic unknown-error text; and no run at all, whatever the devices and the browser's
answers, shows "No camera or microphone found. Please connect a device to join.". -/
theorem no_device_generic_description (s : PageState) (env : MediaEnv)
    (hv : hasVideoInput env.devices = false) (ha : hasAudioInput env.devices = false) :
    (getLocalStream s env).effects =
      [Effect.consoleError "Error getting user media:",
       Effect.toast "Media Access Error" unknownErrorDescription true] ∧
    (getLocalStream s env).effects.filter Effect.isGetUserMedia = [] ∧
    toastDescriptions (getLocalStream s env).effects = [unknownErrorDescription] ∧
    (∀ (s2 : PageState) (env2 : MediaEnv),
      noDeviceDescription ∉ toastDescriptions (getLocalStream s2 env2).effects) := by
  have hfail : mediaFails env = true := by simp [mediaFails, hv, ha]
  have heff : (getLocalStream s env).effects =
      [Effect.consoleError "Error getting user media:",
       Effect.toast "Media Access Error" unknownErrorDescription true] := by
    rw [getLocalStream_of_mediaFails s env hfail, thrownValue_of_no_device env hv ha]
    simp only [attemptedCalls, hv, ha]
    rfl
  refine ⟨heff, ?_, ?_, ?_⟩
  · rw [heff]; rfl
  · rw [heff]; rfl
  · intro s2 env2 hmem
    cases hf : mediaFails env2 with
    | true =>
      rw [toastDescriptions_of_mediaFails s2 env2 hf, List.mem_singleton] at hmem
      obtain ⟨⟨msg, hname⟩, hv2, ha2⟩ := mediaErrorDescription_eq_noDevice _ _ _ hmem.symm
      rw [thrownValue_of_no_device env2 hv2 ha2] at hname
      injection hname with h1 _
      exact absurd h1 (by decide)
    | false =>
      rw [getLocalStream_effects_of_success s2 env2 hf] at hmem
      simp [toastDescriptions] at hmem

/-- C24, for a machine with a loudspeaker only. -/
theorem no_device_generic_description_witness :
    hasVideoInput envNoDevices.devices = false ∧ hasAudioInput envNoDevices.devices = false ∧
    toastDescriptions (getLocalStream lobbyState envNoDevices).effects =
      ["An unknown error occurred while accessing your media devices."] :=
  ⟨rfl, rfl, (no_device_generic_description lobbyState envNoDevices rfl rfl).2.2.1⟩

end MeetingPage

/-! ### The meeting page: raising toggles, consistency, join bookkeeping (C22, C23, C25) -/

namespace MeetingPage

theorem getLocalStream_frame (s : PageState) (env : MediaEnv) :
    (s.localStream.isSome = true → (getLocalStream s env).state.localStream.isSome = true) ∧
    (getLocalStream s env).state.webrtcManagerRef = s.webrtcManagerRef ∧
    (getLocalStream s env).state.hasJoined = s.hasJoined := by
  rcases getLocalStream_state s env with h | ⟨ms, h⟩
  · rw [h]
    exact ⟨fun h1 => h1, rfl, rfl⟩
  · rw [h]
    exact ⟨fun _ => rfl, rfl, rfl⟩

theorem toggleVideo_frame (s : PageState) :
    (toggleVideo s).state.localStream.isSome = s.localStream.isSome ∧
    (toggleVideo s).state.webrtcManagerRef = s.webrtcManagerRef ∧
    (toggleVideo s).state.hasJoined = s.hasJoined := by
  cases hls : s.localStream with
  | none =>
    rw [toggleVideo_of_no_stream s hls]
    exact ⟨by simp [hls], rfl, rfl⟩
  | some ls =>
    cases hh : ls.getVideoTracks.head? with
    | none =>
      rw [toggleVideo_of_no_track s ls hls hh]
      exact ⟨by simp [hls], rfl, rfl⟩
    | some t =>
      rw [toggleVideo_of_track s ls t hls hh]
      exact ⟨rfl, rfl, rfl⟩

theorem toggleAudio_frame (s : PageState) :
    (toggleAudio s).state.localStream.isSome = s.localStream.isSome ∧
    (toggleAudio s).state.webrtcManagerRef = s.webrtcManagerRef ∧
    (toggleAudio s).state.hasJoined = s.hasJoined := by
  cases hls : s.localStream with
  | none =>
    rw [toggleAudio_of_no_stream s hls]
    exact ⟨by simp [hls], rfl, rfl⟩
  | some ls =>
    cases hh : ls.getAudioTracks.head? with
    | none =>
      rw [toggleAudio_of_no_track s ls hls hh]
      exact ⟨by simp [hls], rfl, rfl⟩
    | some t =>
      rw [toggleAudio_of_track s ls t hls hh]
      exact ⟨rfl, rfl, rfl⟩

theorem initializeWebRTC_join_frame (s : PageState) (r : Except JsThrown Unit) :
    (initializeWebRTC s r).state.localStream = s.localStream ∧
    (initializeWebRTC s r).state.hasJoined = s.hasJoined ∧
    ((initializeWebRTC s r).state.webrtcManagerRef = s.webrtcManagerRef ∨
      s.localStream.isSome = true) ∧
    (s.currentUser = none ∨ s.meetingId = none ∨ isThrow r = true →
      (initializeWebRTC s r).state.webrtcManagerRef = s.webrtcManagerRef) := by
  obtain ⟨mid, mt, ld, vo, ao, ps, hj, cu, ls, lv, wm, rv⟩ := s
  cases cu with
  | none => exact ⟨rfl, rfl, Or.inl rfl, fun _ => rfl⟩
  | some u =>
    cases mid with
    | none => exact ⟨rfl, rfl, Or.inl rfl, fun _ => rfl⟩
    | some mid =>
      cases ls with
      | none => exact ⟨rfl, rfl, Or.inl rfl, fun _ => rfl⟩
      | some ls =>
        by_cases h : mid = ""
        · simp [initializeWebRTC, h]
        · cases r <;> simp [initializeWebRTC, h, isThrow]

theorem joinInvariant_of_frame (s s2 : PageState) (h : JoinInvariant s)
    (h1 : s.localStream.isSome = true → s2.localStream.isSome = true)
    (h2 : s2.webrtcManagerRef = s.webrtcManagerRef ∨ s2.localStream.isSome = true)
    (h3 : s2.hasJoined = s.hasJoined ∨ s2.localStream.isSome = true) : JoinInvariant s2 := by
  constructor
  · intro hm
    rcases h2 with h2 | h2
    · rw [h2] at hm
      exact h1 (h.1 hm)
    · exact h2
  · intro hj
    rcases h3 with h3 | h3
    · rw [h3] at hj
      exact h1 (h.2 hj)
    · exact h3

theorem joinInvariant_runAction (s : PageState) (a : PageAction) (h : JoinInvariant s) :
    JoinInvariant (runAction s a).state := by
  cases a with
  | loadMeeting result =>
    cases result <;> exact joinInvariant_of_frame s _ h (fun h1 => h1) (Or.inl rfl) (Or.inl rfl)
  | loadCurrentUser user profile =>
    cases user <;> exact joinInvariant_of_frame s _ h (fun h1 => h1) (Or.inl rfl) (Or.inl rfl)
  | getLocalStream env =>
    obtain ⟨h1, h2, h3⟩ := getLocalStream_frame s env
    exact joinInvariant_of_frame s _ h h1 (Or.inl h2) (Or.inl h3)
  | toggleVideo =>
    obtain ⟨h1, h2, h3⟩ := toggleVideo_frame s
    exact joinInvariant_of_frame s _ h (fun hs => by rw [← hs]; exact h1) (Or.inl h2) (Or.inl h3)
  | toggleAudio =>
    obtain ⟨h1, h2, h3⟩ := toggleAudio_frame s
    exact joinInvariant_of_frame s _ h (fun hs => by rw [← hs]; exact h1) (Or.inl h2) (Or.inl h3)
  | handleJoinMeeting env initResult =>
    show JoinInvariant (handleJoinMeeting s env initResult).state
    cases hls : s.localStream with
    | none =>
      have e : handleJoinMeeting s env initResult = getLocalStream s env := by
        simp only [handleJoinMeeting, hls]
      rw [e]
      obtain ⟨h1, h2, h3⟩ := getLocalStream_frame s env
      exact joinInvariant_of_frame s _ h h1 (Or.inl h2) (Or.inl h3)
    | some ls =>
      have e : (handleJoinMeeting s env initResult).state =
          { (initializeWebRTC s initResult).state with hasJoined := true } := by
        simp only [handleJoinMeeting, hls]
      rw [e]
      obtain ⟨h1, _, _, _⟩ := initializeWebRTC_join_frame s initResult
      have hsome : ({ (initializeWebRTC s initResult).state with hasJoined := true } :
          PageState).localStream.isSome = true := by
        show (initializeWebRTC s initResult).state.localStream.isSome = true
        rw [h1, hls]
        rfl
      exact joinInvariant_of_frame s _ h (fun _ => hsome) (Or.inr hsome) (Or.inr hsome)
  | handleEndCall cleanup =>
    show JoinInvariant (handleEndCall s cleanup).state
    unfold handleEndCall
    split
    · split <;> exact h
    · exact h
  | registry event =>
    cases event <;> exact joinInvariant_of_frame s _ h (fun h1 => h1) (Or.inl rfl) (Or.inl rfl)
  | renderLocalVideo mounted =>
    exact joinInvariant_of_frame s _ h (fun h1 => h1) (Or.inl rfl) (Or.inl rfl)
  | renderRemoteVideo userId =>
    show JoinInvariant (attachRemoteVideo s userId)
    unfold attachRemoteVideo
    split
    · exact joinInvariant_of_frame s _ h (fun h1 => h1) (Or.inl rfl) (Or.inl rfl)
    · exact h

theorem joinInvariant_runActions (acts : List PageAction) (s : PageState)
    (h : JoinInvariant s) : JoinInvariant (runActions s acts) := by
  induction acts generalizing s with
  | nil => exact h
  | cons a acts ih => exact ih _ (joinInvariant_runAction s a h)

/-- Every reachable state of the page satisfies the joining invariant. -/
theorem joinInvariant_of_reachable (s : PageState) (h : Reachable s) : JoinInvariant s := by
  obtain ⟨meetingId, acts, rfl⟩ := h
  apply joinInvariant_runActions
  constructor
  · intro h1; cases h1
  · intro h1; cases h1

theorem managerCall_of_no_stream (s : PageState) (hr : Reachable s) (h : s.localStream = none)
    (call : Effect) : managerCall s call = [] := by
  have hinv := (joinInvariant_of_reachable s hr).1
  unfold managerCall
  cases hm : s.webrtcManagerRef with
  | none => rfl
  | some m =>
    have := hinv (by rw [hm]; rfl)
    rw [h] at this
    cases this

/-- C22. In every reachable state `toggleVideo` throws exactly when a local stream is
present and has no video track; in that case `isVideoOn` has been flipped, nothing else
has changed and the manager is not called.  Without a local stream it only flips
`isVideoOn`: no call, no throw.  The same holds for `toggleAudio` with audio tracks. -/
theorem toggle_raises_iff_no_track (s : PageState) (hr : Reachable s) :
    ((toggleVideo s).raised ≠ none ↔
      ∃ ls, s.localStream = some ls ∧ ls.getVideoTracks = []) ∧
    ((toggleVideo s).raised ≠ none →
      (toggleVideo s).state = { s with isVideoOn := !s.isVideoOn } ∧
      (toggleVideo s).effects = []) ∧
    (s.localStream = none →
      toggleVideo s =
        { state := { s with isVideoOn := !s.isVideoOn }, effects := [], raised := none }) ∧
    ((toggleAudio s).raised ≠ none ↔
      ∃ ls, s.localStream = some ls ∧ ls.getAudioTracks = []) ∧
    ((toggleAudio s).raised ≠ none →
      (toggleAudio s).state = { s with isAudioOn := !s.isAudioOn } ∧
      (toggleAudio s).effects = []) ∧
    (s.localStream = none →
      toggleAudio s =
        { state := { s with isAudioOn := !s.isAudioOn }, effects := [], raised := none }) := by
  refine ⟨?_, ?_, ?_, ?_, ?_, ?_⟩
  · cases hls : s.localStream with
    | none =>
      rw [toggleVideo_of_no_stream s hls]
      constructor
      · intro h; exact absurd rfl h
      · rintro ⟨ls, h, _⟩; cases h
    | some ls =>
      cases hh : ls.getVideoTracks.head? with
      | none =>
        rw [toggleVideo_of_no_track s ls hls hh]
        constructor
        · intro _; exact ⟨ls, rfl, List.head?_eq_none_iff.1 hh⟩
        · intro _ h; cases h
      | some t =>
        rw [toggleVideo_of_track s ls t hls hh]
        constructor
        · intro h; exact absurd rfl h
        · rintro ⟨ls2, h, hnil⟩
          cases h
          rw [hnil] at hh
          cases hh
  · intro hraised
    rcases Option.eq_none_or_eq_some s.localStream with hls | ⟨ls, hls⟩
    · rw [toggleVideo_of_no_stream s hls] at hraised
      exact absurd rfl hraised
    · cases hh : ls.getVideoTracks.head? with
      | none =>
        rw [toggleVideo_of_no_track s ls hls hh]
        exact ⟨rfl, rfl⟩
      | some t =>
        rw [toggleVideo_of_track s ls t hls hh] at hraised
        exact absurd rfl hraised
  · intro hls
    rw [toggleVideo_of_no_stream s hls, managerCall_of_no_stream s hr hls]
  · cases hls : s.localStream with
    | none =>
      rw [toggleAudio_of_no_stream s hls]
      constructor
      · intro h; exact absurd rfl h
      · rintro ⟨ls, h, _⟩; cases h
    | some ls =>
      cases hh : ls.getAudioTracks.head? with
      | none =>
        rw [toggleAudio_of_no_track s ls hls hh]
        constructor
        · intro _; exact ⟨ls, rfl, List.head?_eq_none_iff.1 hh⟩
        · intro _ h; cases h
      | some t =>
        rw [toggleAudio_of_track s ls t hls hh]
        constructor
        · intro h; exact absurd rfl h
        · rintro ⟨ls2, h, hnil⟩
          cases h
          rw [hnil] at hh
          cases hh
  · intro hraised
    rcases Option.eq_none_or_eq_some s.localStream with hls | ⟨ls, hls⟩
    · rw [toggleAudio_of_no_stream s hls] at hraised
      exact absurd rfl hraised
    · cases hh : ls.getAudioTracks.head? with
      | none =>
        rw [toggleAudio_of_no_track s ls hls hh]
        exact ⟨rfl, rfl⟩
      | some t =>
        rw [toggleAudio_of_track s ls t hls hh] at hraised
        exact absurd rfl hraised
  · intro hls
    rw [toggleAudio_of_no_stream s hls, managerCall_of_no_stream s hr hls]

/-- C22, in the lobby of a machine with a microphone and no camera, a state reached by a
successful audio-only acquisition: `toggleVideo` throws there. -/
theorem toggle_raises_iff_no_track_witness :
    Reachable audioOnlyState ∧
    (∃ ls, audioOnlyState.localStream = some ls ∧ ls.getVideoTracks = []) ∧
    (toggleVideo audioOnlyState).raised ≠ none :=
  ⟨⟨some "R1", _, rfl⟩,
   ⟨{ id := "local", tracks :=
        [{ id := "a1", kind := TrackKind.audio, enabled := true,
           readyState := ReadyState.live }] }, rfl, rfl⟩,
   (toggle_raises_iff_no_track audioOnlyState ⟨some "R1", _, rfl⟩).1.2
     ⟨{ id := "local", tracks :=
          [{ id := "a1", kind := TrackKind.audio, enabled := true,
             readyState := ReadyState.live }] }, rfl, rfl⟩⟩

/-- C23. Flag/track consistency: the page starts with `isVideoOn = isAudioOn = true` and no
local stream, and in every state reachable from there (by successful or failed
`getLocalStream` runs, toggles, and the other actions of the page), whenever the local
stream has a video track the `enabled` flag of its first video track equals `isVideoOn`,
and whenever it has an audio track the `enabled` flag of its first audio track equals
`isAudioOn`. -/
theorem flag_track_consistency (s : PageState) (hr : Reachable s) :
    (∀ ls t, s.localStream = some ls → ls.getVideoTracks.head? = some t →
      t.enabled = s.isVideoOn) ∧
    (∀ ls t, s.localStream = some ls → ls.getAudioTracks.head? = some t →
      t.enabled = s.isAudioOn) ∧
    (∀ meetingId, (initialState meetingId).isVideoOn = true ∧
      (initialState meetingId).isAudioOn = true ∧
      (initialState meetingId).localStream = none) := by
  have h := flagsConsistent_of_reachable s hr
  refine ⟨?_, ?_, fun _ => ⟨rfl, rfl, rfl⟩⟩
  · intro ls t hls ht
    exact h ls hls TrackKind.video t ht
  · intro ls t hls ht
    exact h ls hls TrackKind.audio t ht

/-- C23, on the joined page after the camera was toggled off. -/
theorem flag_track_consistency_witness :
    Reachable (runActions (initialState (some "R1")) (joinActions ++ [PageAction.toggleVideo])) ∧
    (runActions (initialState (some "R1")) (joinActions ++ [PageAction.toggleVideo])).isVideoOn =
      false ∧
    (∀ ls t,
      (runActions (initialState (some "R1"))
        (joinActions ++ [PageAction.toggleVideo])).localStream = some ls →
      ls.getVideoTracks.head? = some t → t.enabled = false) :=
  ⟨⟨some "R1", _, rfl⟩, rfl,
   (flag_track_consistency
      (runActions (initialState (some "R1")) (joinActions ++ [PageAction.toggleVideo]))
      ⟨some "R1", _, rfl⟩).1⟩

/-- C25. Join bookkeeping: in every reachable state `handleJoinMeeting` leaves `hasJoined`
true exactly when a local stream was already present; with a stream the state it leaves is
that of `initializeWebRTC` with `hasJoined` set, whether or not a manager was stored;
without a stream it is just a run of `getLocalStream` and `hasJoined` stays false.  So
`hasJoined` comes with a local stream, but not with a manager: the ref keeps its value when
the current user or the meeting id is missing or `manager.initialize` throws, and a state
with `hasJoined` set and an empty manager ref is reachable. -/
theorem join_bookkeeping (s : PageState) (hr : Reachable s) (env : MediaEnv)
    (r : Except JsThrown Unit) :
    ((handleJoinMeeting s env r).state.hasJoined = true ↔ s.localStream.isSome = true) ∧
    (s.localStream.isSome = true →
      (handleJoinMeeting s env r).state =
        { (initializeWebRTC s r).state with hasJoined := true }) ∧
    (s.localStream = none →
      handleJoinMeeting s env r = getLocalStream s env ∧
      (handleJoinMeeting s env r).state.hasJoined = false) ∧
    (s.hasJoined = true → s.localStream.isSome = true) ∧
    (s.currentUser = none ∨ s.meetingId = none ∨ isThrow r = true →
      (handleJoinMeeting s env r).state.webrtcManagerRef = s.webrtcManagerRef) ∧
    (∃ s2, Reachable s2 ∧ s2.hasJoined = true ∧ s2.localStream.isSome = true ∧
      s2.webrtcManagerRef = none) := by
  have hinv := joinInvariant_of_reachable s hr
  have hnone : s.localStream = none →
      handleJoinMeeting s env r = getLocalStream s env ∧
      (handleJoinMeeting s env r).state.hasJoined = false := by
    intro hls
    have e : handleJoinMeeting s env r = getLocalStream s env := by
      simp only [handleJoinMeeting, hls]
    refine ⟨e, ?_⟩
    rw [e, (getLocalStream_frame s env).2.2]
    cases hj : s.hasJoined with
    | false => rfl
    | true =>
      have := hinv.2 hj
      rw [hls] at this
      cases this
  have hsome : s.localStream.isSome = true →
      (handleJoinMeeting s env r).state =
        { (initializeWebRTC s r).state with hasJoined := true } := by
    intro hls
    cases hs : s.localStream with
    | none => rw [hs] at hls; cases hls
    | some ls => simp only [handleJoinMeeting, hs]
  refine ⟨?_, hsome, hnone, hinv.2, ?_, ?_⟩
  · constructor
    · intro hj
      cases hs : s.localStream with
      | none =>
        rw [(hnone hs).2] at hj
        cases hj
      | some ls => rfl
    · intro hls
      rw [hsome hls]
  · intro hcase
    cases hs : s.localStream with
    | none =>
      rw [(hnone hs).1]
      exact (getLocalStream_frame s env).2.1
    | some ls =>
      rw [hsome (by rw [hs]; rfl)]
      exact (initializeWebRTC_join_frame s r).2.2.2 hcase
  · exact ⟨joinedWithoutManagerState, ⟨some "R1", _, rfl⟩, by decide, by decide, by decide⟩

/-- C25, in the lobby with both devices acquired, when `manager.initialize` throws:
`hasJoined` is set and the manager ref stays empty. -/
theorem join_bookkeeping_witness :
    Reachable previewState ∧
    (handleJoinMeeting previewState envBothOpen
      (Except.error (JsThrown.error "Error" "signaling unavailable"))).state.hasJoined = true ∧
    (handleJoinMeeting previewState envBothOpen
      (Except.error (JsThrown.error "Error" "signaling unavailable"))).state.webrtcManagerRef =
      none :=
  ⟨⟨some "R1", _, rfl⟩,
   (join_bookkeeping previewState ⟨some "R1", _, rfl⟩ envBothOpen
      (Except.error (JsThrown.error "Error" "signaling unavailable"))).1.2 rfl,
   (join_bookkeeping previewState ⟨some "R1", _, rfl⟩ envBothOpen
      (Except.error (JsThrown.error "Error" "signaling unavailable"))).2.2.2.2.1
      (Or.inr (Or.inr rfl))⟩

end MeetingPage

/-! ### The meeting page: registry upsert (C26) -/

namespace MeetingPage

/-- C26. Registry upsert is last-write-wins: `onParticipantJoined(p)` leaves under
`p.userId` exactly `p` (whatever was stored there before, stream included) and leaves the
entries of all other ids as they were; `onStreamAdded(id, stream)` on an id that has an
entry changes only the `stream` field of that entry, keeps the keys and the entries of all
other ids, and on an id without an entry leaves the registry unchanged. -/
theorem registry_upsert_last_write_wins (s : PageState) (p : Participant) (id : String)
    (stream : MediaStream) :
    (onParticipantJoined s p).state.participants.get p.userId = some p ∧
    (∀ id2, id2 ≠ p.userId →
      (onParticipantJoined s p).state.participants.get id2 = s.participants.get id2) ∧
    (∀ q, s.participants.get id = some q →
      (onStreamAdded s id stream).state.participants.get id =
        some { userId := q.userId, userName := q.userName, stream := some stream }) ∧
    (∀ id2, id2 ≠ id →
      (onStreamAdded s id stream).state.participants.get id2 = s.participants.get id2) ∧
    (onStreamAdded s id stream).state.participants.keys = s.participants.keys ∧
    (s.participants.get id = none →
      (onStreamAdded s id stream).state.participants = s.participants) := by
  refine ⟨JsMap.get_set_self _ _ _, ?_, ?_, ?_, keys_participantsStreamAdded _ _ _, ?_⟩
  · intro id2 hne
    exact JsMap.get_set_of_ne _ _ _ _ hne
  · intro q hq
    show (participantsStreamAdded s.participants id stream).get id = _
    rw [participantsStreamAdded, hq]
    exact JsMap.get_set_self _ _ _
  · intro id2 hne
    show (participantsStreamAdded s.participants id stream).get id2 = _
    unfold participantsStreamAdded
    cases hg : JsMap.get s.participants id with
    | none => rfl
    | some q => exact JsMap.get_set_of_ne _ _ _ _ hne
  · intro hnone
    show participantsStreamAdded s.participants id stream = s.participants
    rw [participantsStreamAdded, hnone]

end MeetingPage

/-! ### The relay: disconnect (C27) -/

namespace Relay

/-- C27. Disconnect is silent at the relay: handling the disconnect of socket `s` hands no
packet to any socket, in every relay state, in particular right after `s` joined a room;
the members of a room learn that `s` is gone only from an explicit `meeting:leave`, which
hands `meeting:user_left` to each of them. -/
theorem relay_disconnect_silent (st : RelayState) (s : SocketId) :
    (onDisconnect st s).2 = [] ∧
    (∀ t, deliveredTo (onDisconnect st s).2 t = []) ∧
    (∀ r u, (onDisconnect (onMeetingJoin st s r u).1 s).2 = []) ∧
    (∀ r u t p,
      p ∈ deliveredTo
        ((onMeetingJoin st s r u).2 ++ (onDisconnect (onMeetingJoin st s r u).1 s).2) t →
      p = { event := "meeting:user_joined", userId := u } ∧ p.event ≠ "meeting:user_left") ∧
    (∀ r, s ∉ (onDisconnect st s).1.rooms r) ∧
    (∀ r u t, t ∈ st.rooms r → t ≠ s →
      ({ event := "meeting:user_left", userId := u } : Packet) ∈
        deliveredTo (onMeetingLeave st s r u).2 t) := by
  refine ⟨rfl, fun _ => rfl, fun _ _ => rfl, ?_, ?_, ?_⟩
  · intro r u t p hp
    rw [show (onDisconnect (onMeetingJoin st s r u).1 s).2 = [] from rfl, List.append_nil] at hp
    simp only [deliveredTo, List.mem_map, List.mem_filter] at hp
    obtain ⟨d, ⟨hd, _⟩, rfl⟩ := hp
    have hpk := (packet_of_mem_socketToEmit _ s r _ d hd).1
    refine ⟨hpk, ?_⟩
    rw [hpk]
    show "meeting:user_joined" ≠ "meeting:user_left"
    decide
  · intro r h
    simp [onDisconnect, socketLeaveAll, List.mem_filter] at h
  · intro r u t ht hts
    simp only [deliveredTo, List.mem_map, List.mem_filter]
    refine ⟨{ target := t, packet := { event := "meeting:user_left", userId := u } }, ⟨?_, ?_⟩, rfl⟩
    · show _ ∈ socketToEmit (socketLeave st s r) s r _
      simp only [socketToEmit, List.mem_map, List.mem_filter]
      exact ⟨t, ⟨(mem_socketLeave st s t r).2 ⟨ht, hts⟩, by simpa using hts⟩, rfl⟩
    · simp

end Relay

/-! ### Meeting creation and login (C28, C29) -/

namespace Backend

theorem jsSet_foldl_nodup (xs acc : List String) (h : acc.Nodup) :
    (xs.foldl (fun acc x => if x ∈ acc then acc else acc ++ [x]) acc).Nodup := by
  induction xs generalizing acc with
  | nil => exact h
  | cons x xs ih =>
    rw [List.foldl_cons]
    apply ih
    by_cases hx : x ∈ acc
    · rw [if_pos hx]; exact h
    · rw [if_neg hx]
      exact List.Nodup.append h (List.nodup_singleton _)
        (by
          intro a ha hb
          rw [List.mem_singleton] at hb
          exact hx (hb ▸ ha))

theorem mem_jsSet_foldl (xs acc : List String) (u : String) :
    u ∈ xs.foldl (fun acc x => if x ∈ acc then acc else acc ++ [x]) acc ↔ u ∈ acc ∨ u ∈ xs := by
  induction xs generalizing acc with
  | nil => simp
  | cons x xs ih =>
    rw [List.foldl_cons, ih]
    by_cases hx : x ∈ acc
    · rw [if_pos hx, List.mem_cons]
      constructor
      · rintro (h | h)
        · exact Or.inl h
        · exact Or.inr (Or.inr h)
      · rintro (h | h | h)
        · exact Or.inl h
        · exact Or.inl (h ▸ hx)
        · exact Or.inr h
    · rw [if_neg hx, List.mem_append, List.mem_singleton, List.mem_cons]
      tauto

theorem jsSet_nodup (xs : List String) : (jsSet xs).Nodup :=
  jsSet_foldl_nodup xs [] List.nodup_nil

theorem mem_jsSet (xs : List String) (u : String) : u ∈ jsSet xs ↔ u ∈ xs := by
  rw [jsSet, mem_jsSet_foldl]
  simp

theorem filter_eq_singleton_of_nodup (l : List String) (a : String) (hnd : l.Nodup)
    (ha : a ∈ l) : l.filter (fun u => decide (u = a)) = [a] := by
  induction l with
  | nil => cases ha
  | cons x xs ih =>
    rw [List.nodup_cons] at hnd
    by_cases hx : x = a
    · subst hx
      rw [List.filter_cons_of_pos (by simp)]
      congr 1
      rw [List.filter_eq_nil_iff]
      intro u hu
      simp only [decide_eq_true_eq]
      rintro rfl
      exact hnd.1 hu
    · rw [List.filter_cons_of_neg (by simpa using hx)]
      rcases List.mem_cons.1 ha with h | h
      · exact absurd h.symm hx
      · exact ih hnd.2 h

theorem participantRows_participantInserts (meetingId sub : String) (ps : List String) :
    participantRows (participantInserts meetingId sub ps) =
      (jsSet (sub :: ps)).map (fun u => (u, if u = sub then "host" else "attendee")) := by
  unfold participantRows participantInserts
  induction jsSet (sub :: ps) with
  | nil => rfl
  | cons u us ih =>
    simp only [List.map_cons, List.filterMap_cons]
    rw [ih]

theorem participantRows_createMeeting (payload : MeetingPayload)
    (sub meetingId meetingCode : String) :
    participantRows (createMeeting (Except.ok payload) sub meetingId meetingCode none).1 =
      (jsSet (sub :: payload.participants)).map
        (fun u => (u, if u = sub then "host" else "attendee")) := by
  show participantRows (plannedQueries payload sub meetingId meetingCode) = _
  unfold plannedQueries
  rw [← participantRows_participantInserts meetingId sub payload.participants]
  simp [participantRows, List.filterMap_append]

/-- C28 (as stated, refuted). A create-meeting request passes validation, with organizer
`"u1"` and participants `u2, u1, u2, u3`, and the `INSERT INTO meeting` statement throws:
the handler sends `ROLLBACK` and issues no `meeting_participant` insert at all, so no host
row is requested. -/
theorem meeting_creation_db_failure_counterexample :
    (createMeeting (Except.ok samplePayload) "u1" "m1" "c1" (some (1, dbError))).1 =
      [Query.beginTx,
       Query.insertMeeting "m1" "c1" "Review" none "2025-01-01T10:00:00Z"
         "2025-01-01T11:00:00Z" "private" "u1",
       Query.rollbackTx] ∧
    participantRows
      (createMeeting (Except.ok samplePayload) "u1" "m1" "c1" (some (1, dbError))).1 = [] ∧
    (participantRows
      (createMeeting (Except.ok samplePayload) "u1" "m1" "c1" (some (1, dbError))).1).filter
        (fun row => row.2 = "host") = [] := by
  decide

/-- C28 (amended). Meeting creation roles: for a create-meeting request that passes
validation and whose statements all go through, with organizer `sub` and participant list
`payload.participants`, duplicates and the organizer allowed in it, the handler issues
exactly one `meeting_participant` insert per distinct id among the organizer and the
participants; the insert for the organizer has role `host`, every other one `attendee`;
so exactly one host row is requested, and the answer is 201.  When a statement throws, the
handler stops there and sends `ROLLBACK`: the inserts issued are an initial part of that
list (possibly none). -/
theorem meeting_creation_roles (payload : MeetingPayload) (sub meetingId meetingCode : String) :
    ((participantRows
      (createMeeting (Except.ok payload) sub meetingId meetingCode none).1).map
        (fun row => row.1)).Nodup ∧
    (∀ u, u ∈ (participantRows
      (createMeeting (Except.ok payload) sub meetingId meetingCode none).1).map
        (fun row => row.1) ↔ u = sub ∨ u ∈ payload.participants) ∧
    (∀ u role, (u, role) ∈ participantRows
      (createMeeting (Except.ok payload) sub meetingId meetingCode none).1 →
      (u = sub → role = "host") ∧ (u ≠ sub → role = "attendee")) ∧
    (participantRows
      (createMeeting (Except.ok payload) sub meetingId meetingCode none).1).filter
        (fun row => row.2 = "host") = [(sub, "host")] ∧
    (createMeeting (Except.ok payload) sub meetingId meetingCode none).2.status = 201 ∧
    (∀ k err, List.IsPrefix
      (participantRows
        (createMeeting (Except.ok payload) sub meetingId meetingCode (some (k, err))).1)
      (participantRows
        (createMeeting (Except.ok payload) sub meetingId meetingCode none).1)) ∧
    (∀ k err, k < (plannedQueries payload sub meetingId meetingCode).length →
      (createMeeting (Except.ok payload) sub meetingId meetingCode (some (k, err))).1 =
        (plannedQueries payload sub meetingId meetingCode).take (k + 1) ++
          [Query.rollbackTx]) := by
  have hrows := participantRows_createMeeting payload sub meetingId meetingCode
  have hnd := jsSet_nodup (sub :: payload.participants)
  have hkeys : (participantRows
      (createMeeting (Except.ok payload) sub meetingId meetingCode none).1).map
        (fun row => row.1) = jsSet (sub :: payload.participants) := by
    rw [hrows, List.map_map]
    conv_rhs => rw [← List.map_id (jsSet (sub :: payload.participants))]
    apply List.map_congr_left
    intro u _
    rfl
  refine ⟨?_, ?_, ?_, ?_, rfl, ?_, ?_⟩
  rotate_right
  · intro k err hk
    simp [createMeeting, hk]
  · rw [hkeys]; exact hnd
  · intro u
    rw [hkeys, mem_jsSet, List.mem_cons]
  · intro u role hmem
    rw [hrows, List.mem_map] at hmem
    obtain ⟨v, _, hv⟩ := hmem
    simp only [Prod.mk.injEq] at hv
    obtain ⟨rfl, rfl⟩ := hv
    constructor
    · intro h; rw [if_pos h]
    · intro h; rw [if_neg h]
  · rw [hrows, List.filter_map]
    have hf : (jsSet (sub :: payload.participants)).filter
        ((fun row : String × String => decide (row.2 = "host")) ∘
          fun u => (u, if u = sub then "host" else "attendee")) =
        (jsSet (sub :: payload.participants)).filter (fun u => decide (u = sub)) := by
      apply List.filter_congr
      intro u _
      by_cases hu : u = sub
      · simp [hu]
      · simp [hu]
    rw [hf, filter_eq_singleton_of_nodup _ sub hnd
      ((mem_jsSet _ _).2 (List.mem_cons_self _ _))]
    simp
  · intro k err
    show List.IsPrefix
      (participantRows (createMeeting (Except.ok payload) sub meetingId meetingCode
        (some (k, err))).1)
      (participantRows (plannedQueries payload sub meetingId meetingCode))
    by_cases hk : k < (plannedQueries payload sub meetingId meetingCode).length
    · have e : (createMeeting (Except.ok payload) sub meetingId meetingCode (some (k, err))).1 =
          (plannedQueries payload sub meetingId meetingCode).take (k + 1) ++
            [Query.rollbackTx] := by
        simp [createMeeting, hk]
      rw [e]
      have e2 : participantRows ((plannedQueries payload sub meetingId meetingCode).take (k + 1)
          ++ [Query.rollbackTx]) =
          participantRows ((plannedQueries payload sub meetingId meetingCode).take (k + 1)) := by
        simp [participantRows, List.filterMap_append]
      rw [e2]
      exact List.IsPrefix.filterMap _ (List.take_prefix _ _)
    · have e : (createMeeting (Except.ok payload) sub meetingId meetingCode (some (k, err))).1 =
          plannedQueries payload sub meetingId meetingCode := by
        simp [createMeeting, hk]
      rw [e]

/-- C29. Login failures are indistinguishable: for a well-formed login request, the
response when no user has the email and the response when the user exists but the password
does not match are the same response, status 401 with body `Invalid credentials`, and
neither carries a token. -/
theorem login_failures_indistinguishable (creds : Credentials)
    (db1 db2 : String → Except HttpError (List UserRow)) (compare : String → String → Bool)
    (signAccess signRefresh : UserRow → String) (user : UserRow) (rest : List UserRow)
    (h1 : db1 creds.email = Except.ok [])
    (h2 : db2 creds.email = Except.ok (user :: rest))
    (h3 : compare creds.password user.password_hash = false) :
    login (Except.ok creds) db1 compare signAccess signRefresh =
      login (Except.ok creds) db2 compare signAccess signRefresh ∧
    login (Except.ok creds) db1 compare signAccess signRefresh =
      { status := 401, body := Body.message "Invalid credentials" } ∧
    login (Except.ok creds) db2 compare signAccess signRefresh =
      { status := 401, body := Body.message "Invalid credentials" } ∧
    (login (Except.ok creds) db1 compare signAccess signRefresh).hasToken = false ∧
    (login (Except.ok creds) db2 compare signAccess signRefresh).hasToken = false := by
  have e1 : login (Except.ok creds) db1 compare signAccess signRefresh =
      { status := 401, body := Body.message "Invalid credentials" } := by
    simp [login, h1]
  have e2 : login (Except.ok creds) db2 compare signAccess signRefresh =
      { status := 401, body := Body.message "Invalid credentials" } := by
    simp [login, h2, h3]
  refine ⟨by rw [e1, e2], e1, e2, ?_, ?_⟩
  · rw [e1]; rfl
  · rw [e2]; rfl

/-- C29, for the password `wrong` on an existing account and on an empty user table. -/
theorem login_failures_indistinguishable_witness :
    login (Except.ok { email := "ann@example.org", password := "wrong" }) noUsers sampleCompare
        (fun u => u.user_id) (fun u => u.user_id) =
      login (Except.ok { email := "ann@example.org", password := "wrong" }) oneUser
        sampleCompare (fun u => u.user_id) (fun u => u.user_id) :=
  (login_failures_indistinguishable { email := "ann@example.org", password := "wrong" }
    noUsers oneUser sampleCompare (fun u => u.user_id) (fun u => u.user_id)
    { user_id := "u1", email := "ann@example.org", password_hash := "hash:secret",
      full_name := "Ann", role := "faculty" } [] rfl rfl (by decide)).1

end Backend
